import Mathlib

/-!
Verification of the ThreatFlow middleware against its natural-language
specification.

The development shallowly embeds the Python sources of the repository:

* `app/services/condition_evaluator.py`   (ConditionEvaluatorMixin)
* `app/services/analyzer_schema.py`       (AnalyzerSchemaManager)
* `app/services/intelowl_service.py`      (condition evaluation +
  `execute_workflow_with_conditionals`)
* `app/services/workflow_parser.py`       (WorkflowParser)
* `tests/test_distribution_logic.py`      (TreeBasedDistributionSimulator)

Python values are modelled by the JSON-like type `Val` (no floats: the
reports and conditions handled by the claims are null/bool/int/str/list/dict
valued; numeric string parsing for `float(...)` is modelled over `Rat`).
Python `dict`s are association lists in insertion order; `dict.get` is
first-match lookup, and item assignment replaces in place or appends.
Raising code is modelled in the `Except PyErr` monad; code inside a
`try/except Exception` block has its error caught by the caller exactly as
in the source.  Functions that recurse through nested values take an
explicit fuel argument initialised to a bound strictly larger than the
recursion depth (`sizeOf` of the value, or the number of graph nodes plus
edges for the DFS traversals), so every definition is executable by the
kernel; the fuel-exhaustion branches are unreachable for those initial
values.
-/

/-- JSON-like Python value: None, bool, int, str, list, dict (association
list in insertion order). -/
inductive Val where
  | null : Val
  | bool : Bool → Val
  | int : Int → Val
  | str : String → Val
  | list : List Val → Val
  | dict : List (String × Val) → Val

mutual

/-- Structural (Lean-side) boolean equality on values, used to build the
`DecidableEq` instance for `Val` (the nested inductive defeats deriving). -/
def valBEq : Val → Val → Bool
  | .null, .null => true
  | .bool a, .bool b => a == b
  | .int a, .int b => a == b
  | .str a, .str b => a == b
  | .list as', .list bs => valBEqList as' bs
  | .dict as', .dict bs => valBEqDict as' bs
  | _, _ => false

/-- Structural boolean equality on value lists. -/
def valBEqList : List Val → List Val → Bool
  | [], [] => true
  | a :: as', b :: bs => valBEq a b && valBEqList as' bs
  | _, _ => false

/-- Structural boolean equality on binding lists. -/
def valBEqDict : List (String × Val) → List (String × Val) → Bool
  | [], [] => true
  | (k, a) :: as', (k2, b) :: bs => k == k2 && valBEq a b && valBEqDict as' bs
  | _, _ => false

end

theorem valBEq_iff : ∀ a b, valBEq a b = true ↔ a = b := by
  refine valBEq.induct
    (fun a b => valBEq a b = true ↔ a = b)
    (fun as' bs => valBEqDict as' bs = true ↔ as' = bs)
    (fun as' bs => valBEqList as' bs = true ↔ as' = bs)
    ?_ ?_ ?_ ?_ ?_ ?_ ?_ ?_ ?_ ?_ ?_ ?_ ?_
  · simp [valBEq]
  · intro a b; simp [valBEq]
  · intro a b; simp [valBEq]
  · intro a b; simp [valBEq]
  · intro as' bs ih; simpa [valBEq] using ih
  · intro as' bs ih; simpa [valBEq] using ih
  · intro t x h1 h2 h3 h4 h5 h6
    cases t <;> cases x <;>
      first
        | exact (h1 rfl rfl).elim
        | exact (h2 _ _ rfl rfl).elim
        | exact (h3 _ _ rfl rfl).elim
        | exact (h4 _ _ rfl rfl).elim
        | exact (h5 _ _ rfl rfl).elim
        | exact (h6 _ _ rfl rfl).elim
        | simp [valBEq]
  · simp [valBEqList]
  · intro a as' b bs ih1 ih2; simp [valBEqList, ih1, ih2]
  · intro t x h1 h2
    cases t <;> cases x <;>
      first
        | exact (h1 rfl rfl).elim
        | exact (h2 _ _ _ _ rfl rfl).elim
        | simp [valBEqList]
  · simp [valBEqDict]
  · intro k a as' k2 b bs ih1 ih2
    simp only [valBEqDict, Bool.and_eq_true, beq_iff_eq, ih1, ih2, List.cons.injEq, Prod.mk.injEq]
    try tauto
  · intro t x h1 h2
    cases t <;> cases x <;>
      first
        | exact (h1 rfl rfl).elim
        | (rename_i p ps q qs; exact (h2 p.1 p.2 ps q.1 q.2 qs rfl rfl).elim)
        | simp [valBEqDict]

instance : DecidableEq Val := fun a b =>
  decidable_of_iff (valBEq a b = true) (valBEq_iff a b)

/-- Python `v is None`. -/
def isNullVal : Val → Bool
  | .null => true
  | _ => false

/-- Python truthiness of a value (`if v:`). -/
def pyTruthy : Val → Bool
  | .null => false
  | .bool b => b
  | .int n => n ≠ 0
  | .str s => s ≠ ""
  | .list xs => !xs.isEmpty
  | .dict kvs => !kvs.isEmpty

/-- First-match lookup in an association-list dict (`d.get(k)` returns
`none` when the key is absent). -/
def lookupVal : List (String × Val) → String → Option Val
  | [], _ => none
  | (k, v) :: rest, key => if k = key then some v else lookupVal rest key

/-- `d.get(k, dflt)`. -/
def lookupValD (d : List (String × Val)) (key : String) (dflt : Val) : Val :=
  (lookupVal d key).getD dflt

/-- `k in d` for a dict. -/
def pyMemKey (d : List (String × Val)) (key : String) : Bool :=
  (lookupVal d key).isSome

/-- `d[k] = v`: replace the value in place when the key exists, otherwise
append the new binding at the end (Python dicts preserve insertion order). -/
def pySet (d : List (String × Val)) (key : String) (v : Val) : List (String × Val) :=
  match d with
  | [] => [(key, v)]
  | (k, w) :: rest => if k = key then (k, v) :: rest else (k, w) :: pySet rest key v

mutual

/-- Python `==` between values.  `bool` is a subclass of `int`, so
`True == 1` and `False == 0`; lists compare elementwise, dicts compare by
key lookup (our dicts have unique keys wherever they are compared). -/
def pyEq : Val → Val → Bool
  | .null, .null => true
  | .bool a, .bool b => a = b
  | .bool a, .int n => (if a then (1 : Int) else 0) = n
  | .int n, .bool a => n = (if a then (1 : Int) else 0)
  | .int a, .int b => a = b
  | .str a, .str b => a = b
  | .list a, .list b => pyEqList a b
  | .dict a, .dict b => a.length = b.length && pyEqDict a b
  | _, _ => false

/-- Elementwise Python `==` on lists. -/
def pyEqList : List Val → List Val → Bool
  | [], [] => true
  | a :: as', b :: bs => pyEq a b && pyEqList as' bs
  | _, _ => false

/-- Python `==` on dicts: every binding of the first is matched in the
second (lengths are compared by the caller). -/
def pyEqDict : List (String × Val) → List (String × Val) → Bool
  | [], _ => true
  | (k, v) :: rest, b =>
    (match lookupVal b k with
     | some w => pyEq v w
     | none => false) && pyEqDict rest b

end

/-- `x in l` for a Python list (membership by `==`). -/
def pyMemList (x : Val) (l : List Val) : Bool :=
  l.any (fun y => pyEq x y)

/-- Hashable Python values (list and dict are unhashable; using them as a
dict/set key raises `TypeError`). -/
def pyHashable : Val → Bool
  | .list _ => false
  | .dict _ => false
  | _ => true

/-- Modelled Python exceptions; messages are carried approximately (they
are only ever observed through `str(e)`). -/
inductive PyErr where
  | typeError (msg : String)
  | valueError (msg : String)
  | attributeError (msg : String)
deriving DecidableEq

/-- The message of an exception, as produced by `str(e)`. -/
def pyErrMsg : PyErr → String
  | .typeError m => m
  | .valueError m => m
  | .attributeError m => m

instance {ε α : Type} [DecidableEq ε] [DecidableEq α] : DecidableEq (Except ε α) := fun a b =>
  match a, b with
  | .ok x, .ok y => if h : x = y then isTrue (by rw [h]) else isFalse (by simp [h])
  | .error x, .error y => if h : x = y then isTrue (by rw [h]) else isFalse (by simp [h])
  | .ok _, .error _ => isFalse (by simp)
  | .error _, .ok _ => isFalse (by simp)

/-- `as` is a prefix of `bs` (character lists; executable all the way down
so that concrete conditions can be settled by evaluation). -/
def charPrefix : List Char → List Char → Bool
  | [], _ => true
  | _ :: _, [] => false
  | a :: as', b :: bs => a = b && charPrefix as' bs

/-- `needle` occurs as a contiguous infix of `hay`. -/
def charInfix : List Char → List Char → Bool
  | needle, [] => charPrefix needle []
  | needle, b :: bs => charPrefix needle (b :: bs) || charInfix needle bs

/-- Substring test, `needle in hay` for Python strings (the empty needle is
contained in everything). -/
def pyInStr (needle hay : String) : Bool :=
  charInfix needle.toList hay.toList

/-- `s.lower()` (ASCII case folding, which covers every string these
services compare). -/
def pyLower (s : String) : String := String.mk (s.toList.map Char.toLower)

/-- `p.isPrefixOf s` over the underlying character lists (`str.startswith`). -/
def strPrefix (p s : String) : Bool := charPrefix p.toList s.toList

/-- Quote a string the way Python `repr` does: single quotes unless the
string contains a single quote and no double quote.  Only the quote
character, backslash and the common control characters are escaped; other
characters are kept verbatim (sufficient for the report data exercised
here). -/
def pyReprStr (s : String) : String :=
  if s.toList.contains '\'' && !(s.toList.contains '"') then
    "\"" ++ String.join (s.toList.map (fun c =>
      if c = '\\' then "\\\\" else if c = '"' then "\\\""
      else if c = '\n' then "\\n" else if c = '\r' then "\\r"
      else if c = '\t' then "\\t" else String.mk [c])) ++ "\""
  else
    "'" ++ String.join (s.toList.map (fun c =>
      if c = '\\' then "\\\\" else if c = '\'' then "\\'"
      else if c = '\n' then "\\n" else if c = '\r' then "\\r"
      else if c = '\t' then "\\t" else String.mk [c])) ++ "'"

mutual

/-- Python `repr` of a value. -/
def pyRepr : Val → String
  | .null => "None"
  | .bool b => if b then "True" else "False"
  | .int n => toString n
  | .str s => pyReprStr s
  | .list xs => "[" ++ String.intercalate ", " (pyReprList xs) ++ "]"
  | .dict kvs => "\x7b" ++ String.intercalate ", " (pyReprDict kvs) ++ "\x7d"

/-- Reprs of the elements of a list. -/
def pyReprList : List Val → List String
  | [] => []
  | v :: rest => pyRepr v :: pyReprList rest

/-- Reprs of the bindings of a dict. -/
def pyReprDict : List (String × Val) → List String
  | [] => []
  | (k, v) :: rest => (pyReprStr k ++ ": " ++ pyRepr v) :: pyReprDict rest

end

/-- Python `str` of a value (identity on strings, `repr` inside
containers). -/
def pyStr : Val → String
  | .str s => s
  | v => pyRepr v

section NavigateFieldPath

/-- Python whitespace stripped by `int(...)` / `float(...)`. -/
def isPySpace (c : Char) : Bool :=
  c = ' ' || c = '\t' || c = '\n' || c = '\r' || c = '\x0b' || c = '\x0c'

/-- Digits to a natural number. -/
def digitsToNat (l : List Char) : Nat :=
  l.foldl (fun a c => a * 10 + (c.toNat - 48)) 0

/-- `int(s)` for a string: strip whitespace, optional sign, then a
non-empty run of digits; otherwise `none` (`ValueError`).  PEP 515
underscores are not modelled (never exercised by the claims). -/
def pyParseInt (s : String) : Option Int :=
  let t := ((s.toList.dropWhile isPySpace).reverse.dropWhile isPySpace).reverse
  match t with
  | '-' :: rest =>
      if rest ≠ [] && rest.all Char.isDigit then some (-(digitsToNat rest : Int)) else none
  | '+' :: rest =>
      if rest ≠ [] && rest.all Char.isDigit then some (digitsToNat rest : Int) else none
  | _ =>
      if t ≠ [] && t.all Char.isDigit then some (digitsToNat t : Int) else none

/-- `float(s)` for a string: sign, digits with at most one decimal point
(exponents, `inf` and `nan` are not modelled — never exercised by the
claims). -/
def pyParseFloat (s : String) : Option Rat :=
  let t := ((s.toList.dropWhile isPySpace).reverse.dropWhile isPySpace).reverse
  let core : List Char → Option Rat := fun l =>
    match l.splitOn '.' with
    | [a] => if a ≠ [] && a.all Char.isDigit then some ((digitsToNat a : Int) : Rat) else none
    | [a, b] =>
        if (a ≠ [] || b ≠ []) && a.all Char.isDigit && b.all Char.isDigit then
          some (((digitsToNat a : Int) : Rat) + (digitsToNat b : Rat) / ((10 : Rat) ^ b.length))
        else none
    | _ => none
  match t with
  | '-' :: rest => (core rest).map Neg.neg
  | '+' :: rest => core rest
  | _ => core t

/-- `float(x)` on a value: exact on ints, 0/1 on bools, parsed on strings,
`none` (raises) otherwise. -/
def pyFloatOfVal : Val → Option Rat
  | .int n => some (n : Rat)
  | .bool b => some (if b then 1 else 0)
  | .str s => pyParseFloat s
  | _ => none

/-- The `part[:part.index("[")]` field name of a bracketed path segment. -/
def bracketFieldName (part : String) : String :=
  String.mk (part.toList.take (part.toList.findIdx (fun c => c = '[')))

/-- The `part[part.index("[")+1:part.index("]")]` index substring of a
bracketed path segment (empty when the slice is degenerate, as in
Python). -/
def bracketIndexStr (part : String) : String :=
  let l := part.toList
  let i := l.findIdx (fun c => c = '[')
  let j := l.findIdx (fun c => c = ']')
  String.mk ((l.drop (i + 1)).take (j - (i + 1)))

/-- `lst[index]` guarded by `index < len(lst)` as in the source, with
Python's negative indexing; a negative index past the front raises
`IndexError`, which the source catches and turns into `None`
(`Val.null`). -/
def pyListIndexOrNull (xs : List Val) (index : Int) : Val :=
  if index < (xs.length : Int) then
    if 0 ≤ index then (xs.get? index.toNat).getD .null
    else if 0 ≤ index + (xs.length : Int) then (xs.get? (index + xs.length).toNat).getD .null
    else .null
  else .null

/-- Loop body of `ConditionEvaluatorMixin._navigate_field_path`: walk the
dot-separated segments.  Python `None` is `Val.null`; an early `return
None` and a final `None` value are indistinguishable, so both are
`.null`. -/
def navigateGo : Val → List String → Val
  | current, [] => current
  | current, part :: rest =>
    if part.toList.contains '[' && part.toList.contains ']' then
      let c1 := match current with
        | .dict d => lookupValD d (bracketFieldName part) .null
        | _ => current
      match c1 with
      | .list xs =>
        match pyParseInt (bracketIndexStr part) with
        | none => .null
        | some index =>
          let c2 := pyListIndexOrNull xs index
          if c2 = .null then .null else navigateGo c2 rest
      | c1' => if c1' = .null then .null else navigateGo c1' rest
    else
      match current with
      | .dict d =>
        let c1 := lookupValD d part .null
        if c1 = .null then .null else navigateGo c1 rest
      | _ => .null

/-- `field_path.split(".")` on the character list: split at every dot, no
collapsing of empty segments (Python `str.split` with an explicit
separator). -/
def splitCharDot : List Char → List (List Char)
  | [] => [[]]
  | x :: rest =>
    match splitCharDot rest with
    | h :: t => if x = '.' then [] :: h :: t else (x :: h) :: t
    | [] => [[x]]

/-- `ConditionEvaluatorMixin._navigate_field_path` (total: every internal
exception is caught by the source and converted to `None`). -/
def navigateFieldPath (data : Val) (fieldPath : String) : Val :=
  if fieldPath = "" then data
  else navigateGo data ((splitCharDot fieldPath.toList).map (fun l => String.mk l))

end NavigateFieldPath

section AnalyzerSchema

/-- Per-analyzer schema data observed by the evaluator: the `path`s of
`output_fields` and the `malware_indicators` of `ANALYZER_SCHEMAS` in
`analyzer_schema.py` (descriptions, examples and condition templates are
never read by the evaluation code and are omitted). -/
structure AnalyzerSchema where
  outputFieldPaths : List String
  malwareIndicators : List String
deriving DecidableEq

/-- `AnalyzerSchemaManager.ANALYZER_SCHEMAS`. -/
def analyzerSchemas : List (String × AnalyzerSchema) :=
  [("File_Info",
    ⟨["report.md5", "report.sha1", "report.sha256", "report.tlsh", "report.ssdeep",
      "report.magic", "report.mimetype", "report.filetype", "report.exiftool"], []⟩),
   ("Strings_Info",
    ⟨["report.data", "report.uris", "report.exceeded_max_number_of_strings"], ["data"]⟩),
   ("Doc_Info",
    ⟨["report.mraptor", "report.olevba", "report.msodde", "report.uris",
      "report.extracted_CVEs"], ["mraptor"]⟩),
   ("ClamAV", ⟨["report.detections", "report.raw_report"], ["detections"]⟩),
   ("Yara",
    ⟨["report.yara-rules_rules", "report.elastic_protections-artifacts",
      "report.advanced-threat-research_yara-rules", "report.neo23x0_signature-base",
      "report.bartblaze_yara-rules", "report.intezer_yara-rules",
      "report.inquest_yara-rules", "report.reversinglabs_reversinglabs-yara-rules",
      "data_model.evaluation", "data_model.signatures"],
     ["yara-rules_rules", "elastic_protections-artifacts",
      "advanced-threat-research_yara-rules", "neo23x0_signature-base"]⟩),
   ("PE_Info",
    ⟨["report.pe_info.signature.valid", "report.pe_info.signature.signer",
      "report.pe_info.imphash", "report.pe_info.sections", "report.pe_info.imports",
      "report.pe_info.exports", "report.pe_info.compile_time"],
     ["imports", "sections"]⟩),
   ("Capa_Info",
    ⟨["report.capabilities", "report.mitre_attack", "report.mbc"],
     ["capabilities", "mitre_attack"]⟩),
   ("PEframe",
    ⟨["report.suspicious_functions", "report.suspicious_sections", "report.meta"],
     ["suspicious_functions", "suspicious_sections"]⟩),
   ("PDF_Info",
    ⟨["report.javascript", "report.suspicious_objects", "report.urls",
      "report.embedded_files"],
     ["javascript", "suspicious_objects", "embedded_files"]⟩),
   ("Rtf_Info", ⟨["report.rtfobj", "report.follina"], ["rtfobj.ole_objects", "follina"]⟩),
   ("Xlm_Macro_Deobfuscator",
    ⟨["report.macros", "report.suspicious_calls", "report.deobfuscated_code"],
     ["suspicious_calls", "macros"]⟩),
   ("Signature_Info",
    ⟨["report.signed", "report.valid", "report.signer", "report.timestamp"], []⟩),
   ("BoxJS",
    ⟨["report.IOC.json", "report.snippets.json", "report.analysis.log", "report.uris"],
     ["IOC.json"]⟩),
   ("APK_Artifacts",
    ⟨["report.permission", "report.intent", "report.application"], ["permission"]⟩),
   ("Androguard",
    ⟨["report.package", "report.permissions", "report.activities", "report.services",
      "report.receivers"], []⟩),
   ("APKiD", ⟨["report.files", "report.rules_sha256", "report.apkid_version"], ["files"]⟩),
   ("Quark_Engine",
    ⟨["report.threat_level", "report.total_score", "report.crimes", "report.md5",
      "report.size_bytes", "report.apk_filename"],
     ["threat_level", "total_score", "crimes"]⟩),
   ("Flare_Capa",
    ⟨["report.capabilities", "report.attack_patterns"],
     ["capabilities", "attack_patterns"]⟩),
   ("UnpacMe",
    ⟨["report.unpacked", "report.packer_type", "report.unpacked_hash"], ["packer_type"]⟩),
   ("VirusTotal_v3_Get_File",
    ⟨["report.stats.malicious", "report.stats.suspicious", "report.stats.harmless",
      "report.total_votes"],
     ["stats.malicious", "stats.suspicious"]⟩),
   ("Suricata", ⟨["report.alerts", "report.flows"], ["alerts"]⟩)]

/-- `VERIFIED_MALWARE_INDICATORS` from `condition_evaluator.py`. -/
def verifiedMalwareIndicators : List (String × List String) :=
  [("ClamAV", ["detections"]),
   ("Yara", ["yara-rules_rules", "elastic_protections-artifacts",
             "advanced-threat-research_yara-rules", "neo23x0_signature-base"]),
   ("Doc_Info", ["mraptor"]),
   ("Quark_Engine", ["threat_level", "total_score", "crimes"]),
   ("APK_Artifacts", ["permission"]),
   ("APKiD", ["files"]),
   ("Rtf_Info", ["rtfobj.ole_objects", "follina"]),
   ("BoxJS", ["IOC.json"]),
   ("Strings_Info", ["data"]),
   ("File_Info", [])]

/-- `AnalyzerSchemaManager.get_analyzer_schema`: a dict `.get` whose key may
be any value — an unhashable key raises `TypeError`. -/
def getAnalyzerSchemaE (name : Val) : Except PyErr (Option AnalyzerSchema) :=
  if pyHashable name then
    .ok (match name with
         | .str s => (analyzerSchemas.find? (fun p => p.1 = s)).map (fun p => p.2)
         | _ => none)
  else .error (.typeError "unhashable type")

/-- `AnalyzerSchemaManager.get_malware_indicators`. -/
def getMalwareIndicatorsE (name : Val) : Except PyErr (List String) := do
  match (← getAnalyzerSchemaE name) with
  | some sch => pure sch.malwareIndicators
  | none => pure []

/-- `AnalyzerSchemaManager.suggest_field_paths`; `startswith` with a
non-string argument raises `TypeError`. -/
def suggestFieldPathsE (name : Val) (partialPath : Val) : Except PyErr (List String) := do
  let fields ← do
    match (← getAnalyzerSchemaE name) with
    | some sch => pure sch.outputFieldPaths
    | none => pure ([] : List String)
  if !pyTruthy partialPath then pure fields
  else
    match partialPath with
    | .str p =>
      let sug := fields.filter (fun fp => strPrefix p fp)
      let sug := if sug.isEmpty then fields.filter (fun fp => pyInStr (pyLower p) (pyLower fp)) else sug
      pure (sug.take 10)
    | _ => .error (.typeError "startswith first arg must be str")

/-- `AnalyzerSchemaManager.validate_field_path`. -/
def validateFieldPathE (analyzerName : Val) (fieldPath : Val) : Except PyErr (Bool × String) := do
  match (← getAnalyzerSchemaE analyzerName) with
  | none => pure (false, "Unknown analyzer: " ++ pyStr analyzerName)
  | some sch =>
    let fieldPaths := sch.outputFieldPaths
    if (match fieldPath with | .str f => fieldPaths.contains f | _ => false) then
      pure (true, "Valid field path")
    else
      match fieldPath with
      | .str f =>
        let matching := fieldPaths.filter (fun fp => strPrefix f fp || strPrefix fp f)
        if !matching.isEmpty then
          pure (true, "Field path matches: " ++ String.intercalate ", " (matching.take 3))
        else
          pure (false, "Field path not found in " ++ pyStr analyzerName ++
            " schema. Available fields: " ++ String.intercalate ", " (fieldPaths.take 5))
      | _ => .error (.typeError "startswith first arg must be str")

/-- The four field-comparison condition types. -/
def fieldCondTypes : List Val :=
  [.str "field_equals", .str "field_contains", .str "field_greater_than",
   .str "field_less_than"]

/-- `AnalyzerSchemaManager.validate_condition` (error messages are carried
without quote characters). -/
def validateConditionE (c : List (String × Val)) : Except PyErr (Bool × List String) := do
  let e1 : List String := if !pyMemKey c "type" then ["Condition must have type field"] else []
  let e2 : List String :=
    if !pyMemKey c "source_analyzer" then ["Condition must have source_analyzer field"] else []
  let errors := e1 ++ e2
  if !errors.isEmpty then pure (false, errors)
  else do
    let condType := lookupValD c "type" .null
    let analyzer := lookupValD c "source_analyzer" .null
    let schemaOpt ← getAnalyzerSchemaE analyzer
    let errors : List String :=
      if schemaOpt.isNone then ["Unknown analyzer: " ++ pyStr analyzer] else []
    let errors ← do
      if pyMemList condType fieldCondTypes then do
        let errors := errors ++
          (if !pyMemKey c "field_path" then
            ["Condition type " ++ pyStr condType ++ " requires field_path"] else [])
        let errors ← do
          if pyMemKey c "field_path" then
            let analyzerKnown : Bool := match analyzer with
              | .str s => (analyzerSchemas.find? (fun p => p.1 = s)).isSome
              | _ => false
            if analyzerKnown then do
              let (isValid, msg) ← validateFieldPathE analyzer (lookupValD c "field_path" .null)
              pure (if !isValid then errors ++ [msg] else errors)
            else pure errors
          else pure errors
        pure (errors ++
          (if !pyMemKey c "expected_value" then
            ["Condition type " ++ pyStr condType ++ " requires expected_value"] else []))
      else pure errors
    let errors := errors ++
      (if pyEq condType (.str "capability_detected") && !pyMemKey c "expected_value" then
        ["Capability detection requires expected_value (capability name)"] else [])
    pure (errors.isEmpty, errors)

end AnalyzerSchema

section ConditionEvaluator

/-- `v.get(key, dflt)` on an arbitrary value: raises `AttributeError` when
`v` is not a dict. -/
def pyValGetE (v : Val) (key : String) (dflt : Val) : Except PyErr Val :=
  match v with
  | .dict d => .ok (lookupValD d key dflt)
  | _ => .error (.attributeError "object has no attribute get")

/-- Iterating a Python value: a list yields its elements, a string its
characters, a dict its keys; anything else raises `TypeError`. -/
def pyIterateE : Val → Except PyErr (List Val)
  | .list xs => .ok xs
  | .str s => .ok (s.toList.map (fun c => .str (String.mk [c])))
  | .dict d => .ok (d.map (fun kv => .str kv.1))
  | _ => .error (.typeError "object is not iterable")

/-- `isinstance(v, list) and len(v) > 0`. -/
def isNonEmptyList : Val → Bool
  | .list xs => !xs.isEmpty
  | _ => false

/-- `isinstance(v, (int, float))` (Python `bool` is a subclass of `int`),
returning the numeric value. -/
def pyNumOf : Val → Option Rat
  | .int n => some (n : Rat)
  | .bool b => some (if b then 1 else 0)
  | _ => none

/-- `name.lower() if name else ""`: raises `AttributeError` on truthy
non-strings. -/
def pyLowerIfTruthy (v : Val) : Except PyErr String :=
  if !pyTruthy v then .ok ""
  else match v with
  | .str s => .ok (pyLower s)
  | _ => .error (.attributeError "object has no attribute lower")

/-- `ConditionEvaluatorMixin._check_contains`. -/
def checkContainsB (value expected : Val) : Bool :=
  match value with
  | .str s => pyInStr (pyStr expected) s
  | .list xs => pyMemList expected xs || xs.any (fun item => pyInStr (pyStr expected) (pyStr item))
  | _ => false

/-- `ConditionEvaluatorMixin._get_safe_default`. -/
def getSafeDefault (c : List (String × Val)) : Bool :=
  let condType := lookupValD c "type" .null
  if pyMemList condType
      [.str "verdict_malicious", .str "verdict_suspicious", .str "has_detections",
       .str "yara_rule_match"] then false
  else if pyMemList condType [.str "verdict_clean", .str "analyzer_success"] then false
  else if pyEq condType (.str "analyzer_failed") then true
  else false

/-- The nineteen Yara rule-set field names scanned by `_check_malicious`. -/
def yaraRuleSetsMal : List String :=
  ["yara-rules_rules", "elastic_protections-artifacts",
   "advanced-threat-research_yara-rules", "neo23x0_signature-base",
   "bartblaze_yara-rules", "intezer_yara-rules", "inquest_yara-rules",
   "reversinglabs_reversinglabs-yara-rules", "mandiant_red_team_tool_countermeasures",
   "dr4k0nia_yara-rules", "embee-research_yara", "fboldewin_yara-rules",
   "jpcertcc_jpcert-yara", "sbousseaden_yarahunts", "strangerealintel_dailyioc",
   "stratosphereips_yara-rules", "sifalcon_detection", "elceef_yara-rulz",
   "yaraify-api.abuse.ch_yaraify-rules"]

/-- The seven Yara rule-set field names scanned by the `yara_rule_match`
branch of `_evaluate_primary`. -/
def yaraRuleSetsPrimary : List String :=
  ["yara-rules_rules", "elastic_protections-artifacts",
   "advanced-threat-research_yara-rules", "neo23x0_signature-base",
   "bartblaze_yara-rules", "intezer_yara-rules", "inquest_yara-rules"]

/-- Per-match loop of the Yara branch of `_check_malicious`: utility rules
under `utils/domain.yar` or `utils/url.yar` are skipped, everything else is
a detection; the `in` test raises on a non-string `path` value. -/
def yaraScanMatchesMal : List Val → Except PyErr Bool
  | [] => .ok false
  | m :: rest =>
    let rulePath := match m with
      | .dict md => lookupValD md "path" (.str "")
      | _ => .str ""
    match rulePath with
    | .str p =>
      if pyInStr "utils/domain.yar" p || pyInStr "utils/url.yar" p then
        yaraScanMatchesMal rest
      else .ok true
    | _ => .error (.typeError "argument of type is not iterable")

/-- Rule-set loop of the Yara branch of `_check_malicious`. -/
def checkYaraRuleSetsMal (reportData : Val) : List String → Except PyErr Bool
  | [] => .ok false
  | rs :: rest => do
    let ms ← pyValGetE reportData rs (.list [])
    match ms with
    | .list xs => do
      if (← yaraScanMatchesMal xs) then pure true
      else checkYaraRuleSetsMal reportData rest
    | _ => checkYaraRuleSetsMal reportData rest

/-- Per-match loop of the `yara_rule_match` branch of `_evaluate_primary`
(only `utils/` paths are filtered there). -/
def yaraScanMatchesPrimary : List Val → Except PyErr Bool
  | [] => .ok false
  | m :: rest =>
    let rulePath := match m with
      | .dict md => lookupValD md "path" (.str "")
      | _ => .str ""
    match rulePath with
    | .str p =>
      if pyInStr "utils/" p then yaraScanMatchesPrimary rest
      else .ok true
    | _ => .error (.typeError "argument of type is not iterable")

/-- Rule-set loop of the `yara_rule_match` branch of `_evaluate_primary`. -/
def checkYaraRuleSetsPrimary (reportData : Val) : List String → Except PyErr Bool
  | [] => .ok false
  | rs :: rest => do
    let ms ← pyValGetE reportData rs (.list [])
    match ms with
    | .list xs => do
      if (← yaraScanMatchesPrimary xs) then pure true
      else checkYaraRuleSetsPrimary reportData rest
    | _ => checkYaraRuleSetsPrimary reportData rest

/-- Dangerous Android permissions of the `APK_Artifacts` branch of
`_check_malicious`. -/
def dangerousPermissions : List Val :=
  [.str "android.permission.READ_SMS", .str "android.permission.SEND_SMS",
   .str "android.permission.RECEIVE_SMS", .str "android.permission.READ_CONTACTS",
   .str "android.permission.CALL_PHONE", .str "android.permission.RECORD_AUDIO",
   .str "android.permission.CAMERA", .str "android.permission.READ_CALL_LOG",
   .str "android.permission.PROCESS_OUTGOING_CALLS"]

/-- Suspicious string patterns of the `Strings_Info` branch of
`_check_malicious`. -/
def stringsSuspiciousPatterns : List String :=
  ["powershell", "cmd.exe", "wscript", "cscript", "malicious", "exploit",
   "payload", "shellcode", "c2-server", "command-and-control", "backdoor"]

/-- `IntelOwlService._check_malicious`. -/
def checkMalicious (analyzerName reportData : Val)
    (analyzerReport : List (String × Val)) : Except PyErr Bool := do
  let analyzerLower ← pyLowerIfTruthy analyzerName
  if analyzerLower = "clamav" then do
    let detections ← pyValGetE reportData "detections" (.list [])
    if isNonEmptyList detections then pure true
    else do
      let rawReport ← pyValGetE reportData "raw_report" (.str "")
      match rawReport with
      | .str s => pure (pyInStr "FOUND" s)
      | _ => .error (.typeError "argument of type is not iterable")
  else if analyzerLower = "yara" then do
    let jdm := lookupValD analyzerReport "data_model" (.dict [])
    let evaluation ← pyValGetE jdm "evaluation" .null
    if pyEq evaluation (.str "malicious") then pure true
    else do
      let signatures ← pyValGetE jdm "signatures" (.list [])
      if isNonEmptyList signatures then pure true
      else checkYaraRuleSetsMal reportData yaraRuleSetsMal
  else if analyzerLower = "doc_info" then do
    let mraptor ← pyValGetE reportData "mraptor" (.str "")
    if pyEq mraptor (.str "suspicious") then pure true
    else do
      let olevba ← pyValGetE reportData "olevba" (.dict [])
      match olevba with
      | .dict od => do
        let macros ← pyIterateE (lookupValD od "macro_data" (.list []))
        pure (macros.any (fun m => match m with
          | .dict md => pyTruthy (lookupValD md "suspicious_keywords" (.list []))
          | _ => false))
      | _ => pure false
  else if analyzerLower = "quark_engine" then do
    let threatLevel ← pyValGetE reportData "threat_level" (.str "")
    let totalScore ← pyValGetE reportData "total_score" (.int 0)
    let crimes ← pyValGetE reportData "crimes" (.list [])
    if pyMemList threatLevel [.str "High Risk", .str "Critical", .str "Malicious"] then
      pure true
    else if (match pyNumOf totalScore with | some q => decide (50 < q) | none => false) then
      pure true
    else pure (isNonEmptyList crimes)
  else if analyzerLower = "apk_artifacts" then do
    let permissions ← pyValGetE reportData "permission" (.list [])
    let perms ← pyIterateE permissions
    pure (perms.any (fun p => pyMemList p dangerousPermissions))
  else if analyzerLower = "apkid" then do
    let files ← pyValGetE reportData "files" (.list [])
    pure (isNonEmptyList files)
  else if analyzerLower = "rtf_info" then do
    let rtfobj ← pyValGetE reportData "rtfobj" (.dict [])
    let oleObjects := match rtfobj with
      | .dict rd => lookupValD rd "ole_objects" (.list [])
      | _ => .list []
    let follina ← pyValGetE reportData "follina" (.list [])
    pure (isNonEmptyList oleObjects || isNonEmptyList follina)
  else if analyzerLower = "boxjs" then do
    let ioc ← pyValGetE reportData "IOC.json" (.list [])
    match ioc with
    | .list xs =>
      pure (!xs.isEmpty && xs.any (fun item => match item with
        | .dict d => !pyEq (lookupValD d "type" (.str "")) (.str "Sample Name")
        | _ => false))
    | _ => pure false
  else if analyzerLower = "strings_info" then do
    let data ← pyValGetE reportData "data" (.list [])
    let items ← pyIterateE data
    pure (items.any (fun s =>
      stringsSuspiciousPatterns.any (fun pat => pyInStr pat (pyLower (pyStr s)))))
  else if analyzerLower = "file_info" then pure false
  else if analyzerLower = "androguard" then
    pure false
  else do
    let detections ← pyValGetE reportData "detections" (.list [])
    if isNonEmptyList detections then pure true
    else do
      let verdictV ← pyValGetE reportData "verdict" (.str "")
      let verdict := pyLower (pyStr verdictV)
      pure (pyInStr "malicious" verdict || pyInStr "malware" verdict)

/-- Suspicious (non-dangerous) Android permissions of the `APK_Artifacts`
branch of `_check_suspicious`. -/
def suspiciousPermissions : List Val :=
  [.str "android.permission.INTERNET", .str "android.permission.ACCESS_NETWORK_STATE",
   .str "android.permission.READ_PHONE_STATE"]

/-- `IntelOwlService._check_suspicious` (a chain of independent `if` blocks
with early returns, followed by a generic verdict check). -/
def checkSuspicious (analyzerName reportData : Val)
    (analyzerReport : List (String × Val)) : Except PyErr Bool := do
  let _ := analyzerReport
  let analyzerLower ← pyLowerIfTruthy analyzerName
  let r1 ← (if analyzerLower = "doc_info" then do
      let mraptor ← pyValGetE reportData "mraptor" (.str "")
      pure (pyEq mraptor (.str "suspicious"))
    else pure false)
  if r1 then pure true else do
  let r2 ← (if analyzerLower = "quark_engine" then do
      let threatLevel ← pyValGetE reportData "threat_level" (.str "")
      let totalScore ← pyValGetE reportData "total_score" (.int 0)
      if pyEq threatLevel (.str "Medium Risk") then pure true
      else pure (match pyNumOf totalScore with
        | some q => decide (20 ≤ q) && decide (q ≤ 50)
        | none => false)
    else pure false)
  if r2 then pure true else do
  let r3 ← (if analyzerLower = "apk_artifacts" then do
      let permissions ← pyValGetE reportData "permission" (.list [])
      let perms ← pyIterateE permissions
      pure (decide (2 ≤ (perms.filter (fun p => pyMemList p suspiciousPermissions)).length))
    else pure false)
  if r3 then pure true else do
  let verdictV ← pyValGetE reportData "verdict" (.str "")
  pure (pyInStr "suspicious" (pyLower (pyStr verdictV)))

/-- `IntelOwlService._check_clean`. -/
def checkClean (analyzerName reportData : Val)
    (analyzerReport : List (String × Val)) : Except PyErr Bool := do
  let analyzerLower ← pyLowerIfTruthy analyzerName
  let status := lookupValD analyzerReport "status" .null
  if !pyEq status (.str "SUCCESS") then pure false
  else if analyzerLower = "clamav" then do
    let detections ← pyValGetE reportData "detections" (.list [])
    if !pyTruthy detections ||
        (match detections with | .list xs => xs.isEmpty | _ => false) then do
      let rawReport ← pyValGetE reportData "raw_report" (.str "")
      match rawReport with
      | .str s => pure (pyInStr "Infected files: 0" s || !pyInStr "FOUND" s)
      | _ => .error (.typeError "argument of type is not iterable")
    else pure false
  else if analyzerLower = "doc_info" then do
    let mraptor ← pyValGetE reportData "mraptor" (.str "")
    pure (pyEq mraptor (.str "ok"))
  else if analyzerLower = "quark_engine" then do
    let threatLevel ← pyValGetE reportData "threat_level" (.str "")
    let totalScore ← pyValGetE reportData "total_score" (.int 0)
    let crimes ← pyValGetE reportData "crimes" (.list [])
    pure (pyEq threatLevel (.str "Low Risk") && pyEq totalScore (.int 0) && !pyTruthy crimes)
  else if analyzerLower = "yara" then do
    let jdm := lookupValD analyzerReport "data_model" (.dict [])
    let evaluation ← pyValGetE jdm "evaluation" .null
    if pyEq evaluation (.str "malicious") then pure false
    else do
      let signatures ← pyValGetE jdm "signatures" (.list [])
      if pyTruthy signatures then pure false
      else
        match reportData with
        | .dict rd =>
          pure (!(rd.any (fun kv => match kv.2 with | .list xs => !xs.isEmpty | _ => false)))
        | _ => .error (.attributeError "object has no attribute items")
  else if analyzerLower = "file_info" then pure true
  else if analyzerLower = "strings_info" then do
    let m ← checkMalicious analyzerName reportData analyzerReport
    pure !m
  else do
    let verdictV ← pyValGetE reportData "verdict" (.str "")
    let verdict := pyLower (pyStr verdictV)
    if pyInStr "clean" verdict || pyInStr "safe" verdict || pyInStr "benign" verdict then
      pure true
    else do
      let m ← checkMalicious analyzerName reportData analyzerReport
      pure !m

/-- Generic detection fields scanned by the fallback of the
`has_detections` branch of `_evaluate_primary`. -/
def genericDetectionFields : List String :=
  ["detections", "signatures", "rules", "alerts", "threats", "matches", "crimes"]

/-- The generic-field loop of `has_detections`: membership and subscription
on the report data (raises on non-dict report data as `field in data` /
`data[field]` would). -/
def genericDetectionScan (reportData : Val) : List String → Except PyErr Bool
  | [] => .ok false
  | f :: rest =>
    match reportData with
    | .dict rd =>
      if pyMemKey rd f then
        if isNonEmptyList (lookupValD rd f .null) then .ok true
        else genericDetectionScan reportData rest
      else genericDetectionScan reportData rest
    | .str s =>
      if pyInStr f s then .error (.typeError "string indices must be integers")
      else genericDetectionScan reportData rest
    | .list xs =>
      if pyMemList (.str f) xs then .error (.typeError "list indices must be integers")
      else genericDetectionScan reportData rest
    | _ => .error (.typeError "argument of type is not iterable")

/-- The `has_detections` branch of `_evaluate_primary`. -/
def hasDetectionsPrimary (analyzerName reportData : Val)
    (analyzerReport : List (String × Val)) : Except PyErr Bool := do
  let analyzerLower ← pyLowerIfTruthy analyzerName
  if analyzerLower = "clamav" then do
    let detections ← pyValGetE reportData "detections" (.list [])
    pure (isNonEmptyList detections)
  else if analyzerLower = "yara" then do
    let jdm := lookupValD analyzerReport "data_model" (.dict [])
    let signatures ← pyValGetE jdm "signatures" (.list [])
    if isNonEmptyList signatures then pure true
    else
      match reportData with
      | .dict rd =>
        pure (rd.any (fun kv => match kv.2 with | .list xs => !xs.isEmpty | _ => false))
      | _ => .error (.attributeError "object has no attribute items")
  else if analyzerLower = "doc_info" then do
    let mraptor ← pyValGetE reportData "mraptor" (.str "")
    pure (!pyEq mraptor (.str "ok") && !pyEq mraptor (.str ""))
  else if analyzerLower = "quark_engine" then do
    let crimes ← pyValGetE reportData "crimes" (.list [])
    let score ← pyValGetE reportData "total_score" (.int 0)
    if isNonEmptyList crimes then pure true
    else
      match pyNumOf score with
      | some q => pure (decide (0 < q))
      | none => .error (.typeError "comparison not supported")
  else if analyzerLower = "apk_artifacts" then do
    let permissions ← pyValGetE reportData "permission" (.list [])
    pure (isNonEmptyList permissions)
  else if analyzerLower = "rtf_info" then do
    let rtfobj ← pyValGetE reportData "rtfobj" (.dict [])
    let oleObjects := match rtfobj with
      | .dict rd => lookupValD rd "ole_objects" (.list [])
      | _ => .list []
    let follina ← pyValGetE reportData "follina" (.list [])
    pure (isNonEmptyList oleObjects || isNonEmptyList follina)
  else if analyzerLower = "boxjs" then do
    let ioc ← pyValGetE reportData "IOC.json" (.list [])
    pure (isNonEmptyList ioc)
  else if analyzerLower = "apkid" then do
    let files ← pyValGetE reportData "files" (.list [])
    pure (isNonEmptyList files)
  else genericDetectionScan reportData genericDetectionFields

/-- `IntelOwlService._evaluate_primary`. -/
def evaluatePrimary (c : List (String × Val))
    (analyzerReport : List (String × Val)) : Except PyErr Bool := do
  let condType := lookupValD c "type" .null
  let reportData := lookupValD analyzerReport "report" (.dict [])
  let analyzerName := lookupValD analyzerReport "name" (.str "")
  if pyEq condType (.str "verdict_malicious") then
    checkMalicious analyzerName reportData analyzerReport
  else if pyEq condType (.str "verdict_suspicious") then
    checkSuspicious analyzerName reportData analyzerReport
  else if pyEq condType (.str "verdict_clean") then
    checkClean analyzerName reportData analyzerReport
  else if pyEq condType (.str "analyzer_success") then
    pure (pyEq (lookupValD analyzerReport "status" .null) (.str "SUCCESS"))
  else if pyEq condType (.str "analyzer_failed") then
    pure (!pyEq (lookupValD analyzerReport "status" .null) (.str "SUCCESS"))
  else if pyMemList condType fieldCondTypes then do
    let fieldPath := lookupValD c "field_path" (.str "")
    let expectedValue := lookupValD c "expected_value" .null
    if !pyTruthy fieldPath || isNullVal expectedValue then
      .error (.valueError ("Field path or expected value missing for " ++ pyStr condType))
    else do
      let current ← (match fieldPath with
        | .str fp => pure (navigateFieldPath reportData fp)
        | _ => .error (.attributeError "object has no attribute split"))
      if isNullVal current then
        .error (.valueError ("Field path " ++ pyStr fieldPath ++ " not found in report"))
      else if pyEq condType (.str "field_equals") then pure (pyEq current expectedValue)
      else if pyEq condType (.str "field_contains") then
        pure (checkContainsB current expectedValue)
      else if pyEq condType (.str "field_greater_than") then
        match pyFloatOfVal current, pyFloatOfVal expectedValue with
        | some a, some b => pure (decide (b < a))
        | _, _ => .error (.valueError "Cannot compare")
      else
        match pyFloatOfVal current, pyFloatOfVal expectedValue with
        | some a, some b => pure (decide (a < b))
        | _, _ => .error (.valueError "Cannot compare")
  else if pyEq condType (.str "yara_rule_match") then do
    let jdm := lookupValD analyzerReport "data_model" (.dict [])
    let signatures ← pyValGetE jdm "signatures" (.list [])
    if isNonEmptyList signatures then pure true
    else checkYaraRuleSetsPrimary reportData yaraRuleSetsPrimary
  else if pyEq condType (.str "capability_detected") then do
    let capabilities ← pyValGetE reportData "capabilities" (.list [])
    let expectedCapability := lookupValD c "expected_value" (.str "")
    match capabilities with
    | .list xs => pure (pyMemList expectedCapability xs)
    | _ => pure false
  else if pyEq condType (.str "has_detections") then
    hasDetectionsPrimary analyzerName reportData analyzerReport
  else if pyEq condType (.str "has_errors") then do
    let errs ← pyValGetE reportData "errors" (.list [])
    pure (isNonEmptyList errs)
  else if pyEq condType (.str "custom_field") then do
    let fieldPath := lookupValD c "field_path" (.str "")
    let expectedValue := lookupValD c "expected_value" .null
    let current ← (match fieldPath with
      | .str fp => pure (navigateFieldPath reportData fp)
      | v => if pyTruthy v then .error (.attributeError "object has no attribute split")
             else pure reportData)
    pure (pyEq current expectedValue)
  else .error (.valueError ("Unknown condition type: " ++ pyStr condType))

/-- Per-indicator-field scan of the `verdict_malicious` branch of
`_evaluate_with_schema_fallback` (pure: navigation is total). -/
def schemaIndicatorScan (reportData : Val) (fields : List String) : Bool :=
  fields.any (fun field =>
    let value := navigateFieldPath reportData field
    !isNullVal value &&
      ((field = "detections" && isNonEmptyList value) ||
       (field = "mraptor" && pyEq value (.str "suspicious")) ||
       (field = "threat_level" &&
         pyMemList value [.str "High Risk", .str "Critical", .str "Malicious"]) ||
       (field = "total_score" &&
         (match pyNumOf value with | some q => decide (50 < q) | none => false)) ||
       isNonEmptyList value ||
       (match value with | .dict d => !d.isEmpty | _ => false)))

/-- `ConditionEvaluatorMixin._evaluate_with_schema_fallback`. -/
def evaluateWithSchemaFallback (c : List (String × Val))
    (analyzerReport : List (String × Val)) : Except PyErr Bool := do
  let condType := lookupValD c "type" .null
  let analyzerName := lookupValD analyzerReport "name" .null
  let reportData := lookupValD analyzerReport "report" (.dict [])
  let indicatorFields ← do
    if !pyHashable analyzerName then .error (.typeError "unhashable type")
    else
      match analyzerName with
      | .str s =>
        match verifiedMalwareIndicators.find? (fun p => p.1 = s) with
        | some p => pure p.2
        | none => getMalwareIndicatorsE analyzerName
      | _ => getMalwareIndicatorsE analyzerName
  if pyEq condType (.str "verdict_malicious") then do
    if schemaIndicatorScan reportData indicatorFields then pure true
    else if pyEq analyzerName (.str "Yara") then
      match reportData with
      | .dict rd =>
        pure (rd.any (fun kv =>
          (pyInStr "yara" (pyLower kv.1) || pyInStr "rules" (pyLower kv.1)) &&
          isNonEmptyList (lookupValD rd kv.1 (.list []))))
      | _ => .error (.attributeError "object has no attribute keys")
    else pure false
  else if pyMemList condType fieldCondTypes then do
    let fieldPath := lookupValD c "field_path" (.str "")
    let expectedValue := lookupValD c "expected_value" .null
    let suggestions ← suggestFieldPathsE analyzerName fieldPath
    pure (suggestions.any (fun sp =>
      let value := navigateFieldPath reportData sp
      !isNullVal value &&
        (if pyEq condType (.str "field_equals") then pyEq value expectedValue
         else if pyEq condType (.str "field_contains") then
           checkContainsB value expectedValue
         else false)))
  else pure false

/-- Malware keyword patterns of `_evaluate_generic_fallback`. -/
def malwarePatterns : List String :=
  ["malicious", "malware", "virus", "trojan", "ransomware", "suspicious",
   "threat", "infected", "exploit", "backdoor", "detection", "alert", "warning"]

/-- Detection keywords of `_evaluate_generic_fallback`. -/
def detectionKeywords : List String :=
  ["detection", "alert", "match", "finding", "signature"]

/-- `ConditionEvaluatorMixin._evaluate_generic_fallback` (total: it only
stringifies the report and searches for substrings, so its `try` wrapper in
the recovery ladder can never fire). -/
def evaluateGenericFallback (c : List (String × Val))
    (analyzerReport : List (String × Val)) : Except PyErr Bool :=
  let condType := lookupValD c "type" .null
  let reportData := lookupValD analyzerReport "report" (.dict [])
  let reportStr := pyLower (pyStr reportData)
  if pyEq condType (.str "verdict_malicious") then
    .ok (malwarePatterns.any (fun p => pyInStr p reportStr))
  else if pyEq condType (.str "has_detections") then
    .ok (detectionKeywords.any (fun k => pyInStr k reportStr && !pyInStr ("no " ++ k) reportStr))
  else if pyEq condType (.str "yara_rule_match") then
    .ok (pyInStr "match" reportStr || pyInStr "rule" reportStr)
  else .ok false

/-- Scan of one stage entry in `IntelOwlService._find_analyzer_report`:
iterate the (list-valued) `analyzer_reports`, returning the first report
whose `name` equals the wanted one.  Non-dict reports raise, as
`report.get` would. -/
def findInReports (analyzerName : Val) : List Val → Except PyErr (Option (List (String × Val)))
  | [] => .ok none
  | r :: rest =>
    match r with
    | .dict rd =>
      if pyEq (lookupValD rd "name" .null) analyzerName then .ok (some rd)
      else findInReports analyzerName rest
    | _ => .error (.attributeError "object has no attribute get")

/-- `IntelOwlService._find_analyzer_report`: walk the accumulated results in
insertion order; iterating a non-list `analyzer_reports` value behaves as
Python iteration does (keys of a dict, characters of a string, `TypeError`
otherwise). -/
def findAnalyzerReportE (analyzerName : Val) :
    List (String × Val) → Except PyErr (Option (List (String × Val)))
  | [] => .ok none
  | (_, stageData) :: rest =>
    match stageData with
    | .dict d =>
      if pyMemKey d "analyzer_reports" then
        match lookupValD d "analyzer_reports" .null with
        | .list reports => do
          match (← findInReports analyzerName reports) with
          | some r => pure (some r)
          | none => findAnalyzerReportE analyzerName rest
        | .dict dd =>
          if dd.isEmpty then findAnalyzerReportE analyzerName rest
          else .error (.attributeError "object has no attribute get")
        | .str s =>
          if s = "" then findAnalyzerReportE analyzerName rest
          else .error (.attributeError "object has no attribute get")
        | _ => .error (.typeError "object is not iterable")
      else findAnalyzerReportE analyzerName rest
    | _ => findAnalyzerReportE analyzerName rest

mutual

/-- Computable structural size of a value, used as recursion fuel for the
functions that recurse through nested condition values (the derived
`sizeOf` of the nested inductive has no executable code). -/
def valSize : Val → Nat
  | .null => 1
  | .bool _ => 1
  | .int _ => 1
  | .str _ => 1
  | .list xs => 1 + valListSize xs
  | .dict kvs => 1 + valDictSize kvs

/-- Size of a value list. -/
def valListSize : List Val → Nat
  | [] => 0
  | v :: rest => 1 + valSize v + valListSize rest

/-- Size of a binding list. -/
def valDictSize : List (String × Val) → Nat
  | [] => 0
  | (_, v) :: rest => 1 + valSize v + valDictSize rest

end

/-- `EvaluationResult` from `intelowl_service.py` (confidence is exact over
`Rat`: 1, 4/5, 1/2 or 0). -/
structure EvaluationResult where
  result : Bool
  confidence : Rat
  errors : List String
  recoveryUsed : Option String
  evaluationPath : String
deriving DecidableEq

/-- `IntelOwlService._evaluate_with_recovery`, fuelled for the recursion of
the legacy `NOT` wrapper; the fuel-zero branch is unreachable from
`evalWithRecovery`, whose initial fuel strictly exceeds the nesting depth
of the condition value. -/
def evalWithRecoveryFuel : Nat → Val → List (String × Val) → Except PyErr EvaluationResult
  | 0, _, _ => .error (.typeError "recursion fuel exhausted (unreachable)")
  | fuel + 1, condition, results =>
    match condition with
    | .dict c => do
      let (isValid, validationErrors) ← validateConditionE c
      let errors := if !isValid then validationErrors else []
      let condType := lookupValD c "type" .null
      let sourceAnalyzer := lookupValD c "source_analyzer" .null
      if pyEq condType (.str "NOT") then do
        let inner := lookupValD c "inner" .null
        let ir ← evalWithRecoveryFuel fuel inner results
        pure ⟨!ir.result, ir.confidence, ir.errors, ir.recoveryUsed,
          "NOT(" ++ ir.evaluationPath ++ ")"⟩
      else do
        match (← findAnalyzerReportE sourceAnalyzer results) with
        | none =>
          pure ⟨false, 0, ["Analyzer " ++ pyStr sourceAnalyzer ++ " results not found"],
            some "safe_default", "analyzer_not_found"⟩
        | some analyzerReport =>
          match evaluatePrimary c analyzerReport with
          | .ok r => pure ⟨r, 1, [], none, "primary"⟩
          | .error e1 =>
            let errors := errors ++ ["Primary: " ++ pyErrMsg e1]
            match evaluateWithSchemaFallback c analyzerReport with
            | .ok r => pure ⟨r, 4/5, errors, some "schema_fallback", "schema_fallback"⟩
            | .error e2 =>
              let errors := errors ++ ["Schema: " ++ pyErrMsg e2]
              match evaluateGenericFallback c analyzerReport with
              | .ok r => pure ⟨r, 1/2, errors, some "generic_fallback", "generic_fallback"⟩
              | .error e3 =>
                let errors := errors ++ ["Generic: " ++ pyErrMsg e3]
                pure ⟨getSafeDefault c, 0, errors, some "safe_default", "safe_default"⟩
    | _ => .error (.typeError "condition is not a dict")

/-- `IntelOwlService._evaluate_with_recovery` at its natural fuel. -/
def evalWithRecovery (condition : Val) (results : List (String × Val)) :
    Except PyErr EvaluationResult :=
  evalWithRecoveryFuel (valSize condition + 1) condition results

/-- `IntelOwlService._evaluate_condition`, fuelled for the recursion of the
legacy `NOT` wrapper (same fuel discipline as `evalWithRecoveryFuel`). -/
def evaluateConditionFuel : Nat → Val → List (String × Val) → Except PyErr Bool
  | 0, _, _ => .error (.typeError "recursion fuel exhausted (unreachable)")
  | fuel + 1, condition, results =>
    if !pyTruthy condition then .ok true
    else match condition with
    | .dict c =>
      let shouldNegate := pyTruthy (lookupValD c "negate" (.bool false))
      if pyEq (lookupValD c "type" .null) (.str "NOT") then
        let inner := lookupValD c "inner" .null
        if pyTruthy inner then do
          let ir ← evaluateConditionFuel fuel inner results
          pure !ir
        else .ok false
      else do
        let er ← evalWithRecoveryFuel (fuel + 1) (.dict c) results
        pure (if shouldNegate then !er.result else er.result)
    | _ => .error (.attributeError "object has no attribute get")

/-- `IntelOwlService._evaluate_condition` at its natural fuel. -/
def evaluateCondition (condition : Val) (results : List (String × Val)) :
    Except PyErr Bool :=
  evaluateConditionFuel (valSize condition + 1) condition results

end ConditionEvaluator

section ExecutionEngine

/-- One execution stage as produced by `WorkflowParser` and consumed by
`execute_workflow_with_conditionals`.  The parser always writes exactly the
keys `stage_id`, `analyzers`, `depends_on`, `condition` and `target_nodes`
(plus a human-readable `description` that no code reads and which is
omitted), so the stage dict is modelled as a structure.  `depends_on` and
`condition` are `Val.null` when the Python value is `None`. -/
structure PStage where
  stageId : Int
  analyzers : List Val
  dependsOn : Val
  condition : Val
  targetNodes : List String
deriving DecidableEq

/-- The external Analysis Service and the log of calls made to it.
`submit_file_analysis` and `wait_for_completion` are injected capabilities
(awaited HTTP calls in the source): `submitRes n` is the outcome of the
`n`-th submission of the run and `waitRes j` the outcome of waiting on job
`j`; `submitLog` records the analyzer list of every submission actually
made, so that "no call was made" is observable. -/
structure World where
  submitLog : List (List Val)
  submitRes : Nat → Except String Int
  waitRes : Int → Except String Val

/-- Mutable state of `execute_workflow_with_conditionals`: the accumulated
results dict, the collected job ids, and the executed/skipped stage-id
lists, plus the external world. -/
structure EngineState where
  results : List (String × Val)
  jobIds : List Int
  executed : List Int
  skipped : List Int
  world : World

/-- The entry recorded for a stage with no analyzers that executes
("result-only" stage). -/
def resultOnlyEntry (s : PStage) : Val :=
  .dict [("stage_id", .int s.stageId), ("type", .str "result_only"),
         ("target_nodes", .list (s.targetNodes.map Val.str)),
         ("message", .str "Routing to result nodes based on condition")]

/-- The `all_results` key of a stage. -/
def stageKey (s : PStage) : String := "stage_" ++ toString s.stageId

/-- One iteration of the stage loop of
`execute_workflow_with_conditionals`.  A stage with `depends_on = None`
always executes; otherwise its condition is evaluated against the full
accumulated results (an exception there propagates out of the engine, as in
the source, where `_evaluate_condition` is not wrapped in `try`).  The
submission and wait are wrapped in `try/except`: a failure stores an
`error` entry under the stage key and the loop continues. -/
def engineStep (s : PStage) (σ : EngineState) : Except PyErr EngineState := do
  let shouldExecute ←
    if isNullVal s.dependsOn then pure true
    else evaluateCondition s.condition σ.results
  if shouldExecute then
    if s.analyzers.isEmpty then
      pure { σ with results := pySet σ.results (stageKey s) (resultOnlyEntry s),
                    executed := σ.executed ++ [s.stageId] }
    else
      let n := σ.world.submitLog.length
      let w1 : World := { σ.world with submitLog := σ.world.submitLog ++ [s.analyzers] }
      match σ.world.submitRes n with
      | .error e =>
        pure { σ with world := w1,
                      results := pySet σ.results (stageKey s) (.dict [("error", .str e)]) }
      | .ok jobId =>
        match w1.waitRes jobId with
        | .error e =>
          pure { σ with world := w1, jobIds := σ.jobIds ++ [jobId],
                        results := pySet σ.results (stageKey s) (.dict [("error", .str e)]) }
        | .ok stageResults =>
          pure { σ with world := w1, jobIds := σ.jobIds ++ [jobId],
                        results := pySet σ.results (stageKey s) stageResults,
                        executed := σ.executed ++ [s.stageId] }
  else
    pure { σ with skipped := σ.skipped ++ [s.stageId] }

/-- The stage loop of `execute_workflow_with_conditionals`. -/
def runStages : List PStage → EngineState → Except PyErr EngineState
  | [], σ => .ok σ
  | s :: rest, σ => do runStages rest (← engineStep s σ)

/-- The initial engine state over a given external world. -/
def initEngineState (w : World) : EngineState := ⟨[], [], [], [], w⟩

/-- Final payload of `execute_workflow_with_conditionals`. -/
structure EngineOutput where
  jobIds : List Int
  allResults : List (String × Val)
  totalStagesExecuted : Nat
  executedStages : List Int
  skippedStages : List Int
  finalWorld : World

/-- `IntelOwlService.execute_workflow_with_conditionals`. -/
def executeWorkflowWithConditionals (stages : List PStage) (w : World) :
    Except PyErr EngineOutput :=
  (runStages stages (initEngineState w)).map (fun σ =>
    ⟨σ.jobIds, σ.results, σ.executed.length, σ.executed, σ.skipped, σ.world⟩)

end ExecutionEngine

section WorkflowParser

/-- `NodeType` from `app/models/workflow.py`. -/
inductive NodeType where
  | file : NodeType
  | analyzer : NodeType
  | conditional : NodeType
  | result : NodeType
deriving DecidableEq

/-- `ConditionalData` from `app/models/workflow.py`.  `condition_type` is a
`str`-valued enum, so the dict built from it compares equal to plain
strings; pydantic guarantees it is one of the six member values, which no
claim depends on. -/
structure ConditionalData where
  conditionType : String
  sourceAnalyzer : String
  fieldPath : Option String
  expectedValue : Option Val
deriving DecidableEq

/-- `WorkflowNode` (the unused `position` field is omitted). -/
structure WNode where
  id : String
  type : NodeType
  data : List (String × Val)
  conditionalData : Option ConditionalData
deriving DecidableEq

/-- `WorkflowEdge`. -/
structure WEdge where
  id : String
  source : String
  target : String
  sourceHandle : Option String
  targetHandle : Option String
deriving DecidableEq

/-- Insert into a string-keyed map, replacing in place (later bindings for
the same key overwrite, keeping the original position, as Python dicts
do). -/
def upsertNodeMap (m : List (String × WNode)) (n : WNode) : List (String × WNode) :=
  match m with
  | [] => [(n.id, n)]
  | (k, v) :: rest => if k = n.id then (k, n) :: rest else (k, v) :: upsertNodeMap rest n

/-- `node_map = {node.id: node for node in nodes}`. -/
def mkNodeMap (nodes : List WNode) : List (String × WNode) :=
  nodes.foldl upsertNodeMap []

/-- `node_map.get(id)`. -/
def lookupNode (m : List (String × WNode)) (nodeId : String) : Option WNode :=
  (m.find? (fun p => p.1 = nodeId)).map (fun p => p.2)

/-- `node_map.values()` (insertion order of first key occurrence). -/
def nodeMapValues (m : List (String × WNode)) : List WNode :=
  m.map (fun p => p.2)

/-- Append a target to the adjacency list of a source. -/
def upsertEdgeMap (m : List (String × List String)) (src tgt : String) :
    List (String × List String) :=
  match m with
  | [] => [(src, [tgt])]
  | (k, l) :: rest =>
    if k = src then (k, l ++ [tgt]) :: rest else (k, l) :: upsertEdgeMap rest src tgt

/-- `WorkflowParser._build_edge_map`. -/
def mkEdgeMap (edges : List WEdge) : List (String × List String) :=
  edges.foldl (fun m e => upsertEdgeMap m e.source e.target) []

/-- `edge_map.get(id, [])`. -/
def edgeMapGet (m : List (String × List String)) (nodeId : String) : List String :=
  ((m.find? (fun p => p.1 = nodeId)).map (fun p => p.2)).getD []

/-- State of the analyzer-gathering DFS traversals: the shared visited set
and the accumulated analyzer names. -/
structure TravSt where
  visited : List String
  analyzers : List Val
deriving DecidableEq

mutual

/-- `traverse_from_node` inside
`WorkflowParser._get_all_analyzers_in_workflow`.  Each recursive call (to a
child or to the next sibling) decrements the fuel by one, so the initial
fuel of `parseWorkflow` — larger than one plus twice the number of edges,
which bounds the total number of calls since every child visit corresponds
to an edge — makes the fuel-zero branch unreachable. -/
def gaawVisit (nm : List (String × WNode)) (em : List (String × List String)) :
    Nat → String → TravSt → TravSt
  | 0, _, st => st
  | fuel + 1, nodeId, st =>
    if st.visited.contains nodeId then st
    else
      let st := { st with visited := nodeId :: st.visited }
      match lookupNode nm nodeId with
      | none => st
      | some node =>
        let st :=
          if node.type = .analyzer then
            let nameV := lookupValD node.data "analyzer" .null
            if pyTruthy nameV && !pyMemList nameV st.analyzers then
              { st with analyzers := st.analyzers ++ [nameV] }
            else st
          else st
        if node.type ≠ .result then gaawChildren nm em fuel (edgeMapGet em nodeId) st
        else st

/-- Sequential traversal of the children of a node. -/
def gaawChildren (nm : List (String × WNode)) (em : List (String × List String)) :
    Nat → List String → TravSt → TravSt
  | 0, _, st => st
  | _ + 1, [], st => st
  | fuel + 1, t :: ts, st => gaawChildren nm em fuel ts (gaawVisit nm em fuel t st)

end

/-- `WorkflowParser._get_all_analyzers_in_workflow`. -/
def getAllAnalyzersInWorkflow (fileNodeId : String) (nm : List (String × WNode))
    (em : List (String × List String)) (fuel : Nat) : List Val :=
  (gaawVisit nm em fuel fileNodeId ⟨[], []⟩).analyzers

mutual

/-- `traverse_from_node` inside
`WorkflowParser._get_preconditional_analyzers`: like the full traversal but
stopping at conditional nodes (same fuel discipline as `gaawVisit`). -/
def gpaVisit (nm : List (String × WNode)) (em : List (String × List String))
    (condIds : List String) : Nat → String → TravSt → TravSt
  | 0, _, st => st
  | fuel + 1, nodeId, st =>
    if st.visited.contains nodeId then st
    else
      let st := { st with visited := nodeId :: st.visited }
      match lookupNode nm nodeId with
      | none => st
      | some node =>
        let st :=
          if node.type = .analyzer then
            let nameV := lookupValD node.data "analyzer" .null
            if pyTruthy nameV && !pyMemList nameV st.analyzers then
              { st with analyzers := st.analyzers ++ [nameV] }
            else st
          else st
        if node.type ≠ .result && !condIds.contains nodeId then
          gpaChildren nm em condIds fuel
            ((edgeMapGet em nodeId).filter (fun t => !condIds.contains t)) st
        else st

/-- Sequential traversal of the non-conditional children of a node. -/
def gpaChildren (nm : List (String × WNode)) (em : List (String × List String))
    (condIds : List String) : Nat → List String → TravSt → TravSt
  | 0, _, st => st
  | _ + 1, [], st => st
  | fuel + 1, t :: ts, st => gpaChildren nm em condIds fuel ts (gpaVisit nm em condIds fuel t st)

end

/-- `WorkflowParser._get_preconditional_analyzers`. -/
def getPreconditionalAnalyzers (fileNodeId : String) (condIds : List String)
    (nm : List (String × WNode)) (em : List (String × List String)) (fuel : Nat) : List Val :=
  (gpaVisit nm em condIds fuel fileNodeId ⟨[], []⟩).analyzers

/-- `list(set(...))` on node-id lists.  The Python set iteration order is
unspecified; the model keeps first occurrences.  Downstream code only tests
membership of the result, so the choice of order is unobservable. -/
def dedupStr (l : List String) : List String :=
  l.foldl (fun acc x => if acc.contains x then acc else acc ++ [x]) []

mutual

/-- `WorkflowParser._find_all_reachable_result_nodes`: DFS with a fresh
copy of the visited set per branch (same fuel discipline as
`gaawVisit`). -/
def farrVisit (nm : List (String × WNode)) (edges : List WEdge) :
    Nat → String → List String → List String
  | 0, _, _ => []
  | fuel + 1, startId, visited =>
    if visited.contains startId then []
    else
      let visited := startId :: visited
      match lookupNode nm startId with
      | none => []
      | some node =>
        if node.type = .result then [startId]
        else
          dedupStr (farrOut nm edges fuel (edges.filter (fun e => e.source = startId)) visited)

/-- Loop over the outgoing edges, each branch receiving `visited.copy()`. -/
def farrOut (nm : List (String × WNode)) (edges : List WEdge) :
    Nat → List WEdge → List String → List String
  | 0, _, _ => []
  | _ + 1, [], _ => []
  | fuel + 1, e :: rest, visited =>
    farrVisit nm edges fuel e.target visited ++ farrOut nm edges fuel rest visited

end

/-- Insert into a `Val`-keyed dict (Python hash/eq semantics: the key
stays, the value is replaced). -/
def upsertValKey (m : List (Val × String)) (k : Val) (v : String) : List (Val × String) :=
  match m with
  | [] => [(k, v)]
  | (k', v') :: rest => if pyEq k' k then (k', v) :: rest else (k', v') :: upsertValKey rest k v

/-- The `analyzer_node_map` comprehension of
`WorkflowParser._find_result_nodes_for_analyzers`: an unhashable (truthy)
analyzer name raises `TypeError` on dict assignment. -/
def mkAnalyzerNodeMapGo (acc : List (Val × String)) :
    List WNode → Except PyErr (List (Val × String))
  | [] => .ok acc
  | n :: rest =>
    if n.type = .analyzer then
      let nameV := lookupValD n.data "analyzer" .null
      if pyTruthy nameV then
        if pyHashable nameV then mkAnalyzerNodeMapGo (upsertValKey acc nameV n.id) rest
        else .error (.typeError "unhashable type")
      else mkAnalyzerNodeMapGo acc rest
    else mkAnalyzerNodeMapGo acc rest

/-- Per-analyzer loop of `_find_result_nodes_for_analyzers`. -/
def frnaGo (anm : List (Val × String)) (nm : List (String × WNode)) (edges : List WEdge) :
    List Val → Except PyErr (List String)
  | [] => .ok []
  | name :: rest => do
    let nodeIdOpt ←
      if pyHashable name then
        pure ((anm.find? (fun p => pyEq p.1 name)).map (fun p => p.2))
      else .error (.typeError "unhashable type")
    let reach := match nodeIdOpt with
      | some nid => farrVisit nm edges (2 * edges.length + 2) nid []
      | none => []
    let restR ← frnaGo anm nm edges rest
    pure (reach ++ restR)

/-- `WorkflowParser._find_result_nodes_for_analyzers`. -/
def findResultNodesForAnalyzersE (analyzerNames : List Val) (nm : List (String × WNode))
    (edges : List WEdge) : Except PyErr (List String) := do
  let anm ← mkAnalyzerNodeMapGo [] (nodeMapValues nm)
  let collected ← frnaGo anm nm edges analyzerNames
  pure (dedupStr collected)

/-- `WorkflowParser._extract_condition_config`.  The source mutates the
node-owned dict in place when it adds the defaulted `source_analyzer`; the
model is pure, so a second extraction of the same node with a different
default recomputes the default instead of seeing the first one.  No claim
settled here observes that aliasing. -/
def extractConditionConfig (cn : WNode) (defaultSource : Val) : Val :=
  let cfg : Val :=
    match cn.conditionalData with
    | some cd =>
      .dict ([("type", .str cd.conditionType), ("source_analyzer", .str cd.sourceAnalyzer)]
        ++ (match cd.fieldPath with
            | some fp => if fp ≠ "" then [("field_path", .str fp)] else []
            | none => [])
        ++ (match cd.expectedValue with
            | some ev => if pyTruthy ev then [("expected_value", ev)] else []
            | none => []))
    | none =>
      let fct := lookupValD cn.data "conditionType" .null
      let fsa := lookupValD cn.data "sourceAnalyzer" .null
      if pyTruthy fct then
        .dict [("type", fct), ("source_analyzer", if pyTruthy fsa then fsa else defaultSource)]
      else lookupValD cn.data "condition" .null
  if !pyTruthy cfg then
    .dict [("type", .str "verdict_malicious"), ("source_analyzer", defaultSource)]
  else match cfg with
    | .dict d =>
      if !pyMemKey d "source_analyzer" then .dict (pySet d "source_analyzer" defaultSource)
      else .dict d
    | v => v

/-- Elements of a `dict(...)` conversion from a list: two-element pairs
with string keys build bindings (later duplicates overwrite); two-character
strings build single-character bindings; anything else raises.  Pairs whose
key is not a string are not representable in the string-keyed dict model
and are mapped to an error (no claim exercises them). -/
def pyDictFromPairs (acc : List (String × Val)) : List Val → Except PyErr (List (String × Val))
  | [] => .ok acc
  | .list [.str k, v] :: rest => pyDictFromPairs (pySet acc k v) rest
  | .str s :: rest =>
    (match s.toList with
     | [a, b] => pyDictFromPairs (pySet acc (String.mk [a]) (.str (String.mk [b]))) rest
     | _ => .error (.valueError "dictionary update sequence element has wrong length"))
  | .list [_, _] :: _ => .error (.typeError "non-string dict keys are not modelled")
  | _ :: _ => .error (.typeError "cannot convert dictionary update sequence element")

/-- `dict(v)`: a dict is copied, a list of pairs is converted, everything
else raises (`dict(5)` is a `TypeError`, `dict("abc")` a `ValueError`
modelled as the wrong-length element error). -/
def pyDictE : Val → Except PyErr (List (String × Val))
  | .dict d => .ok d
  | .list xs => pyDictFromPairs [] xs
  | .str s =>
    (match s.toList with
     | [a, b] => .ok [(String.mk [a], .str (String.mk [b]))]
     | _ => .error (.valueError "dictionary update sequence element has wrong length"))
  | _ => .error (.typeError "object is not iterable")

/-- The result-node ids of the whole graph
(`[node.id for node in node_map.values() if node.type == RESULT]`). -/
def allResultNodeIds (nm : List (String × WNode)) : List String :=
  ((nodeMapValues nm).filter (fun n => n.type = .result)).map (fun n => n.id)

/-- The edge loop collecting the directly-attached analyzers and result
nodes of one branch of a conditional node. -/
def collectBranchGo (nm : List (String × WNode)) (isTrueBranch : Bool)
    (acc : List Val × List String) : List WEdge → List Val × List String
  | [] => acc
  | e :: rest =>
    let acc' := match lookupNode nm e.target with
      | none => acc
      | some targetNode =>
        let branchType : Bool :=
          if isTrueBranch then e.sourceHandle = some "true-output"
          else e.sourceHandle = some "false-output"
        if targetNode.type = .analyzer then
          let nameV := lookupValD targetNode.data "analyzer" .null
          if pyTruthy nameV && branchType then (acc.1 ++ [nameV], acc.2) else acc
        else if targetNode.type = .result && branchType then (acc.1, acc.2 ++ [e.target])
        else acc
    collectBranchGo nm isTrueBranch acc' rest

/-- The collected analyzers and direct result nodes of one branch. -/
def collectBranch (nm : List (String × WNode)) (outputEdges : List WEdge)
    (isTrueBranch : Bool) : List Val × List String :=
  collectBranchGo nm isTrueBranch ([], []) outputEdges

/-- One branch of a conditional node, as built identically by
`_build_conditional_stages` and `_process_downstream_conditional`: copy the
condition config with `dict(...)`, set `negate` on the FALSE branch,
collect the branch analyzers and result nodes, resolve the sinks reachable
from the branch analyzers, fall back to all result nodes when a branch with
analyzers resolves no sinks, and emit a stage (with placeholder id `-1`)
when the branch is non-empty. -/
def mkBranchStage (nm : List (String × WNode)) (edges : List WEdge) (cn : WNode)
    (sourceAnalyzer : Val) (conditionConfig : Val) (isTrueBranch : Bool) :
    Except PyErr (Option PStage × List Val) := do
  let cfgDict ← pyDictE conditionConfig
  let branchCondition := if !isTrueBranch then pySet cfgDict "negate" (.bool true) else cfgDict
  let outputEdges := edges.filter (fun e => e.source = cn.id)
  let (branchAnalyzers, directResults) := collectBranch nm outputEdges isTrueBranch
  let analyzerResults ← findResultNodesForAnalyzersE branchAnalyzers nm edges
  let branchResultNodes := dedupStr (directResults ++ analyzerResults)
  let branchResultNodes :=
    if !branchAnalyzers.isEmpty && branchResultNodes.isEmpty then allResultNodeIds nm
    else branchResultNodes
  if !branchAnalyzers.isEmpty || !branchResultNodes.isEmpty then
    pure (some ⟨-1, branchAnalyzers, sourceAnalyzer, .dict branchCondition, branchResultNodes⟩,
      branchAnalyzers)
  else pure (none, branchAnalyzers)

/-- `WorkflowParser._process_downstream_conditional` (despite its
`current_path` parameter it does not recurse further). -/
def processDownstreamConditional (nm : List (String × WNode)) (edges : List WEdge)
    (cn : WNode) (sourceAnalyzer : Val) (currentPath : List String) :
    Except PyErr (List PStage) := do
  if currentPath.contains cn.id then pure []
  else do
    let conditionConfig := extractConditionConfig cn sourceAnalyzer
    let (st, _) ← mkBranchStage nm edges cn sourceAnalyzer conditionConfig true
    let (sf, _) ← mkBranchStage nm edges cn sourceAnalyzer conditionConfig false
    pure (st.toList ++ sf.toList)

/-- First analyzer node carrying the given analyzer name. -/
def findAnalyzerNodeByName (nm : List (String × WNode)) (analyzer : Val) : Option WNode :=
  (nodeMapValues nm).find? (fun n =>
    n.type = .analyzer && pyEq (lookupValD n.data "analyzer" .null) analyzer)

/-- The conditional nodes fed by an analyzer node's outgoing edges. -/
def downstreamConditionalsOf (nm : List (String × WNode)) (edges : List WEdge)
    (anode : WNode) : List WNode :=
  (edges.filter (fun e => e.source = anode.id)).filterMap (fun e =>
    match lookupNode nm e.target with
    | some t => if t.type = .conditional then some t else none
    | none => none)

/-- Loop over the downstream conditionals of one branch analyzer. -/
def processDownstreamList (nm : List (String × WNode)) (edges : List WEdge)
    (analyzer : Val) (path : List String) : List WNode → Except PyErr (List PStage)
  | [] => .ok []
  | dc :: rest => do
    let here ← processDownstreamConditional nm edges dc analyzer path
    let restS ← processDownstreamList nm edges analyzer path rest
    pure (here ++ restS)

/-- Loop over the analyzers of a freshly-built branch stage, processing the
conditionals they feed. -/
def processBranchDownstream (nm : List (String × WNode)) (edges : List WEdge)
    (cnId : String) : List Val → Except PyErr (List PStage)
  | [] => .ok []
  | analyzer :: rest => do
    let here ← (match findAnalyzerNodeByName nm analyzer with
      | some anode =>
        processDownstreamList nm edges analyzer [cnId] (downstreamConditionalsOf nm edges anode)
      | none => pure [])
    let restS ← processBranchDownstream nm edges cnId rest
    pure (here ++ restS)

/-- Body of the per-conditional loop of
`WorkflowParser._build_conditional_stages`: conditionals without an
analyzer producer (first input edge) are skipped; otherwise the TRUE and
FALSE branch stages are built, each followed by its downstream chained
stages.  (The `processed_nodes` set threaded by the source is written but
never read and is omitted.) -/
def processConditionalNode (nm : List (String × WNode)) (edges : List WEdge)
    (cn : WNode) : Except PyErr (List PStage) := do
  let inputEdges := edges.filter (fun e => e.target = cn.id)
  match inputEdges with
  | [] => pure []
  | ie :: _ =>
    match lookupNode nm ie.source with
    | none => pure []
    | some sourceNode =>
      if sourceNode.type ≠ .analyzer then pure []
      else
        let sourceAnalyzer := lookupValD sourceNode.data "analyzer" .null
        if !pyTruthy sourceAnalyzer then pure []
        else do
          let conditionConfig := extractConditionConfig cn sourceAnalyzer
          let (st, aT) ← mkBranchStage nm edges cn sourceAnalyzer conditionConfig true
          let dT ← (match st with
            | some _ => processBranchDownstream nm edges cn.id aT
            | none => pure [])
          let (sf, aF) ← mkBranchStage nm edges cn sourceAnalyzer conditionConfig false
          let dF ← (match sf with
            | some _ => processBranchDownstream nm edges cn.id aF
            | none => pure [])
          pure (st.toList ++ dT ++ sf.toList ++ dF)

/-- `WorkflowParser._build_conditional_stages`. -/
def buildConditionalStages (nm : List (String × WNode)) (edges : List WEdge) :
    List WNode → Except PyErr (List PStage)
  | [] => .ok []
  | cn :: rest => do
    let here ← processConditionalNode nm edges cn
    let restS ← buildConditionalStages nm edges rest
    pure (here ++ restS)

/-- Insert into an int-keyed map, replacing in place. -/
def upsertIntKey {α : Type} (m : List (Int × α)) (k : Int) (v : α) : List (Int × α) :=
  match m with
  | [] => [(k, v)]
  | (k', v') :: rest => if k' = k then (k', v) :: rest else (k', v') :: upsertIntKey rest k v

/-- Lookup in an int-keyed map. -/
def lookupIntKey {α : Type} (m : List (Int × α)) (k : Int) : Option α :=
  (m.find? (fun p => p.1 = k)).map (fun p => p.2)

/-- The (at most one, by the `break`) dependency of a stage: the first
other stage whose analyzer list contains this stage's truthy
`depends_on`. -/
def computeStageDeps (stages : List PStage) (st : PStage) : List Int :=
  if pyTruthy st.dependsOn then
    match stages.find? (fun o => o.stageId ≠ st.stageId && pyMemList st.dependsOn o.analyzers) with
    | some o => [o.stageId]
    | none => []
  else []

/-- `stage_map` of `_order_stages_by_dependencies`. -/
def mkStageMap (stages : List PStage) : List (Int × PStage) :=
  stages.foldl (fun m st => upsertIntKey m st.stageId st) []

/-- `stage_deps` of `_order_stages_by_dependencies`. -/
def mkStageDeps (stages : List PStage) : List (Int × List Int) :=
  stages.foldl (fun m st => upsertIntKey m st.stageId (computeStageDeps stages st)) []

/-- State of the topological-sort DFS. -/
structure VisitSt where
  visited : List Int
  temp : List Int
  ordered : List PStage
deriving DecidableEq

mutual

/-- `visit` inside `_order_stages_by_dependencies`: a node on the current
path (cycle) or already visited is skipped with a logged warning;
otherwise its dependencies are visited first and the stage is appended.
(The `stage_map[stage_id]` subscription cannot fail: every visited id is a
key of the stage map; the model drops the unreachable missing case.)  Fuel
discipline as in `gaawVisit`. -/
def osVisit (deps : List (Int × List Int)) (smap : List (Int × PStage)) :
    Nat → Int → VisitSt → VisitSt
  | 0, _, st => st
  | fuel + 1, sid, st =>
    if st.temp.contains sid then st
    else if st.visited.contains sid then st
    else
      let st1 := { st with temp := st.temp ++ [sid] }
      let st2 := osVisitList deps smap fuel ((lookupIntKey deps sid).getD []) st1
      { st2 with temp := st2.temp.erase sid,
                 visited := st2.visited ++ [sid],
                 ordered := st2.ordered ++ (match lookupIntKey smap sid with
                   | some s => [s]
                   | none => []) }

/-- Loop over the dependencies of a stage. -/
def osVisitList (deps : List (Int × List Int)) (smap : List (Int × PStage)) :
    Nat → List Int → VisitSt → VisitSt
  | 0, _, st => st
  | _ + 1, [], st => st
  | fuel + 1, d :: ds, st => osVisitList deps smap fuel ds (osVisit deps smap fuel d st)

end

/-- The top-level loop of `_order_stages_by_dependencies` over the stage
map keys. -/
def osTopLoop (deps : List (Int × List Int)) (smap : List (Int × PStage)) (fuel : Nat) :
    List Int → VisitSt → VisitSt
  | [], st => st
  | k :: ks, st =>
    let st' := if st.visited.contains k then st else osVisit deps smap fuel k st
    osTopLoop deps smap fuel ks st'

/-- `WorkflowParser._order_stages_by_dependencies`. -/
def orderStagesByDependencies (stages : List PStage) : List PStage :=
  if stages.isEmpty then stages
  else
    let smap := mkStageMap stages
    let deps := mkStageDeps stages
    (osTopLoop deps smap (2 * stages.length + 2) (smap.map (fun p => p.1)) ⟨[], [], []⟩).ordered

/-- The temporary-unique-id pass of `_parse_conditional_workflow`
(`1000 + i` for every stage still carrying the placeholder `-1`). -/
def assignTempIds (stages : List PStage) : List PStage :=
  stages.enum.map (fun p =>
    if p.2.stageId = -1 then { p.2 with stageId := 1000 + (p.1 : Int) } else p.2)

/-- The final sequential renumbering of `_parse_conditional_workflow`. -/
def renumberStages (stages : List PStage) : List PStage :=
  stages.enum.map (fun p => { p.2 with stageId := (p.1 : Int) })

/-- Compiler output (`execution plan`). -/
structure ExecutionPlan where
  fileNodeId : String
  fileData : List (String × Val)
  hasConditionals : Bool
  stages : List PStage
deriving DecidableEq

/-- Initial fuel of the parser DFS traversals: strictly larger than the
total number of recursive calls any of them can make (one per visited node,
each corresponding to the start node or an edge, plus one per sibling
step). -/
def parserDfsFuel (nodes : List WNode) (edges : List WEdge) : Nat :=
  nodes.length + 2 * edges.length + 2

/-- `WorkflowParser.parse`: compile a node/edge graph into an execution
plan, raising `ValueError` when there is no file node or (in the linear
case) no analyzer reachable from it. -/
def parseWorkflow (nodes : List WNode) (edges : List WEdge) : Except PyErr ExecutionPlan := do
  let nm := mkNodeMap nodes
  let em := mkEdgeMap edges
  match nodes.find? (fun n => n.type = .file) with
  | none => .error (.valueError "Workflow must contain a file node")
  | some fileNode =>
    let conditionalNodes := nodes.filter (fun n => n.type = .conditional)
    if conditionalNodes.isEmpty then
      let analyzers := getAllAnalyzersInWorkflow fileNode.id nm em (parserDfsFuel nodes edges)
      if analyzers.isEmpty then .error (.valueError "No analyzers connected to file node")
      else
        let resultNodes := ((nodes.filter (fun n => n.type = .result)).map (fun n => n.id))
        pure ⟨fileNode.id, fileNode.data, false, [⟨0, analyzers, .null, .null, resultNodes⟩]⟩
    else do
      let condIds := conditionalNodes.map (fun n => n.id)
      let stage0Analyzers :=
        getPreconditionalAnalyzers fileNode.id condIds nm em (parserDfsFuel nodes edges)
      let stages0 : List PStage :=
        if !stage0Analyzers.isEmpty then
          [⟨0, stage0Analyzers, .null, .null, allResultNodeIds nm⟩]
        else []
      let condStages ← buildConditionalStages nm edges conditionalNodes
      let stages := assignTempIds (stages0 ++ condStages)
      let stages := orderStagesByDependencies stages
      let stages := renumberStages stages
      pure ⟨fileNode.id, fileNode.data, true, stages⟩

end WorkflowParser

section DistributionSimulator

/-- `MockNode` of `tests/test_distribution_logic.py` (node type is a plain
string there; the unused `position` is omitted). -/
structure SimNode where
  id : String
  type : String
  data : List (String × Val)
deriving DecidableEq

/-- `MockEdge` (the derived `id` and the unused `targetHandle` are
omitted). -/
structure SimEdge where
  source : String
  target : String
  sourceHandle : Option String
deriving DecidableEq

/-- Insert into the simulator node dict. -/
def upsertSimNodeMap (m : List (String × SimNode)) (n : SimNode) : List (String × SimNode) :=
  match m with
  | [] => [(n.id, n)]
  | (k, v) :: rest => if k = n.id then (k, n) :: rest else (k, v) :: upsertSimNodeMap rest n

/-- `self.nodes = {n.id: n for n in nodes}`. -/
def simNodeMap (nodes : List SimNode) : List (String × SimNode) :=
  nodes.foldl upsertSimNodeMap []

/-- `self.nodes.get(id)`. -/
def simLookup (m : List (String × SimNode)) (nodeId : String) : Option SimNode :=
  (m.find? (fun p => p.1 = nodeId)).map (fun p => p.2)

/-- `TreeBasedDistributionSimulator.find_root_node`. -/
def simFindRootNode (m : List (String × SimNode)) : Option String :=
  (m.find? (fun p => p.2.type = "file")).map (fun p => p.1)

/-- `TreeBasedDistributionSimulator.find_leaf_nodes`. -/
def simFindLeafNodes (m : List (String × SimNode)) : List String :=
  (m.filter (fun p => p.2.type = "result")).map (fun p => p.1)

/-- `TreeBasedDistributionSimulator.get_children`. -/
def childrenOf (edges : List SimEdge) (nodeId : String) : List String :=
  (edges.filter (fun e => e.source = nodeId)).map (fun e => e.target)

/-- BFS of `TreeBasedDistributionSimulator.has_path_between_nodes`.  Fuel
counts queue pops, bounded by one plus the number of enqueues, which is at
most the number of edges (children are enqueued only on the first visit of
their source). -/
def hasPathBFS (edges : List SimEdge) : Nat → List String → List String → String → Bool
  | 0, _, _, _ => false
  | _ + 1, [], _, _ => false
  | fuel + 1, current :: queue, visited, target =>
    if current = target then true
    else if visited.contains current then hasPathBFS edges fuel queue visited target
    else hasPathBFS edges fuel (queue ++ childrenOf edges current) (current :: visited) target

/-- `TreeBasedDistributionSimulator.has_path_between_nodes`. -/
def hasPathBetween (edges : List SimEdge) (startId targetId : String) : Bool :=
  hasPathBFS edges (edges.length + 2) [startId] [] targetId

/-- State of the path-collecting DFS of `find_analyzers_in_tree_path`: the
shared, backtracked visited set and the accumulated root-to-leaf paths. -/
structure FatpSt where
  visited : List String
  allPaths : List (List Val)
deriving DecidableEq

mutual

/-- `dfs_traversal` inside `find_analyzers_in_tree_path`: collect analyzer
names along the way, record the path on reaching the target leaf, and
backtrack the visited set (`visited.add` before the children,
`visited.discard` after).  Because the visited set is path-local the call
tree can be exponential in the graph size; the fuel used by the wrapper
exceeds that bound. -/
def fatpDfs (snodes : List (String × SimNode)) (edges : List SimEdge) (targetLeafId : String) :
    Nat → String → List Val → FatpSt → FatpSt
  | 0, _, _, st => st
  | fuel + 1, currentId, currentPath, st =>
    if st.visited.contains currentId then st
    else
      match simLookup snodes currentId with
      | none => st
      | some node =>
        let pathWithCurrent :=
          if node.type = "analyzer" then
            currentPath ++
              [(lookupVal node.data "analyzer").getD
                ((lookupVal node.data "name").getD (.str "Unknown"))]
          else currentPath
        if currentId = targetLeafId then
          { st with allPaths := st.allPaths ++ [pathWithCurrent] }
        else
          let st := { st with visited := st.visited ++ [currentId] }
          let st := fatpChildren snodes edges targetLeafId fuel
            (childrenOf edges currentId) pathWithCurrent st
          { st with visited := st.visited.erase currentId }

/-- Loop over the children of a node in `dfs_traversal`. -/
def fatpChildren (snodes : List (String × SimNode)) (edges : List SimEdge)
    (targetLeafId : String) : Nat → List String → List Val → FatpSt → FatpSt
  | 0, _, _, st => st
  | _ + 1, [], _, st => st
  | fuel + 1, c :: cs, path, st =>
    fatpChildren snodes edges targetLeafId fuel cs path
      (fatpDfs snodes edges targetLeafId fuel c path st)

end

/-- Add elements to a Python set modelled as a first-occurrence list
(membership by `==`; unhashable elements raise `TypeError`). -/
def pySetAddAll (acc : List Val) : List Val → Except PyErr (List Val)
  | [] => .ok acc
  | x :: rest =>
    if pyHashable x then
      if acc.any (fun y => pyEq y x) then pySetAddAll acc rest
      else pySetAddAll (acc ++ [x]) rest
    else .error (.typeError "unhashable type")

/-- Fuel exceeding the total number of calls the path-local DFS can make
(paths are simple, so depth is bounded by the node count and branching by
the edge count). -/
def fatpFuel (snodes : List (String × SimNode)) (edges : List SimEdge) : Nat :=
  (edges.length + 2) ^ (snodes.length + edges.length + 3)

/-- `TreeBasedDistributionSimulator.find_analyzers_in_tree_path`: the
unique analyzers over all collected root-to-leaf paths (Python builds a
set, whose iteration order is unspecified; the model keeps first
occurrences, and only membership of the result is observed). -/
def findAnalyzersInTreePath (snodes : List (String × SimNode)) (edges : List SimEdge)
    (rootId targetLeafId : String) : Except PyErr (List Val) :=
  let st := fatpDfs snodes edges targetLeafId (fatpFuel snodes edges) rootId [] ⟨[], []⟩
  pySetAddAll [] st.allPaths.flatten

/-- One per-result-node view produced by the distribution strategies
(`error = none` models the absence of the `error` key). -/
structure LeafView where
  jobId : Val
  status : Val
  analyzerReports : List Val
  errorMsg : Option String
deriving DecidableEq

/-- `[r for r in reports if r.get('name') in names]`. -/
def filterReportsGo : List Val → List Val → Except PyErr (List Val)
  | [], _ => .ok []
  | r :: rest, names => do
    let nameV ← pyValGetE r "name" .null
    let restR ← filterReportsGo rest names
    pure (if pyMemList nameV names then r :: restR else restR)

/-- Filter a report pool (an arbitrary value, iterated as Python would) to
the reports whose `name` is in the given list. -/
def filterReportsByNames (pool : Val) (names : List Val) : Except PyErr (List Val) := do
  let items ← pyIterateE pool
  filterReportsGo items names

/-- Per-leaf loop of `distribute_using_tree_traversal`. -/
def dttGo (snodes : List (String × SimNode)) (edges : List SimEdge)
    (allResults : List (String × Val)) (rootId : String) (pool : Val) :
    List String → Except PyErr (List (String × LeafView))
  | [] => .ok []
  | leafId :: rest => do
    let pathAnalyzers ← findAnalyzersInTreePath snodes edges rootId leafId
    let view ←
      if pathAnalyzers.isEmpty then
        if hasPathBetween edges rootId leafId then
          pure (⟨lookupValD allResults "job_id" .null, lookupValD allResults "status" .null,
            [], none⟩ : LeafView)
        else
          pure (⟨.null, .str "idle", [],
            some "No path from File node (root) to this Result node (leaf)"⟩ : LeafView)
      else do
        let filtered ← filterReportsByNames pool pathAnalyzers
        pure (⟨lookupValD allResults "job_id" .null, lookupValD allResults "status" .null,
          filtered, none⟩ : LeafView)
    let restR ← dttGo snodes edges allResults rootId pool rest
    pure ((leafId, view) :: restR)

/-- `TreeBasedDistributionSimulator.distribute_using_tree_traversal`
(Strategy B, the DFS fallback). -/
def distributeUsingTreeTraversal (snodes : List (String × SimNode)) (edges : List SimEdge)
    (allResults : List (String × Val)) : Except PyErr (List (String × LeafView)) := do
  match simFindRootNode snodes with
  | none => pure []
  | some rootId =>
    dttGo snodes edges allResults rootId (lookupValD allResults "analyzer_reports" (.list []))
      (simFindLeafNodes snodes)

/-- A `StageRoutingRecord` as built by `routers/execute.py`
(`{stage_id, target_nodes, executed, analyzers}`). -/
structure RoutingRecord where
  stageId : Int
  targetNodes : List Val
  executed : Bool
  analyzers : List Val
deriving DecidableEq

/-- Aggregation of the global report pool at the top of
`distribute_using_backend_routing`: the truthy `analyzer_reports` value, or
the concatenation of every stage entry's `analyzer_reports`. -/
def aggregateExtend (acc : List Val) : List (String × Val) → Except PyErr (List Val)
  | [] => .ok acc
  | (_, v) :: rest =>
    match v with
    | .dict d =>
      if pyMemKey d "analyzer_reports" then do
        let items ← pyIterateE (lookupValD d "analyzer_reports" .null)
        aggregateExtend (acc ++ items) rest
      else aggregateExtend acc rest
    | _ => aggregateExtend acc rest

/-- The global report pool of `distribute_using_backend_routing`. -/
def aggregateReports (allResults : List (String × Val)) : Except PyErr Val := do
  let direct := lookupValD allResults "analyzer_reports" .null
  if pyTruthy direct then pure direct
  else do
    let items ← aggregateExtend [] allResults
    pure (.list items)

/-- Per-leaf routing info (`leaf_node_map` values; the constant error
message is recomputed when the views are built). -/
structure LeafInfo where
  analyzers : List Val
  executed : Bool
deriving DecidableEq

/-- Replace the info of a leaf in place. -/
def setLeafInfo (lm : List (String × LeafInfo)) (k : String) (v : LeafInfo) :
    List (String × LeafInfo) :=
  match lm with
  | [] => []
  | (k', v') :: rest => if k' = k then (k', v) :: rest else (k', v') :: setLeafInfo rest k v

/-- The `for leaf_id in target_nodes` loop of one routing record: targets
that are not leaf-map keys are skipped, executed records mark the leaf
executed and merge the analyzer names through `list(set(...))`. -/
def updateLeafMapForTargets (lm : List (String × LeafInfo)) (analyzers : List Val)
    (executed : Bool) : List Val → Except PyErr (List (String × LeafInfo))
  | [] => .ok lm
  | t :: rest => do
    if !pyHashable t then .error (.typeError "unhashable type")
    else
      match t with
      | .str leafId =>
        (match lm.find? (fun p => p.1 = leafId) with
         | none => updateLeafMapForTargets lm analyzers executed rest
         | some p =>
           if executed then do
             let merged ← pySetAddAll [] (p.2.analyzers ++ analyzers)
             updateLeafMapForTargets (setLeafInfo lm leafId ⟨merged, true⟩) analyzers executed rest
           else updateLeafMapForTargets lm analyzers executed rest)
      | _ => updateLeafMapForTargets lm analyzers executed rest

/-- The routing loop of `distribute_using_backend_routing`. -/
def processRoutingRecords (lm : List (String × LeafInfo)) :
    List RoutingRecord → Except PyErr (List (String × LeafInfo))
  | [] => .ok lm
  | r :: rest => do
    let lm' ← updateLeafMapForTargets lm r.analyzers r.executed r.targetNodes
    processRoutingRecords lm' rest

/-- The view-building loop of `distribute_using_backend_routing`. -/
def buildLeafViews (allResults : List (String × Val)) (pool : Val) :
    List (String × LeafInfo) → Except PyErr (List (String × LeafView))
  | [] => .ok []
  | (leafId, info) :: rest => do
    let view ←
      if info.executed then do
        let filtered ← filterReportsByNames pool info.analyzers
        pure (⟨lookupValD allResults "job_id" .null, lookupValD allResults "status" .null,
          filtered, none⟩ : LeafView)
      else
        pure (⟨.null, .str "idle", [],
          some "Path not executed (condition not met or branch not taken)"⟩ : LeafView)
    let restV ← buildLeafViews allResults pool rest
    pure ((leafId, view) :: restV)

/-- `TreeBasedDistributionSimulator.distribute_using_backend_routing`
(Strategy A, the authoritative routing). -/
def distributeUsingBackendRouting (snodes : List (String × SimNode))
    (allResults : List (String × Val)) (stageRouting : List RoutingRecord) :
    Except PyErr (List (String × LeafView)) := do
  let pool ← aggregateReports allResults
  let lm ← processRoutingRecords ((simFindLeafNodes snodes).map (fun l => (l, ⟨[], false⟩)))
    stageRouting
  buildLeafViews allResults pool lm

end DistributionSimulator

section SpecSidePredicates

/-- Well-formedness of a condition value, used to state the amended claim
C5: `source_analyzer` (when present) is hashable, `field_path` (when
present) is a string, and a truthy `inner` of a legacy `NOT` wrapper is
recursively a well-formed dict.  Fuelled like the evaluator itself. -/
def wfCondFuel : Nat → Val → Bool
  | 0, _ => false
  | fuel + 1, v =>
    match v with
    | .dict c =>
      (match lookupVal c "source_analyzer" with
       | some sa => pyHashable sa
       | none => true) &&
      (match lookupVal c "field_path" with
       | some (.str _) => true
       | some _ => false
       | none => true) &&
      (if lookupVal c "type" = some (.str "NOT") then
         (let inner := lookupValD c "inner" .null
          !pyTruthy inner || (match inner with
            | .dict _ => wfCondFuel fuel inner
            | _ => false))
       else true)
    | _ => false

/-- Well-formedness of a condition value at its natural fuel. -/
def wfCond (v : Val) : Bool := wfCondFuel (valSize v + 1) v

/-- Every report of a stage entry is a dict. -/
def wfReportList : List Val → Bool
  | [] => true
  | .dict _ :: rest => wfReportList rest
  | _ :: _ => false

/-- A stage entry is well-formed when its `analyzer_reports` value (if it
is a dict carrying that key) is a list of dicts. -/
def wfStageEntry : Val → Bool
  | .dict d =>
    if pyMemKey d "analyzer_reports" then
      match lookupValD d "analyzer_reports" .null with
      | .list xs => wfReportList xs
      | _ => false
    else true
  | _ => true

/-- Well-formed accumulated results (the shape the engine itself
produces). -/
def wfResults (r : List (String × Val)) : Bool := r.all (fun p => wfStageEntry p.2)

/-- BFS reachability over workflow edges (spec-side, used only to state the
acyclicity hypothesis of claim C1). -/
def wfReach (edges : List WEdge) : Nat → List String → List String → String → Bool
  | 0, _, _, _ => false
  | _ + 1, [], _, _ => false
  | fuel + 1, cur :: queue, visited, target =>
    if cur = target then true
    else if visited.contains cur then wfReach edges fuel queue visited target
    else wfReach edges fuel
      (queue ++ (edges.filter (fun e => e.source = cur)).map (fun e => e.target))
      (cur :: visited) target

/-- `b` is reachable from `a` along edges. -/
def graphReaches (edges : List WEdge) (a b : String) : Bool :=
  wfReach edges (edges.length + 2) [a] [] b

/-- The node/edge graph is acyclic: no edge whose target reaches back to
its source. -/
def isAcyclicGraph (edges : List WEdge) : Bool :=
  edges.all (fun e => !graphReaches edges e.target e.source)

/-- The condition configuration a conditional node resolves to is a
dictionary (or absent, in which case the parser defaults it): this is what
keeps the parser's `dict(condition_config)` conversions from raising. -/
def condConfigIsDict (cn : WNode) : Bool :=
  match cn.conditionalData with
  | some _ => true
  | none =>
    if pyTruthy (lookupValD cn.data "conditionType" .null) then true
    else match lookupValD cn.data "condition" .null with
      | .dict _ => true
      | v => !pyTruthy v

/-- Every analyzer node's truthy analyzer name is hashable (a list- or
dict-valued name would make the parser's analyzer-name dict raise). -/
def analyzerNamesHashable (nodes : List WNode) : Bool :=
  nodes.all (fun n =>
    n.type ≠ .analyzer ||
    (let nameV := lookupValD n.data "analyzer" .null
     !pyTruthy nameV || pyHashable nameV))

/-- Invariant of the topological-sort DFS (spec-side): every visited stage
id has its mapped stage in the ordered output. -/
def osInv (smap : List (Int × PStage)) (st : VisitSt) : Prop :=
  ∀ id, id ∈ st.visited → ∀ s, lookupIntKey smap id = some s → s ∈ st.ordered

/-- Injection of hashable values into a plain sum, identifying `True` with
`1` and `False` with `0` exactly as Python hashing does; `pyEq` on hashable
values coincides with equality of keys. -/
def hashKey : Val → Int ⊕ String ⊕ Unit
  | .null => .inr (.inr ())
  | .bool a => .inl (if a then 1 else 0)
  | .int n => .inl n
  | .str s => .inr (.inl s)
  | .list _ => .inr (.inr ())
  | .dict _ => .inr (.inr ())

/-- Lookup of a leaf's routing info (first matching key). -/
def lookupLeafInfo (lm : List (String × LeafInfo)) (k : String) : Option LeafInfo :=
  (lm.find? (fun p => p.1 = k)).map (fun p => p.2)

/-- Lookup of a leaf's built view (first matching key). -/
def lookupLeafView (vs : List (String × LeafView)) (k : String) : Option LeafView :=
  (vs.find? (fun p => p.1 = k)).map (fun p => p.2)

/-- Spec side of claim C7: some executed routing record targets the sink. -/
def routedExecuted (stageRouting : List RoutingRecord) (leafId : String) : Bool :=
  stageRouting.any (fun r => r.executed && r.targetNodes.any (fun t => t = .str leafId))

/-- Spec side of claim C7: the analyzer value belongs (by Python `==`) to
the union of the analyzer names of the executed routing records targeting
the sink. -/
def routedAnalyzer (stageRouting : List RoutingRecord) (leafId : String) (a : Val) : Bool :=
  stageRouting.any (fun r =>
    r.executed && r.targetNodes.any (fun t => t = .str leafId) && pyMemList a r.analyzers)

/-- All insertions of an element into a list (spec-side, used to quantify
over traversal orders in claim C8). -/
def listInsertions {α : Type} (x : α) : List α → List (List α)
  | [] => [[x]]
  | y :: ys => (x :: y :: ys) :: (listInsertions x ys).map (fun zs => y :: zs)

/-- All permutations of a list (structural, hence executable in the
kernel). -/
def permsOf {α : Type} : List α → List (List α)
  | [] => [[]]
  | x :: xs => (permsOf xs).flatMap (listInsertions x)


end SpecSidePredicates

/-! ### Helper lemmas -/

theorem splitCharDot_no_dot (l : List Char) (h : l.contains '.' = false) :
    splitCharDot l = [l] := by
  induction l with
  | nil => rfl
  | cons x rest ih =>
    simp only [List.contains_cons, Bool.or_eq_false_iff] at h
    rw [splitCharDot, ih h.2]
    simp only [beq_eq_false_iff_ne] at h
    simp [Ne.symm h.1]

theorem navigateFieldPath_single (v : Val) (key : String) (hne : key ≠ "")
    (hd : key.toList.contains '.' = false) :
    navigateFieldPath v key = navigateGo v [key] := by
  rw [navigateFieldPath, if_neg hne, splitCharDot_no_dot _ hd]
  rfl

/-! ### Claim C10: totality and case behaviour of field-path navigation -/

/-- C10 (counterexample): the claim says a non-dict intermediate value
always yields None, but in a bracketed segment a non-dict, non-list value
passes through unchanged: `_navigate_field_path(5, "a[0]")` returns `5`,
not `None`. -/
theorem c10_counterexample :
    navigateFieldPath (.int 5) "a[0]" = .int 5 ∧ navigateFieldPath (.int 5) "a[0]" ≠ .null := by
  constructor
  · rfl
  · decide

/-- C10 (amended): field-path navigation is total by construction (every
internal exception of the source is caught and converted to None) and, on
a single-segment path: a missing key in a dict yields None; a non-dict
value at a plain (bracket-free) segment yields None; when the value at the
bracket field name is a list, a non-integer bracket index yields None, and
a nonnegative index at or past the end of the list yields None.  (A
non-dict, non-list value in a bracketed segment instead passes through
unchanged, and a negative in-range index indexes from the end.) -/
theorem c10_amended :
    (∀ (d : List (String × Val)) (key : String),
      key ≠ "" → key.toList.contains '.' = false →
      (key.toList.contains '[' && key.toList.contains ']') = false →
      lookupVal d key = none →
      navigateFieldPath (.dict d) key = .null)
    ∧ (∀ (v : Val) (key : String), (∀ d, v ≠ .dict d) →
      key ≠ "" → key.toList.contains '.' = false →
      (key.toList.contains '[' && key.toList.contains ']') = false →
      navigateFieldPath v key = .null)
    ∧ (∀ (d : List (String × Val)) (part : String) (xs : List Val),
      part ≠ "" → part.toList.contains '.' = false →
      (part.toList.contains '[' && part.toList.contains ']') = true →
      lookupValD d (bracketFieldName part) .null = .list xs →
      pyParseInt (bracketIndexStr part) = none →
      navigateFieldPath (.dict d) part = .null)
    ∧ (∀ (d : List (String × Val)) (part : String) (xs : List Val) (i : Int),
      part ≠ "" → part.toList.contains '.' = false →
      (part.toList.contains '[' && part.toList.contains ']') = true →
      lookupValD d (bracketFieldName part) .null = .list xs →
      pyParseInt (bracketIndexStr part) = some i →
      (xs.length : Int) ≤ i →
      navigateFieldPath (.dict d) part = .null) := by
  refine ⟨?_, ?_, ?_, ?_⟩
  · intro d key hne hd hb hmiss
    rw [navigateFieldPath_single _ _ hne hd]
    simp only [navigateGo]
    rw [hb]
    simp [lookupValD, hmiss]
  · intro v key hv hne hd hb
    rw [navigateFieldPath_single _ _ hne hd]
    simp only [navigateGo]
    rw [hb]
    cases v with
    | dict d => exact absurd rfl (hv d)
    | null => simp
    | bool b => simp
    | int n => simp
    | str s => simp
    | list xs => simp
  · intro d part xs hne hd hb hfield hparse
    rw [navigateFieldPath_single _ _ hne hd]
    simp only [navigateGo]
    rw [hb]
    simp only [if_true, hfield, hparse]
  · intro d part xs i hne hd hb hfield hparse hlen
    rw [navigateFieldPath_single _ _ hne hd]
    simp only [navigateGo]
    rw [hb]
    simp only [if_true, hfield, hparse]
    rw [pyListIndexOrNull, if_neg (show ¬(i < (xs.length : Int)) from by omega)]
    simp

/-- C10 (witness): the four amended cases at concrete inputs. -/
theorem c10_amended_witness :
    navigateFieldPath (.dict [("a", .int 1)]) "b" = .null
    ∧ navigateFieldPath (.int 7) "b" = .null
    ∧ navigateFieldPath (.dict [("k", .list [.int 1])]) "k[x]" = .null
    ∧ navigateFieldPath (.dict [("k", .list [.int 1])]) "k[5]" = .null := by
  refine ⟨?_, ?_, ?_, ?_⟩
  · exact c10_amended.1 [("a", .int 1)] "b" (by decide) (by decide) (by decide) (by decide)
  · exact c10_amended.2.1 (.int 7) "b" (by intro d h; cases h) (by decide) (by decide) (by decide)
  · exact c10_amended.2.2.1 [("k", .list [.int 1])] "k[x]" [.int 1] (by decide) (by decide)
      (by decide) (by decide) (by decide)
  · exact c10_amended.2.2.2 [("k", .list [.int 1])] "k[5]" [.int 1] 5 (by decide) (by decide)
      (by decide) (by decide) (by decide) (by decide)

theorem lookupVal_pySet_ne (d : List (String × Val)) (key k : String) (v : Val)
    (h : k ≠ key) : lookupVal (pySet d key v) k = lookupVal d k := by
  induction d with
  | nil => simp [pySet, lookupVal, Ne.symm h]
  | cons p rest ih =>
    obtain ⟨k', w⟩ := p
    by_cases hk : k' = key
    · subst hk
      simp [pySet, lookupVal, Ne.symm h]
    · simp only [pySet, if_neg hk, lookupVal]
      by_cases hk2 : k' = k
      · simp [hk2]
      · simp [hk2, ih]

theorem lookupVal_pySet_self (d : List (String × Val)) (key : String) (v : Val) :
    lookupVal (pySet d key v) key = some v := by
  induction d with
  | nil => simp [pySet, lookupVal]
  | cons p rest ih =>
    obtain ⟨k', w⟩ := p
    by_cases hk : k' = key
    · simp [pySet, hk, lookupVal]
    · simp [pySet, hk, lookupVal, ih]

theorem pySet_ne_nil (d : List (String × Val)) (key : String) (v : Val) :
    pySet d key v ≠ [] := by
  cases d with
  | nil => simp [pySet]
  | cons p rest =>
    obtain ⟨k', w⟩ := p
    by_cases hk : k' = key <;> simp [pySet, hk]

theorem validateConditionE_congr (c c' : List (String × Val))
    (hcong : ∀ k, k ≠ "negate" → lookupVal c' k = lookupVal c k) :
    validateConditionE c' = validateConditionE c := by
  have ht := hcong "type" (by decide)
  have hs := hcong "source_analyzer" (by decide)
  have hf := hcong "field_path" (by decide)
  have he := hcong "expected_value" (by decide)
  simp only [validateConditionE, lookupValD, pyMemKey, ht, hs, hf, he]

theorem evaluatePrimary_congr (c c' : List (String × Val))
    (hcong : ∀ k, k ≠ "negate" → lookupVal c' k = lookupVal c k) :
    ∀ rep, evaluatePrimary c' rep = evaluatePrimary c rep := by
  intro rep
  have ht := hcong "type" (by decide)
  have hf := hcong "field_path" (by decide)
  have he := hcong "expected_value" (by decide)
  simp only [evaluatePrimary, lookupValD, ht, hf, he]

theorem evaluateWithSchemaFallback_congr (c c' : List (String × Val))
    (hcong : ∀ k, k ≠ "negate" → lookupVal c' k = lookupVal c k) :
    ∀ rep, evaluateWithSchemaFallback c' rep = evaluateWithSchemaFallback c rep := by
  intro rep
  have ht := hcong "type" (by decide)
  have hf := hcong "field_path" (by decide)
  have he := hcong "expected_value" (by decide)
  simp only [evaluateWithSchemaFallback, lookupValD, ht, hf, he]

theorem evaluateGenericFallback_congr (c c' : List (String × Val))
    (hcong : ∀ k, k ≠ "negate" → lookupVal c' k = lookupVal c k) :
    ∀ rep, evaluateGenericFallback c' rep = evaluateGenericFallback c rep := by
  intro rep
  have ht := hcong "type" (by decide)
  simp only [evaluateGenericFallback, lookupValD, ht]

theorem getSafeDefault_congr (c c' : List (String × Val))
    (hcong : ∀ k, k ≠ "negate" → lookupVal c' k = lookupVal c k) :
    getSafeDefault c' = getSafeDefault c := by
  have ht := hcong "type" (by decide)
  simp only [getSafeDefault, lookupValD, ht]

theorem evalWithRecoveryFuel_congr (c c' : List (String × Val))
    (R : List (String × Val)) (fuel : Nat)
    (hcong : ∀ k, k ≠ "negate" → lookupVal c' k = lookupVal c k) :
    evalWithRecoveryFuel (fuel + 1) (.dict c') R = evalWithRecoveryFuel (fuel + 1) (.dict c) R := by
  have ht := hcong "type" (by decide)
  have hs := hcong "source_analyzer" (by decide)
  have hi := hcong "inner" (by decide)
  have hv := validateConditionE_congr c c' hcong
  have hp := evaluatePrimary_congr c c' hcong
  have hsf := evaluateWithSchemaFallback_congr c c' hcong
  have hg := evaluateGenericFallback_congr c c' hcong
  have hsd := getSafeDefault_congr c c' hcong
  simp only [evalWithRecoveryFuel, lookupValD, ht, hs, hi, hv, hp, hsf, hg, hsd]

theorem evalWithRecoveryFuel_nonrec (c : List (String × Val)) (R : List (String × Val))
    (fuel fuel' : Nat)
    (hnot : pyEq (lookupValD c "type" .null) (.str "NOT") = false) :
    evalWithRecoveryFuel (fuel + 1) (.dict c) R = evalWithRecoveryFuel (fuel' + 1) (.dict c) R := by
  simp only [evalWithRecoveryFuel, hnot, Bool.false_eq_true, if_false]

theorem evaluateConditionFuel_nonNOT (c : List (String × Val)) (R : List (String × Val))
    (fuel : Nat) (hne : c ≠ [])
    (hnot : pyEq (lookupValD c "type" .null) (.str "NOT") = false) :
    evaluateConditionFuel (fuel + 1) (.dict c) R =
      (evalWithRecoveryFuel (fuel + 1) (.dict c) R).map
        (fun er => if pyTruthy (lookupValD c "negate" (.bool false)) then !er.result
                   else er.result) := by
  have htr : pyTruthy (.dict c) = true := by
    cases c with
    | nil => exact absurd rfl hne
    | cons a l => simp [pyTruthy]
  simp only [evaluateConditionFuel, htr, hnot, Bool.false_eq_true, if_false,
    Bool.not_true, Bool.false_eq_true]
  cases evalWithRecoveryFuel (fuel + 1) (.dict c) R <;> simp [Except.map, Except.bind]

/-! ### Claim C2: the branch-pair negation law -/

/-- C2 (counterexample): for a conditional node whose condition descriptor
already carries `negate=true` (here `analyzer_failed` on analyzer `X`),
the TRUE branch evaluates to `true` and the FALSE branch — the same
descriptor with `negate=true` set, exactly as `_build_conditional_stages`
builds it — also evaluates to `true`, so the FALSE branch is not the
negation of the TRUE branch. -/
theorem c2_counterexample :
    evaluateCondition
        (.dict [("type", .str "analyzer_failed"), ("source_analyzer", .str "X"),
                ("negate", .bool true)]) [] = .ok true
    ∧ evaluateCondition
        (.dict (pySet [("type", .str "analyzer_failed"), ("source_analyzer", .str "X"),
                       ("negate", .bool true)] "negate" (.bool true))) [] = .ok true
    ∧ evaluateCondition
        (.dict (pySet [("type", .str "analyzer_failed"), ("source_analyzer", .str "X"),
                       ("negate", .bool true)] "negate" (.bool true))) [] ≠
      Except.map Bool.not
        (evaluateCondition
          (.dict [("type", .str "analyzer_failed"), ("source_analyzer", .str "X"),
                  ("negate", .bool true)]) []) := by
  refine ⟨by decide, by decide, by decide⟩

/-- C2 (amended): for any conditional node's branch pair and any
accumulated result set, evaluating the FALSE-branch condition (the
TRUE-branch descriptor with `negate=true`) yields the boolean negation of
evaluating the TRUE-branch condition, provided the descriptor is
non-empty, is not the legacy `NOT` wrapper, and does not already carry a
truthy `negate` flag (all conditions the parser builds from well-formed
conditional nodes satisfy these).  Raising evaluations propagate the same
exception on both sides. -/
theorem c2_amended (c : List (String × Val)) (R : List (String × Val))
    (hne : c ≠ [])
    (hnot : pyEq (lookupValD c "type" .null) (.str "NOT") = false)
    (hneg : pyTruthy (lookupValD c "negate" (.bool false)) = false) :
    evaluateCondition (.dict (pySet c "negate" (.bool true))) R =
      Except.map Bool.not (evaluateCondition (.dict c) R) := by
  have hcong : ∀ k, k ≠ "negate" → lookupVal (pySet c "negate" (.bool true)) k = lookupVal c k :=
    fun k hk => lookupVal_pySet_ne c "negate" k (.bool true) hk
  have hnot' : pyEq (lookupValD (pySet c "negate" (.bool true)) "type" .null)
      (.str "NOT") = false := by
    simpa [lookupValD, hcong "type" (by decide)] using hnot
  have hnegL : pyTruthy (lookupValD (pySet c "negate" (.bool true)) "negate" (.bool false))
      = true := by
    simp [lookupValD, lookupVal_pySet_self, pyTruthy]
  rw [evaluateCondition, evaluateCondition,
    evaluateConditionFuel_nonNOT _ _ _ (pySet_ne_nil c "negate" (.bool true)) hnot',
    evaluateConditionFuel_nonNOT _ _ _ hne hnot,
    evalWithRecoveryFuel_congr c (pySet c "negate" (.bool true)) R _ hcong,
    evalWithRecoveryFuel_nonrec c R _ (valSize (Val.dict c)) hnot,
    hnegL, hneg]
  cases evalWithRecoveryFuel (valSize (Val.dict c) + 1) (.dict c) R <;> simp [Except.map]

/-- C2 (witness): the amended law at a concrete descriptor
(`verdict_malicious` on ClamAV) and a concrete result set containing a
ClamAV detection: the TRUE branch evaluates `ok true`, the FALSE branch
`ok false`. -/
theorem c2_amended_witness :
    evaluateCondition
        (.dict (pySet [("type", .str "verdict_malicious"), ("source_analyzer", .str "ClamAV")]
          "negate" (.bool true)))
        [("stage_0", .dict [("analyzer_reports", .list [.dict [("name", .str "ClamAV"),
          ("status", .str "SUCCESS"),
          ("report", .dict [("detections", .list [.str "Eicar-Signature"])])]])])] =
      Except.map Bool.not
        (evaluateCondition
          (.dict [("type", .str "verdict_malicious"), ("source_analyzer", .str "ClamAV")])
          [("stage_0", .dict [("analyzer_reports", .list [.dict [("name", .str "ClamAV"),
            ("status", .str "SUCCESS"),
            ("report", .dict [("detections", .list [.str "Eicar-Signature"])])]])])]) :=
  c2_amended [("type", .str "verdict_malicious"), ("source_analyzer", .str "ClamAV")]
    [("stage_0", .dict [("analyzer_reports", .list [.dict [("name", .str "ClamAV"),
      ("status", .str "SUCCESS"),
      ("report", .dict [("detections", .list [.str "Eicar-Signature"])])]])])]
    (by decide) (by decide) (by decide)

/-! ### Claim C4: the missing-report short-circuit -/

/-- C4 (counterexample): with the condition `analyzer_failed` on analyzer
`X` and no accumulated report for `X`, the claim says the evaluator
short-circuits to the safe default for that kind, which is `true` — and
indeed `_get_safe_default` returns `true` here — but the short-circuit
branch of `_evaluate_with_recovery` hard-codes `result=False` instead of
calling it. -/
theorem c4_counterexample :
    evalWithRecovery (.dict [("type", .str "analyzer_failed"), ("source_analyzer", .str "X")])
        [] =
      .ok ⟨false, 0, ["Analyzer X results not found"], some "safe_default", "analyzer_not_found"⟩
    ∧ getSafeDefault [("type", .str "analyzer_failed"), ("source_analyzer", .str "X")] = true := by
  refine ⟨by decide, by decide⟩

/-- C4 (amended): for every condition (not the legacy `NOT` wrapper, with
validation completing) whose named source analyzer has no report in the
accumulated stage results, the evaluator short-circuits to `result=false`
with confidence 0 for every condition kind — including `analyzer_failed`,
for which the in-code safe-default table would say `true`. -/
theorem c4_amended (c : List (String × Val)) (R : List (String × Val))
    (vp : Bool × List String)
    (hnot : pyEq (lookupValD c "type" .null) (.str "NOT") = false)
    (hval : validateConditionE c = .ok vp)
    (hfind : findAnalyzerReportE (lookupValD c "source_analyzer" .null) R = .ok none) :
    evalWithRecovery (.dict c) R =
      .ok ⟨false, 0,
        ["Analyzer " ++ pyStr (lookupValD c "source_analyzer" .null) ++ " results not found"],
        some "safe_default", "analyzer_not_found"⟩ := by
  rw [evalWithRecovery]
  simp only [evalWithRecoveryFuel, hval, hnot, hfind, Bool.false_eq_true, if_false]
  rfl

/-- C4 (witness): the amended short-circuit at the concrete
`analyzer_failed` condition on analyzer `X` with empty results. -/
theorem c4_amended_witness :
    evalWithRecovery (.dict [("type", .str "analyzer_failed"), ("source_analyzer", .str "X")])
        [] =
      .ok ⟨false, 0, ["Analyzer X results not found"], some "safe_default",
        "analyzer_not_found"⟩ :=
  c4_amended [("type", .str "analyzer_failed"), ("source_analyzer", .str "X")] []
    (false, ["Unknown analyzer: X"]) (by decide) (by decide) (by decide)

theorem valSize_pos (v : Val) : 0 < valSize v := by
  cases v <;> simp [valSize]

theorem lookupVal_valSize_lt (d : List (String × Val)) (k : String) (v : Val)
    (h : lookupVal d k = some v) : valSize v < valDictSize d := by
  induction d with
  | nil => simp [lookupVal] at h
  | cons p rest ih =>
    obtain ⟨k', w⟩ := p
    rw [lookupVal] at h
    by_cases hk : k' = k
    · rw [if_pos hk] at h
      injection h with h
      subst h
      simp only [valDictSize]
      omega
    · rw [if_neg hk] at h
      have := ih h
      simp only [valDictSize]
      omega

theorem wfCondFuel_fuel_eq : ∀ (f f' : Nat) (v : Val), valSize v ≤ f → valSize v ≤ f' →
    wfCondFuel f v = wfCondFuel f' v := by
  intro f
  induction f with
  | zero =>
    intro f' v hf _
    have := valSize_pos v
    omega
  | succ f ih =>
    intro f' v hf hf'
    cases f' with
    | zero =>
      have := valSize_pos v
      omega
    | succ f' =>
      cases v with
      | dict c =>
        simp only [wfCondFuel]
        by_cases hNOT : lookupVal c "type" = some (.str "NOT")
        · rw [if_pos hNOT, if_pos hNOT]
          simp only [valSize] at hf hf'
          cases hinner : lookupVal c "inner" with
          | none => simp [lookupValD, hinner]
          | some w =>
            simp only [lookupValD, hinner, Option.getD_some]
            cases w with
            | dict dw =>
              have hw := lookupVal_valSize_lt c "inner" (.dict dw) hinner
              rw [ih f' (.dict dw) (by omega) (by omega)]
            | null => rfl
            | bool b => rfl
            | int n => rfl
            | str s2 => rfl
            | list l => rfl
        · rw [if_neg hNOT, if_neg hNOT]
      | null => rfl
      | bool b => rfl
      | int n => rfl
      | str s => rfl
      | list l => rfl

theorem pyEq_str_iff (v : Val) (s : String) : pyEq v (.str s) = true ↔ v = .str s := by
  cases v <;> simp [pyEq]

theorem exceptBind_ok {ε α β : Type} (a : α) (f : α → Except ε β) :
    ((Except.ok a : Except ε α) >>= f) = f a := rfl

theorem exceptBind_err {ε α β : Type} (e : ε) (f : α → Except ε β) :
    ((Except.error e : Except ε α) >>= f) = .error e := rfl

theorem evaluateGenericFallback_ok (c ar : List (String × Val)) :
    ∃ b, evaluateGenericFallback c ar = .ok b := by
  rw [evaluateGenericFallback]
  repeat' split
  all_goals exact ⟨_, rfl⟩

theorem getAnalyzerSchemaE_ok (name : Val) (h : pyHashable name = true) :
    ∃ o, getAnalyzerSchemaE name = .ok o := by
  cases name <;> first
    | exact ⟨_, rfl⟩
    | simp [pyHashable] at h

theorem validateFieldPathE_ok (name : Val) (s : String) (h : pyHashable name = true) :
    ∃ p, validateFieldPathE name (.str s) = .ok p := by
  rw [validateFieldPathE]
  obtain ⟨o, ho⟩ := getAnalyzerSchemaE_ok name h
  rw [ho, exceptBind_ok]
  cases o with
  | none => exact ⟨_, rfl⟩
  | some sch =>
    dsimp only
    split
    · exact ⟨_, rfl⟩
    · split <;> exact ⟨_, rfl⟩

theorem exceptPureBind {ε α β : Type} (a : α) (f : α → Except ε β) :
    ((pure a : Except ε α) >>= f) = f a := rfl

theorem validateConditionE_ok (c : List (String × Val))
    (hsa : ∀ sa, lookupVal c "source_analyzer" = some sa → pyHashable sa = true)
    (hfp : ∀ v, lookupVal c "field_path" = some v → ∃ s, v = .str s) :
    ∃ p, validateConditionE c = .ok p := by
  rw [validateConditionE]
  dsimp only
  cases ht : pyMemKey c "type" with
  | false =>
    simp only [ht, Bool.not_false, if_true, List.cons_append, List.isEmpty_cons,
      Bool.not_false]
    exact ⟨_, rfl⟩
  | true =>
  cases hs : pyMemKey c "source_analyzer" with
  | false =>
    simp only [ht, hs, Bool.not_true, Bool.not_false, Bool.false_eq_true, if_false, if_true,
      List.nil_append, List.isEmpty_cons]
    exact ⟨_, rfl⟩
  | true =>
  simp only [ht, hs, Bool.not_true, Bool.false_eq_true, if_false, List.append_nil,
    List.isEmpty_nil, Bool.not_true, Bool.false_eq_true, if_false]
  obtain ⟨sa, hsome⟩ := Option.isSome_iff_exists.mp hs
  have hh : pyHashable sa = true := hsa sa hsome
  simp only [lookupValD, hsome, Option.getD_some]
  obtain ⟨o, ho⟩ := getAnalyzerSchemaE_ok sa hh
  rw [ho, exceptBind_ok]
  cases hm : pyMemList ((lookupVal c "type").getD Val.null) fieldCondTypes with
  | false =>
    simp only [hm, Bool.false_eq_true, if_false]
    rw [exceptPureBind]
    exact ⟨_, rfl⟩
  | true =>
  simp only [hm, if_true]
  cases hfpk : pyMemKey c "field_path" with
  | false =>
    simp only [hfpk, Bool.false_eq_true, if_false]
    rw [exceptPureBind, exceptPureBind]
    exact ⟨_, rfl⟩
  | true =>
  simp only [hfpk, if_true]
  obtain ⟨fv, hfv⟩ := Option.isSome_iff_exists.mp hfpk
  obtain ⟨s, rfl⟩ := hfp fv hfv
  cases sa with
  | list l => exact absurd hh (by simp [pyHashable])
  | dict d => exact absurd hh (by simp [pyHashable])
  | null =>
    dsimp only
    simp only [Bool.false_eq_true, if_false]
    rw [exceptPureBind, exceptPureBind]
    exact ⟨_, rfl⟩
  | bool b =>
    dsimp only
    simp only [Bool.false_eq_true, if_false]
    rw [exceptPureBind, exceptPureBind]
    exact ⟨_, rfl⟩
  | int n =>
    dsimp only
    simp only [Bool.false_eq_true, if_false]
    rw [exceptPureBind, exceptPureBind]
    exact ⟨_, rfl⟩
  | str s0 =>
    dsimp only
    cases hk : (analyzerSchemas.find? (fun p : String × AnalyzerSchema => p.1 = s0)).isSome with
    | false =>
      simp only [hk, Bool.false_eq_true, if_false]
      rw [exceptPureBind, exceptPureBind]
      exact ⟨_, rfl⟩
    | true =>
      simp only [hk, if_true, lookupValD, hfv, Option.getD_some]
      obtain ⟨p, hp⟩ := validateFieldPathE_ok (.str s0) s (by simp [pyHashable])
      rw [hp, exceptBind_ok]
      obtain ⟨pv, pm⟩ := p
      dsimp only
      rw [exceptPureBind, exceptPureBind]
      exact ⟨_, rfl⟩

theorem findInReports_ok (a : Val) (reports : List Val) (h : wfReportList reports = true) :
    ∃ o, findInReports a reports = .ok o := by
  induction reports with
  | nil => exact ⟨_, rfl⟩
  | cons r rest ih =>
    cases r with
    | dict rd =>
      rw [findInReports]
      have h2 : wfReportList rest = true := by rwa [wfReportList] at h
      split
      · exact ⟨_, rfl⟩
      · exact ih h2
    | null => simp [wfReportList] at h
    | bool b => simp [wfReportList] at h
    | int n => simp [wfReportList] at h
    | str s => simp [wfReportList] at h
    | list l => simp [wfReportList] at h

theorem findAnalyzerReportE_ok (a : Val) (R : List (String × Val)) (h : wfResults R = true) :
    ∃ o, findAnalyzerReportE a R = .ok o := by
  induction R with
  | nil => exact ⟨_, rfl⟩
  | cons p rest ih =>
    obtain ⟨k, stageData⟩ := p
    rw [wfResults, List.all_cons, Bool.and_eq_true] at h
    have h1 : wfStageEntry stageData = true := h.1
    have h2 : wfResults rest = true := h.2
    cases stageData with
    | dict d =>
      rw [findAnalyzerReportE]
      by_cases hmem : pyMemKey d "analyzer_reports" = true
      · rw [if_pos hmem]
        rw [wfStageEntry, if_pos hmem] at h1
        cases hv : lookupValD d "analyzer_reports" Val.null with
        | list xs =>
          simp only [hv] at h1
          dsimp only
          obtain ⟨o, ho⟩ := findInReports_ok a xs h1
          rw [ho, exceptBind_ok]
          cases o with
          | some r => exact ⟨_, rfl⟩
          | none => exact ih h2
        | null => simp [hv] at h1
        | bool b => simp [hv] at h1
        | int n => simp [hv] at h1
        | str s => simp [hv] at h1
        | dict dd => simp [hv] at h1
      · rw [if_neg hmem]
        exact ih h2
    | null => exact show ∃ o, findAnalyzerReportE a rest = .ok o from ih h2
    | bool b => exact show ∃ o, findAnalyzerReportE a rest = .ok o from ih h2
    | int n => exact show ∃ o, findAnalyzerReportE a rest = .ok o from ih h2
    | str s => exact show ∃ o, findAnalyzerReportE a rest = .ok o from ih h2
    | list l => exact show ∃ o, findAnalyzerReportE a rest = .ok o from ih h2

theorem evalWithRecoveryFuel_ok (fuel : Nat) (c R : List (String × Val))
    (vp : Bool × List String) (o : Option (List (String × Val)))
    (hNOT : pyEq (lookupValD c "type" .null) (.str "NOT") = false)
    (hval : validateConditionE c = .ok vp)
    (hfind : findAnalyzerReportE (lookupValD c "source_analyzer" .null) R = .ok o) :
    ∃ r, evalWithRecoveryFuel (fuel + 1) (.dict c) R = .ok r := by
  rw [evalWithRecoveryFuel]
  dsimp only
  rw [hval, exceptBind_ok]
  obtain ⟨isValid, verrs⟩ := vp
  dsimp only
  rw [hNOT]
  simp only [Bool.false_eq_true, if_false]
  rw [hfind, exceptBind_ok]
  cases o with
  | none => exact ⟨_, rfl⟩
  | some rep =>
    dsimp only
    cases hp : evaluatePrimary c rep with
    | ok b => exact ⟨_, rfl⟩
    | error e1 =>
      dsimp only
      cases hsch : evaluateWithSchemaFallback c rep with
      | ok b => exact ⟨_, rfl⟩
      | error e2 =>
        dsimp only
        obtain ⟨b, hb⟩ := evaluateGenericFallback_ok c rep
        rw [hb]
        exact ⟨_, rfl⟩

theorem evaluateConditionFuel_not_truthy (fuel : Nat) (cond : Val)
    (R : List (String × Val)) (h : pyTruthy cond = false) :
    evaluateConditionFuel (fuel + 1) cond R = .ok true := by
  cases cond <;> simp [evaluateConditionFuel, h]

theorem evaluateConditionFuel_ok : ∀ (fuel : Nat) (cond : Val) (R : List (String × Val)),
    valSize cond ≤ fuel → wfCond cond = true → wfResults R = true →
    ∃ b, evaluateConditionFuel fuel cond R = .ok b := by
  intro fuel
  induction fuel with
  | zero =>
    intro cond R hsz _ _
    have := valSize_pos cond
    omega
  | succ fuel ih =>
    intro cond R hsz hwf hR
    cases htr : pyTruthy cond with
    | false => exact ⟨true, evaluateConditionFuel_not_truthy fuel cond R htr⟩
    | true =>
      cases cond with
      | null => simp [pyTruthy] at htr
      | bool b => simp [wfCond, wfCondFuel, valSize] at hwf
      | int n => simp [wfCond, wfCondFuel, valSize] at hwf
      | str s => simp [wfCond, wfCondFuel, valSize] at hwf
      | list l => simp [wfCond, wfCondFuel, valSize] at hwf
      | dict c =>
        rw [evaluateConditionFuel]
        simp only [htr, Bool.not_true, Bool.false_eq_true, if_false]
        rw [wfCond, wfCondFuel] at hwf
        simp only [Bool.and_eq_true] at hwf
        have hsa : ∀ sa, lookupVal c "source_analyzer" = some sa → pyHashable sa = true := by
          intro sa hl
          have hA := hwf.1.1
          simp only [hl] at hA
          exact hA
        have hfp : ∀ v, lookupVal c "field_path" = some v → ∃ s, v = .str s := by
          intro v hl
          have hB := hwf.1.2
          simp only [hl] at hB
          cases v with
          | str s => exact ⟨s, rfl⟩
          | null => simp at hB
          | bool b => simp at hB
          | int n => simp at hB
          | list l => simp at hB
          | dict d => simp at hB
        by_cases hn : pyEq (lookupValD c "type" .null) (.str "NOT") = true
        · rw [if_pos hn]
          have hNOTv : lookupValD c "type" .null = .str "NOT" := (pyEq_str_iff _ _).mp hn
          have hlt : lookupVal c "type" = some (.str "NOT") := by
            cases hl : lookupVal c "type" with
            | none => rw [lookupValD, hl] at hNOTv; simp at hNOTv
            | some v => rw [lookupValD, hl, Option.getD_some] at hNOTv; rw [hNOTv]
          have hC := hwf.2
          rw [if_pos hlt] at hC
          cases hti : pyTruthy (lookupValD c "inner" .null) with
          | false =>
            simp only [Bool.false_eq_true, if_false]
            exact ⟨_, rfl⟩
          | true =>
            rw [if_pos rfl]
            rw [hti] at hC
            simp only [Bool.not_true, Bool.false_or] at hC
            cases hli : lookupVal c "inner" with
            | none => rw [lookupValD, hli] at hti; simp [pyTruthy] at hti
            | some w =>
              rw [lookupValD, hli, Option.getD_some] at hC hti ⊢
              cases w with
              | dict dw =>
                simp only at hC
                have hwi := lookupVal_valSize_lt c "inner" (.dict dw) hli
                simp only [valSize] at hwi
                simp only [valSize] at hsz
                have hwfi : wfCond (.dict dw) = true := by
                  rw [wfCond]
                  rw [wfCondFuel_fuel_eq (valSize (.dict dw) + 1) (valSize (.dict c))
                    (.dict dw) (by omega) (by simp only [valSize]; omega)]
                  exact hC
                obtain ⟨b, hb⟩ := ih (.dict dw) R (by simp only [valSize]; omega) hwfi hR
                rw [hb, exceptBind_ok]
                exact ⟨_, rfl⟩
              | null => simp at hC
              | bool b => simp at hC
              | int n => simp at hC
              | str s => simp at hC
              | list l => simp at hC
        · have hn2 : pyEq (lookupValD c "type" .null) (.str "NOT") = false := by
            cases hx : pyEq (lookupValD c "type" .null) (.str "NOT") with
            | false => rfl
            | true => exact absurd hx hn
          rw [hn2]
          simp only [Bool.false_eq_true, if_false]
          obtain ⟨p, hvp⟩ := validateConditionE_ok c hsa hfp
          obtain ⟨oo, hoo⟩ := findAnalyzerReportE_ok (lookupValD c "source_analyzer" .null) R hR
          obtain ⟨r, hr⟩ := evalWithRecoveryFuel_ok fuel c R p oo hn2 hvp hoo
          rw [hr, exceptBind_ok]
          exact ⟨_, rfl⟩

/-! ### Claim C5: the evaluator never raises -/

/-- C5 (counterexample): `_evaluate_condition` is not total.  For the legacy
`NOT` wrapper with a truthy non-dict `inner` (here the string `"x"`), the
recursive call reaches `condition.get` on a non-dict and raises
`AttributeError`, so evaluation does not return a boolean for every input. -/
theorem c5_counterexample :
    evaluateCondition (.dict [("type", .str "NOT"), ("inner", .str "x")]) [] =
      .error (.attributeError "object has no attribute get") := by
  decide

/-- C5 (amended): on well-formed inputs the evaluator is total, and the
recovery ladder is primary-first.  (1) If the condition value is a dict whose
`source_analyzer` is hashable, whose `field_path` (when present) is a string,
and whose legacy `NOT` nesting bottoms out in such dicts, and every
accumulated stage entry carries its `analyzer_reports` as a list of dicts,
then `_evaluate_condition` returns a boolean and never raises.  (2) When the
analyzer report is found and `_evaluate_primary` succeeds, recovery returns
exactly the primary answer with confidence 1, no errors, and
`evaluation_path = "primary"`. -/
theorem c5_amended :
    (∀ (cond : Val) (R : List (String × Val)), wfCond cond = true → wfResults R = true →
      ∃ b, evaluateCondition cond R = .ok b) ∧
    (∀ (c R : List (String × Val)) (vp : Bool × List String)
      (rep : List (String × Val)) (b : Bool),
      pyEq (lookupValD c "type" .null) (.str "NOT") = false →
      validateConditionE c = .ok vp →
      findAnalyzerReportE (lookupValD c "source_analyzer" .null) R = .ok (some rep) →
      evaluatePrimary c rep = .ok b →
      evalWithRecovery (.dict c) R = .ok ⟨b, 1, [], none, "primary"⟩) := by
  constructor
  · intro cond R hwf hR
    exact evaluateConditionFuel_ok (valSize cond + 1) cond R (by omega) hwf hR
  · intro c R vp rep b hNOT hval hfind hp
    rw [evalWithRecovery, evalWithRecoveryFuel]
    dsimp only
    rw [hval, exceptBind_ok]
    obtain ⟨isValid, verrs⟩ := vp
    dsimp only
    rw [hNOT]
    simp only [Bool.false_eq_true, if_false]
    rw [hfind, exceptBind_ok]
    dsimp only
    rw [hp]
    rfl

/-- C5 (witness): the amended theorem applied to a concrete well-formed
condition/result pair, and to a concrete primary success. -/
theorem c5_amended_witness :
    (∃ b, evaluateCondition
        (.dict [("type", .str "analyzer_failed"), ("source_analyzer", .str "X")]) [] = .ok b) ∧
    evalWithRecovery
        (.dict [("type", .str "verdict_malicious"), ("source_analyzer", .str "ClamAV")])
        [("stage_0", .dict [("analyzer_reports", .list [.dict [("name", .str "ClamAV"),
          ("report", .dict [("detections", .list [.str "Eicar"])]),
          ("status", .str "SUCCESS")]])])] =
      .ok ⟨true, 1, [], none, "primary"⟩ :=
  ⟨c5_amended.1 (.dict [("type", .str "analyzer_failed"), ("source_analyzer", .str "X")]) []
     (by decide) (by decide),
   c5_amended.2 [("type", .str "verdict_malicious"), ("source_analyzer", .str "ClamAV")]
     [("stage_0", .dict [("analyzer_reports", .list [.dict [("name", .str "ClamAV"),
       ("report", .dict [("detections", .list [.str "Eicar"])]),
       ("status", .str "SUCCESS")]])])]
     (true, [])
     [("name", .str "ClamAV"), ("report", .dict [("detections", .list [.str "Eicar"])]),
      ("status", .str "SUCCESS")]
     true (by decide) (by decide) (by decide) (by decide)⟩

/-! ### Claim C3: structural compile-time failures -/

/-- C3 (counterexample): two of the three claimed failure modes do not
raise.  A workflow whose only non-file node is a conditional has no
reachable analyzers, yet the conditional path compiles it to an `ok` plan
with an empty stage list; and a circular producer→consumer dependency
among stages is tolerated by the ordering pass (the cycle is only logged:
both stages come back, no exception). -/
theorem c3_counterexample :
    parseWorkflow
        [⟨"f", .file, [], none⟩,
         ⟨"c", .conditional, [], some ⟨"verdict_malicious", "ClamAV", none, none⟩⟩]
        [⟨"e1", "f", "c", none, none⟩] = .ok ⟨"f", [], true, []⟩
    ∧ orderStagesByDependencies
        [⟨1, [.str "A"], .str "B", .null, []⟩, ⟨2, [.str "B"], .str "A", .null, []⟩] =
      [⟨2, [.str "B"], .str "A", .null, []⟩, ⟨1, [.str "A"], .str "B", .null, []⟩] := by
  refine ⟨by decide, by decide⟩

/-- C3 (amended): the two structural checks the compiler does perform are
synchronous.  A workflow without a file node fails with
`Workflow must contain a file node`; a workflow without conditional nodes
whose DFS from the file node reaches no analyzer fails with
`No analyzers connected to file node` — both raised by `parse` itself,
before any stage is executed. -/
theorem c3_amended :
    (∀ (nodes : List WNode) (edges : List WEdge),
      nodes.find? (fun n => n.type = .file) = none →
      parseWorkflow nodes edges = .error (.valueError "Workflow must contain a file node")) ∧
    (∀ (nodes : List WNode) (edges : List WEdge) (fileNode : WNode),
      nodes.find? (fun n => n.type = .file) = some fileNode →
      (nodes.filter (fun n => n.type = .conditional)).isEmpty = true →
      getAllAnalyzersInWorkflow fileNode.id (mkNodeMap nodes) (mkEdgeMap edges)
        (parserDfsFuel nodes edges) = [] →
      parseWorkflow nodes edges = .error (.valueError "No analyzers connected to file node")) := by
  constructor
  · intro nodes edges h
    rw [parseWorkflow]
    dsimp only
    rw [h]
  · intro nodes edges fileNode hf hc ha
    rw [parseWorkflow]
    dsimp only
    rw [hf]
    dsimp only
    rw [hc, if_pos rfl, ha]
    rfl

/-- C3 (witness): the amended failure modes at concrete graphs — the empty
workflow, and a file node with no outgoing edges. -/
theorem c3_amended_witness :
    parseWorkflow [] [] = .error (.valueError "Workflow must contain a file node") ∧
    parseWorkflow [⟨"f", .file, [], none⟩] [] =
      .error (.valueError "No analyzers connected to file node") :=
  ⟨c3_amended.1 [] [] (by decide),
   c3_amended.2 [⟨"f", .file, [], none⟩] [] ⟨"f", .file, [], none⟩
     (by decide) (by decide) (by decide)⟩

/-! ### Claim C8: the diamond graph under Strategy B -/

/-- C8 (confirmed): for the diamond `File→A→{B,C}→SharedResult`, the DFS
fallback path-collection returns exactly the analyzer set `{A, B, C}` for
the shared result node — three elements, each of `A`, `B`, `C` a member —
for every one of the 120 orderings of the edge list, with no duplicate
names even though `A` lies on both root-to-leaf paths. -/
theorem c8_diamond_strategy_b :
    (permsOf
        [(⟨"file", "a", none⟩ : SimEdge), ⟨"a", "b", none⟩, ⟨"a", "c", none⟩,
         ⟨"b", "sr", none⟩, ⟨"c", "sr", none⟩]).all (fun es =>
      match findAnalyzersInTreePath
          (simNodeMap
            [⟨"file", "file", []⟩,
             ⟨"a", "analyzer", [("analyzer", .str "A")]⟩,
             ⟨"b", "analyzer", [("analyzer", .str "B")]⟩,
             ⟨"c", "analyzer", [("analyzer", .str "C")]⟩,
             ⟨"sr", "result", []⟩])
          es "file" "sr" with
      | .ok l => l.length = 3 && pyMemList (.str "A") l && pyMemList (.str "B") l
          && pyMemList (.str "C") l
      | .error _ => false) = true := by
  decide

/-! ### Claim C6: skipped stages -/

/-- C6 (confirmed): a stage with a dependency whose condition evaluates to
`false` is recorded in the skipped list and nothing else changes: no
submission is appended to the external-call log, no entry is added to the
results dict, and the job/executed lists are untouched; the loop then
continues with the remaining stages (the step returns `ok`, and running the
whole list from this stage equals running the rest from the
skipped-updated state). -/
theorem c6_skipped_stage (s : PStage) (σ : EngineState) (rest : List PStage)
    (hdep : isNullVal s.dependsOn = false)
    (hcond : evaluateCondition s.condition σ.results = .ok false) :
    engineStep s σ = .ok { σ with skipped := σ.skipped ++ [s.stageId] } ∧
    runStages (s :: rest) σ = runStages rest { σ with skipped := σ.skipped ++ [s.stageId] } := by
  have hstep : engineStep s σ = .ok { σ with skipped := σ.skipped ++ [s.stageId] } := by
    rw [engineStep]
    dsimp only
    rw [hdep]
    simp only [Bool.false_eq_true, if_false]
    rw [hcond, exceptBind_ok]
    simp only [Bool.false_eq_true, if_false]
    rfl
  refine ⟨hstep, ?_⟩
  rw [runStages, hstep, exceptBind_ok]

/-- C6 (witness): the skip law at a concrete stage whose condition is the
legacy `NOT` wrapper around an absent inner condition (which evaluates to
`false`), over an external service that would fail if it were called. -/
theorem c6_skipped_stage_witness :
    engineStep ⟨7, [.str "A"], .str "Dep", .dict [("type", .str "NOT"), ("inner", .null)], []⟩
        (initEngineState ⟨[], fun _ => .error "down", fun _ => .error "down"⟩) =
      .ok { initEngineState ⟨[], fun _ => .error "down", fun _ => .error "down"⟩ with
              skipped := [7] } ∧
    runStages [⟨7, [.str "A"], .str "Dep", .dict [("type", .str "NOT"), ("inner", .null)], []⟩]
        (initEngineState ⟨[], fun _ => .error "down", fun _ => .error "down"⟩) =
      runStages []
        { initEngineState ⟨[], fun _ => .error "down", fun _ => .error "down"⟩ with
            skipped := [7] } :=
  c6_skipped_stage
    ⟨7, [.str "A"], .str "Dep", .dict [("type", .str "NOT"), ("inner", .null)], []⟩
    (initEngineState ⟨[], fun _ => .error "down", fun _ => .error "down"⟩) []
    (by decide) (by decide)

/-! ### Claim C9: failed stages fall outside the executed/skipped partition -/

/-- C9 (confirmed): a stage whose submission — or whose wait — raises is
recorded only through an `error` entry under its `stage_<id>` key in the
results dict: the step returns `ok` with `executed` and `skipped` exactly
as before (the id lands in neither), and a wait failure additionally keeps
the collected job id.  Consequently, in the final output of a one-stage
plan whose submission fails, the stage id is in neither `executed_stages`
nor `skipped_stages` while its key carries the error entry, so the two
lists do not partition the plan. -/
theorem c9_failed_stage :
    (∀ (s : PStage) (σ : EngineState) (e : String),
      isNullVal s.dependsOn = true → s.analyzers.isEmpty = false →
      σ.world.submitRes σ.world.submitLog.length = .error e →
      engineStep s σ = .ok { σ with
        world := { σ.world with submitLog := σ.world.submitLog ++ [s.analyzers] },
        results := pySet σ.results (stageKey s) (.dict [("error", .str e)]) }) ∧
    (∀ (s : PStage) (σ : EngineState) (jobId : Int) (e : String),
      isNullVal s.dependsOn = true → s.analyzers.isEmpty = false →
      σ.world.submitRes σ.world.submitLog.length = .ok jobId →
      σ.world.waitRes jobId = .error e →
      engineStep s σ = .ok { σ with
        world := { σ.world with submitLog := σ.world.submitLog ++ [s.analyzers] },
        jobIds := σ.jobIds ++ [jobId],
        results := pySet σ.results (stageKey s) (.dict [("error", .str e)]) }) ∧
    (∀ (s : PStage) (w : World) (e : String),
      isNullVal s.dependsOn = true → s.analyzers.isEmpty = false →
      w.submitLog = [] → w.submitRes 0 = .error e →
      executeWorkflowWithConditionals [s] w = .ok
        ⟨[], [(stageKey s, .dict [("error", .str e)])], 0, [], [],
         { w with submitLog := [s.analyzers] }⟩) := by
  have hsub : ∀ (s : PStage) (σ : EngineState) (e : String),
      isNullVal s.dependsOn = true → s.analyzers.isEmpty = false →
      σ.world.submitRes σ.world.submitLog.length = .error e →
      engineStep s σ = .ok { σ with
        world := { σ.world with submitLog := σ.world.submitLog ++ [s.analyzers] },
        results := pySet σ.results (stageKey s) (.dict [("error", .str e)]) } := by
    intro s σ e hdep hne hs
    rw [engineStep]
    dsimp only
    rw [hdep, if_pos rfl, exceptPureBind, if_pos rfl, hne]
    simp only [Bool.false_eq_true, if_false]
    rw [hs]
    rfl
  refine ⟨hsub, ?_, ?_⟩
  · intro s σ jobId e hdep hne hs hw
    rw [engineStep]
    dsimp only
    rw [hdep, if_pos rfl, exceptPureBind, if_pos rfl, hne]
    simp only [Bool.false_eq_true, if_false]
    rw [hs]
    dsimp only
    rw [hw]
    rfl
  · intro s w e hdep hne hlog hs
    rw [executeWorkflowWithConditionals, runStages]
    have hs0 : (initEngineState w).world.submitRes (initEngineState w).world.submitLog.length =
        .error e := by
      show w.submitRes w.submitLog.length = .error e
      rw [hlog]
      exact hs
    rw [hsub s (initEngineState w) e hdep hne hs0, exceptBind_ok, runStages]
    dsimp only [Except.map, initEngineState]
    rw [hlog]
    rfl

/-- C9 (witness): the three failure shapes at a concrete one-analyzer
stage — submission failure, wait failure, and the full one-stage run whose
final output has the error entry but empty executed/skipped lists. -/
theorem c9_failed_stage_witness :
    (engineStep ⟨3, [.str "A"], .null, .null, []⟩
        (initEngineState ⟨[], fun _ => .error "submit down", fun _ => .error "wait down"⟩) =
      .ok ⟨[(stageKey ⟨3, [.str "A"], .null, .null, []⟩, .dict [("error", .str "submit down")])],
           [], [], [],
           ⟨[[.str "A"]], fun _ => .error "submit down", fun _ => .error "wait down"⟩⟩) ∧
    (engineStep ⟨3, [.str "A"], .null, .null, []⟩
        (initEngineState ⟨[], fun _ => .ok 42, fun _ => .error "wait down"⟩) =
      .ok ⟨[(stageKey ⟨3, [.str "A"], .null, .null, []⟩, .dict [("error", .str "wait down")])],
           [42], [], [],
           ⟨[[.str "A"]], fun _ => .ok 42, fun _ => .error "wait down"⟩⟩) ∧
    (executeWorkflowWithConditionals [⟨3, [.str "A"], .null, .null, []⟩]
        ⟨[], fun _ => .error "submit down", fun _ => .error "wait down"⟩ =
      .ok ⟨[], [(stageKey ⟨3, [.str "A"], .null, .null, []⟩, .dict [("error", .str "submit down")])],
           0, [], [],
           ⟨[[.str "A"]], fun _ => .error "submit down", fun _ => .error "wait down"⟩⟩) :=
  ⟨c9_failed_stage.1 ⟨3, [.str "A"], .null, .null, []⟩
     (initEngineState ⟨[], fun _ => .error "submit down", fun _ => .error "wait down"⟩)
     "submit down" (by decide) (by decide) rfl,
   c9_failed_stage.2.1 ⟨3, [.str "A"], .null, .null, []⟩
     (initEngineState ⟨[], fun _ => .ok 42, fun _ => .error "wait down"⟩)
     42 "wait down" (by decide) (by decide) rfl rfl,
   c9_failed_stage.2.2 ⟨3, [.str "A"], .null, .null, []⟩
     ⟨[], fun _ => .error "submit down", fun _ => .error "wait down"⟩
     "submit down" (by decide) (by decide) rfl rfl⟩


theorem pyEq_hashable_left (a b : Val) (h : pyEq a b = true) (hb : pyHashable b = true) :
    pyHashable a = true := by
  cases a <;> cases b <;> simp_all [pyEq, pyHashable]

theorem pyEq_hashable_right (a b : Val) (h : pyEq a b = true) (ha : pyHashable a = true) :
    pyHashable b = true := by
  cases a <;> cases b <;> simp_all [pyEq, pyHashable]

theorem pyEq_hashKey (a b : Val) (ha : pyHashable a = true) (hb : pyHashable b = true) :
    pyEq a b = true ↔ hashKey a = hashKey b := by
  cases a <;> cases b <;> simp_all [pyEq, pyHashable, hashKey]
  rename_i x y
  cases x <;> cases y <;> simp

theorem pyEq_symm_hash (a b : Val) (ha : pyHashable a = true) (hb : pyHashable b = true) :
    pyEq a b = pyEq b a := by
  cases a <;> cases b <;> simp_all [pyEq, pyHashable, eq_comm]

theorem pyEq_trans_hash (a b c : Val) (hb : pyHashable b = true)
    (h1 : pyEq a b = true) (h2 : pyEq b c = true) : pyEq a c = true := by
  have ha : pyHashable a = true := pyEq_hashable_left a b h1 hb
  have hc : pyHashable c = true := pyEq_hashable_right b c h2 hb
  rw [pyEq_hashKey a c ha hc]
  rw [pyEq_hashKey a b ha hb] at h1
  rw [pyEq_hashKey b c hb hc] at h2
  exact h1.trans h2

theorem pySetAddAll_mem : ∀ (xs acc out : List Val),
    acc.all pyHashable = true → pySetAddAll acc xs = .ok out →
    out.all pyHashable = true ∧
      ∀ a, pyMemList a out = (pyMemList a acc || pyMemList a xs) := by
  intro xs
  induction xs with
  | nil =>
    intro acc out hacc h
    rw [pySetAddAll] at h
    injection h with h
    subst h
    exact ⟨hacc, fun a => by simp [pyMemList]⟩
  | cons x rest ih =>
    intro acc out hacc h
    rw [pySetAddAll] at h
    by_cases hx : pyHashable x = true
    · rw [if_pos hx] at h
      by_cases hdup : acc.any (fun y => pyEq y x) = true
      · rw [if_pos hdup] at h
        obtain ⟨hh, hmem⟩ := ih acc out hacc h
        refine ⟨hh, fun a => ?_⟩
        rw [hmem a]
        simp only [pyMemList, List.any_cons]
        by_cases hax : pyEq a x = true
        · obtain ⟨y, hy, hyx⟩ := List.any_eq_true.mp hdup
          have hy_h : pyHashable y = true := pyEq_hashable_left y x hyx hx
          have hxy : pyEq x y = true := by
            rw [pyEq_symm_hash y x hy_h hx] at hyx
            exact hyx
          have hay : pyEq a y = true := pyEq_trans_hash a x y hx hax hxy
          have hin : acc.any (fun b => pyEq a b) = true := List.any_eq_true.mpr ⟨y, hy, hay⟩
          rw [hin, hax]
          simp
        · have hax2 : pyEq a x = false := by
            cases hq : pyEq a x
            · rfl
            · exact absurd hq hax
          rw [hax2]
          simp
      · rw [if_neg hdup] at h
        have hacc2 : (acc ++ [x]).all pyHashable = true := by
          rw [List.all_append]
          simp [hacc, hx]
        obtain ⟨hh, hmem⟩ := ih (acc ++ [x]) out hacc2 h
        refine ⟨hh, fun a => ?_⟩
        rw [hmem a]
        simp only [pyMemList, List.any_append, List.any_cons, List.any_nil]
        cases acc.any (fun b => pyEq a b) <;> cases pyEq a x <;> simp
    · rw [if_neg hx] at h
      exact Except.noConfusion h

theorem filterReportsGo_filter : ∀ (items : List Val) (names L : List Val),
    filterReportsGo items names = .ok L →
    L = items.filter (fun r => match r with
      | .dict d => pyMemList (lookupValD d "name" .null) names
      | _ => false) := by
  intro items
  induction items with
  | nil =>
    intro names L h
    rw [filterReportsGo] at h
    injection h with h
    subst h
    rfl
  | cons r rest ih =>
    intro names L h
    rw [filterReportsGo] at h
    cases r with
    | dict d =>
      rw [show pyValGetE (.dict d) "name" Val.null = .ok (lookupValD d "name" Val.null) from rfl,
        exceptBind_ok] at h
      cases hr : filterReportsGo rest names with
      | error e =>
        rw [hr, exceptBind_err] at h
        exact Except.noConfusion h
      | ok L2 =>
        rw [hr, exceptBind_ok] at h
        injection h with h
        subst h
        rw [List.filter_cons]
        dsimp only
        rw [ih names L2 hr]
    | null =>
      rw [show pyValGetE Val.null "name" Val.null =
        .error (.attributeError "object has no attribute get") from rfl, exceptBind_err] at h
      exact Except.noConfusion h
    | bool b =>
      rw [show pyValGetE (Val.bool b) "name" Val.null =
        .error (.attributeError "object has no attribute get") from rfl, exceptBind_err] at h
      exact Except.noConfusion h
    | int n =>
      rw [show pyValGetE (Val.int n) "name" Val.null =
        .error (.attributeError "object has no attribute get") from rfl, exceptBind_err] at h
      exact Except.noConfusion h
    | str s =>
      rw [show pyValGetE (Val.str s) "name" Val.null =
        .error (.attributeError "object has no attribute get") from rfl, exceptBind_err] at h
      exact Except.noConfusion h
    | list l =>
      rw [show pyValGetE (Val.list l) "name" Val.null =
        .error (.attributeError "object has no attribute get") from rfl, exceptBind_err] at h
      exact Except.noConfusion h

theorem lookupLeafInfo_set_self : ∀ (lm : List (String × LeafInfo)) (k : String) (v : LeafInfo),
    lookupLeafInfo lm k ≠ none →
    lookupLeafInfo (setLeafInfo lm k v) k = some v := by
  intro lm k v
  induction lm with
  | nil => intro h; simp [lookupLeafInfo, List.find?] at h
  | cons q rest ih =>
    obtain ⟨k2, v2⟩ := q
    intro h
    rw [setLeafInfo]
    by_cases hk : k2 = k
    · rw [if_pos hk]
      simp [lookupLeafInfo, List.find?, hk]
    · rw [if_neg hk]
      have h2 : lookupLeafInfo rest k ≠ none := by
        simpa [lookupLeafInfo, List.find?, hk] using h
      simpa [lookupLeafInfo, List.find?, hk] using ih h2

theorem lookupLeafInfo_set_ne : ∀ (lm : List (String × LeafInfo)) (k x : String) (v : LeafInfo),
    x ≠ k → lookupLeafInfo (setLeafInfo lm k v) x = lookupLeafInfo lm x := by
  intro lm k x v hx
  induction lm with
  | nil => rfl
  | cons q rest ih =>
    obtain ⟨k2, v2⟩ := q
    rw [setLeafInfo]
    by_cases hk : k2 = k
    · rw [if_pos hk]
      have hk2 : k2 ≠ x := by rw [hk]; exact fun he => hx he.symm
      simp [lookupLeafInfo, List.find?, hk2]
    · rw [if_neg hk]
      by_cases hkx : k2 = x
      · simp [lookupLeafInfo, List.find?, hkx]
      · simpa [lookupLeafInfo, List.find?, hkx] using ih

theorem updateLeafMap_str (lm : List (String × LeafInfo)) (analyzers : List Val)
    (executed : Bool) (s : String) (rest : List Val) :
    updateLeafMapForTargets lm analyzers executed (Val.str s :: rest) =
      (match lm.find? (fun p => p.1 = s) with
       | none => updateLeafMapForTargets lm analyzers executed rest
       | some p =>
         if executed then do
           let merged ← pySetAddAll [] (p.2.analyzers ++ analyzers)
           updateLeafMapForTargets (setLeafInfo lm s ⟨merged, true⟩) analyzers executed rest
         else updateLeafMapForTargets lm analyzers executed rest) := rfl

theorem updateLeafMap_null (lm : List (String × LeafInfo)) (analyzers : List Val)
    (executed : Bool) (rest : List Val) :
    updateLeafMapForTargets lm analyzers executed (Val.null :: rest) =
      updateLeafMapForTargets lm analyzers executed rest := rfl

theorem updateLeafMap_bool (lm : List (String × LeafInfo)) (analyzers : List Val)
    (executed : Bool) (b : Bool) (rest : List Val) :
    updateLeafMapForTargets lm analyzers executed (Val.bool b :: rest) =
      updateLeafMapForTargets lm analyzers executed rest := rfl

theorem updateLeafMap_int (lm : List (String × LeafInfo)) (analyzers : List Val)
    (executed : Bool) (n : Int) (rest : List Val) :
    updateLeafMapForTargets lm analyzers executed (Val.int n :: rest) =
      updateLeafMapForTargets lm analyzers executed rest := rfl

theorem updateLeafMap_list (lm : List (String × LeafInfo)) (analyzers : List Val)
    (executed : Bool) (l : List Val) (rest : List Val) :
    updateLeafMapForTargets lm analyzers executed (Val.list l :: rest) =
      .error (.typeError "unhashable type") := rfl

theorem updateLeafMap_dict (lm : List (String × LeafInfo)) (analyzers : List Val)
    (executed : Bool) (d : List (String × Val)) (rest : List Val) :
    updateLeafMapForTargets lm analyzers executed (Val.dict d :: rest) =
      .error (.typeError "unhashable type") := rfl

theorem updateLeafMap_inv : ∀ (targets : List Val) (lm : List (String × LeafInfo))
    (analyzers : List Val) (executed : Bool) (lm2 : List (String × LeafInfo)),
    updateLeafMapForTargets lm analyzers executed targets = .ok lm2 →
    ∀ leafId info, lookupLeafInfo lm leafId = some info →
    ∃ info2, lookupLeafInfo lm2 leafId = some info2 ∧
      info2.executed = (info.executed ||
        (executed && targets.any (fun t => t = .str leafId))) ∧
      ∀ a, pyMemList a info2.analyzers = (pyMemList a info.analyzers ||
        (executed && targets.any (fun t => t = .str leafId) && pyMemList a analyzers)) := by
  intro targets
  induction targets with
  | nil =>
    intro lm analyzers executed lm2 h leafId info hlook
    rw [updateLeafMapForTargets] at h
    injection h with h
    subst h
    exact ⟨info, hlook, by simp, fun a => by simp⟩
  | cons t rest ih =>
    intro lm analyzers executed lm2 h leafId info hlook
    cases t with
    | null =>
      rw [updateLeafMap_null] at h
      obtain ⟨info2, h1, h2, h3⟩ := ih lm analyzers executed lm2 h leafId info hlook
      exact ⟨info2, h1, by simpa using h2, fun a => by simpa using h3 a⟩
    | bool b =>
      rw [updateLeafMap_bool] at h
      obtain ⟨info2, h1, h2, h3⟩ := ih lm analyzers executed lm2 h leafId info hlook
      exact ⟨info2, h1, by simpa using h2, fun a => by simpa using h3 a⟩
    | int n =>
      rw [updateLeafMap_int] at h
      obtain ⟨info2, h1, h2, h3⟩ := ih lm analyzers executed lm2 h leafId info hlook
      exact ⟨info2, h1, by simpa using h2, fun a => by simpa using h3 a⟩
    | list l =>
      rw [updateLeafMap_list] at h
      exact Except.noConfusion h
    | dict d =>
      rw [updateLeafMap_dict] at h
      exact Except.noConfusion h
    | str s =>
      rw [updateLeafMap_str] at h
      cases hf : lm.find? (fun p => p.1 = s) with
      | none =>
        rw [hf] at h
        dsimp only at h
        have hneq : s ≠ leafId := by
          intro he
          subst he
          rw [lookupLeafInfo, hf] at hlook
          exact Option.noConfusion hlook
        obtain ⟨info2, h1, h2, h3⟩ := ih lm analyzers executed lm2 h leafId info hlook
        refine ⟨info2, h1, ?_, fun a => ?_⟩
        · simpa [hneq] using h2
        · simpa [hneq] using h3 a
      | some p =>
        rw [hf] at h
        dsimp only at h
        cases executed with
        | false =>
          simp only [Bool.false_eq_true, if_false] at h
          obtain ⟨info2, h1, h2, h3⟩ := ih lm analyzers false lm2 h leafId info hlook
          refine ⟨info2, h1, ?_, fun a => ?_⟩
          · simpa using h2
          · simpa using h3 a
        | true =>
          simp only [if_true] at h
          cases hm : pySetAddAll [] (p.2.analyzers ++ analyzers) with
          | error e =>
            rw [hm, exceptBind_err] at h
            exact Except.noConfusion h
          | ok merged =>
            rw [hm, exceptBind_ok] at h
            obtain ⟨hmh, hmem⟩ := pySetAddAll_mem (p.2.analyzers ++ analyzers) [] merged
              (by simp) hm
            by_cases hE : s = leafId
            · subst hE
              rw [lookupLeafInfo, hf] at hlook
              have hinfo : info = p.2 := by
                injection hlook with hlook
                exact hlook.symm
              have hlook2 : lookupLeafInfo (setLeafInfo lm s ⟨merged, true⟩) s =
                  some ⟨merged, true⟩ :=
                lookupLeafInfo_set_self lm s ⟨merged, true⟩
                  (by rw [lookupLeafInfo, hf]; exact fun hx => Option.noConfusion hx)
              obtain ⟨info2, h1, h2, h3⟩ :=
                ih (setLeafInfo lm s ⟨merged, true⟩) analyzers true lm2 h s ⟨merged, true⟩ hlook2
              refine ⟨info2, h1, ?_, fun a => ?_⟩
              · rw [h2]
                simp [List.any_cons]
              · rw [h3 a]
                have hma : pyMemList a merged =
                    (pyMemList a p.2.analyzers || pyMemList a analyzers) := by
                  rw [hmem a]
                  simp [pyMemList, List.any_append]
                rw [hma, hinfo]
                simp only [List.any_cons]
                have : (Val.str s = Val.str s) := rfl
                simp [List.any_cons]
                cases pyMemList a p.2.analyzers <;>
                  cases pyMemList a analyzers <;>
                  cases rest.any (fun t => t = Val.str s) <;> simp
            · have hlook2 : lookupLeafInfo (setLeafInfo lm s ⟨merged, true⟩) leafId =
                  some info := by
                rw [lookupLeafInfo_set_ne lm s leafId ⟨merged, true⟩ (fun he => hE he.symm)]
                exact hlook
              obtain ⟨info2, h1, h2, h3⟩ :=
                ih (setLeafInfo lm s ⟨merged, true⟩) analyzers true lm2 h leafId info hlook2
              refine ⟨info2, h1, ?_, fun a => ?_⟩
              · rw [h2]
                simp [List.any_cons, hE]
              · rw [h3 a]
                simp [List.any_cons, hE]

theorem processRouting_inv : ∀ (records : List RoutingRecord) (lm lm2 : List (String × LeafInfo)),
    processRoutingRecords lm records = .ok lm2 →
    ∀ leafId info, lookupLeafInfo lm leafId = some info →
    ∃ info2, lookupLeafInfo lm2 leafId = some info2 ∧
      info2.executed = (info.executed || routedExecuted records leafId) ∧
      ∀ a, pyMemList a info2.analyzers =
        (pyMemList a info.analyzers || routedAnalyzer records leafId a) := by
  intro records
  induction records with
  | nil =>
    intro lm lm2 h leafId info hlook
    rw [processRoutingRecords] at h
    injection h with h
    subst h
    exact ⟨info, hlook, by simp [routedExecuted], fun a => by simp [routedAnalyzer]⟩
  | cons r rest ih =>
    intro lm lm2 h leafId info hlook
    rw [processRoutingRecords] at h
    cases hu : updateLeafMapForTargets lm r.analyzers r.executed r.targetNodes with
    | error e =>
      rw [hu, exceptBind_err] at h
      exact Except.noConfusion h
    | ok lm1 =>
      rw [hu, exceptBind_ok] at h
      obtain ⟨info1, h1, h2, h3⟩ :=
        updateLeafMap_inv r.targetNodes lm r.analyzers r.executed lm1 hu leafId info hlook
      obtain ⟨info2, g1, g2, g3⟩ := ih lm1 lm2 h leafId info1 h1
      refine ⟨info2, g1, ?_, fun a => ?_⟩
      · rw [g2, h2]
        simp [routedExecuted, List.any_cons, Bool.or_assoc]
      · rw [g3 a, h3 a]
        simp [routedAnalyzer, List.any_cons, Bool.or_assoc]

theorem lookupLeafInfo_cons_ne (k : String) (inf : LeafInfo)
    (rest : List (String × LeafInfo)) (x : String) (h : k ≠ x) :
    lookupLeafInfo ((k, inf) :: rest) x = lookupLeafInfo rest x := by
  simp [lookupLeafInfo, List.find?, h]

theorem lookupLeafView_cons_ne (k : String) (v : LeafView)
    (rest : List (String × LeafView)) (x : String) (h : k ≠ x) :
    lookupLeafView ((k, v) :: rest) x = lookupLeafView rest x := by
  simp [lookupLeafView, List.find?, h]

theorem lookupLeafInfo_cons_self (k : String) (inf : LeafInfo)
    (rest : List (String × LeafInfo)) :
    lookupLeafInfo ((k, inf) :: rest) k = some inf := by
  simp [lookupLeafInfo, List.find?]

theorem lookupLeafView_cons_self (k : String) (v : LeafView)
    (rest : List (String × LeafView)) :
    lookupLeafView ((k, v) :: rest) k = some v := by
  simp [lookupLeafView, List.find?]

theorem buildLeafViews_lookup : ∀ (lm : List (String × LeafInfo))
    (allResults : List (String × Val)) (pool : Val) (out : List (String × LeafView)),
    buildLeafViews allResults pool lm = .ok out →
    ∀ leafId info, lookupLeafInfo lm leafId = some info →
    ∃ view, lookupLeafView out leafId = some view ∧
      (info.executed = true →
        ∃ filtered, filterReportsByNames pool info.analyzers = .ok filtered ∧
          view = ⟨lookupValD allResults "job_id" .null, lookupValD allResults "status" .null,
            filtered, none⟩) ∧
      (info.executed = false →
        view = ⟨.null, .str "idle", [],
          some "Path not executed (condition not met or branch not taken)"⟩) := by
  intro lm
  induction lm with
  | nil =>
    intro allResults pool out h leafId info hlook
    simp [lookupLeafInfo, List.find?] at hlook
  | cons q rest ih =>
    intro allResults pool out h leafId info hlook
    obtain ⟨k, inf⟩ := q
    rw [buildLeafViews] at h
    cases hinf : inf.executed with
    | true =>
      rw [hinf, if_pos rfl] at h
      cases hf : filterReportsByNames pool inf.analyzers with
      | error e =>
        rw [hf, exceptBind_err] at h
        exact Except.noConfusion h
      | ok filtered =>
        rw [hf, exceptBind_ok, exceptPureBind] at h
        dsimp only at h
        cases hrest : buildLeafViews allResults pool rest with
        | error e =>
          rw [hrest, exceptBind_err] at h
          exact Except.noConfusion h
        | ok outRest =>
          rw [hrest, exceptBind_ok] at h
          injection h with h
          subst h
          by_cases hk : k = leafId
          · subst hk
            rw [lookupLeafInfo_cons_self] at hlook
            injection hlook with hlook
            subst hlook
            refine ⟨_, lookupLeafView_cons_self _ _ _, fun _ => ⟨filtered, hf, rfl⟩,
              fun hfalse => ?_⟩
            rw [hinf] at hfalse
            exact Bool.noConfusion hfalse
          · rw [lookupLeafInfo_cons_ne k inf rest leafId hk] at hlook
            obtain ⟨view, v1, v2, v3⟩ := ih allResults pool outRest hrest leafId info hlook
            refine ⟨view, ?_, v2, v3⟩
            rw [lookupLeafView_cons_ne _ _ _ _ hk]
            exact v1
    | false =>
      rw [hinf] at h
      simp only [Bool.false_eq_true, if_false] at h
      rw [exceptPureBind] at h
      cases hrest : buildLeafViews allResults pool rest with
      | error e =>
        rw [hrest, exceptBind_err] at h
        exact Except.noConfusion h
      | ok outRest =>
        rw [hrest, exceptBind_ok] at h
        injection h with h
        subst h
        by_cases hk : k = leafId
        · subst hk
          rw [lookupLeafInfo_cons_self] at hlook
          injection hlook with hlook
          subst hlook
          refine ⟨_, lookupLeafView_cons_self _ _ _, fun htrue => ?_, fun _ => rfl⟩
          rw [hinf] at htrue
          exact Bool.noConfusion htrue
        · rw [lookupLeafInfo_cons_ne k inf rest leafId hk] at hlook
          obtain ⟨view, v1, v2, v3⟩ := ih allResults pool outRest hrest leafId info hlook
          refine ⟨view, ?_, v2, v3⟩
          rw [lookupLeafView_cons_ne _ _ _ _ hk]
          exact v1

theorem initLeafMap_lookup : ∀ (ls : List String) (leafId : String), leafId ∈ ls →
    lookupLeafInfo (ls.map (fun l => (l, (⟨[], false⟩ : LeafInfo)))) leafId =
      some ⟨[], false⟩ := by
  intro ls
  induction ls with
  | nil => intro leafId h; exact absurd h (List.not_mem_nil leafId)
  | cons l rest ih =>
    intro leafId h
    by_cases hl : l = leafId
    · simp [lookupLeafInfo, List.find?, hl]
    · have h2 : leafId ∈ rest := by
        cases List.mem_cons.mp h with
        | inl he => exact absurd he.symm hl
        | inr hm => exact hm
      simpa [lookupLeafInfo, List.find?, hl] using ih leafId h2

/-! ### Claim C7: Strategy A routing -/

/-- C7 (confirmed): under the authoritative backend-routing strategy, every
result sink of the workflow gets a view, and (a) when some executed routing
record targets the sink, the view is the global report pool filtered to
exactly those reports whose `name` belongs (by Python `==`) to the union of
the analyzer names of all executed records targeting the sink; (b) when no
executed record targets it, the view is the branch-not-executed marker
(`status="idle"`, empty reports, explanatory message) rather than an
error. -/
theorem c7_strategy_a (snodes : List (String × SimNode)) (allResults : List (String × Val))
    (stageRouting : List RoutingRecord) (out : List (String × LeafView))
    (h : distributeUsingBackendRouting snodes allResults stageRouting = .ok out)
    (leafId : String) (hleaf : leafId ∈ simFindLeafNodes snodes) :
    ∃ view, lookupLeafView out leafId = some view ∧
      (routedExecuted stageRouting leafId = true →
        ∃ pool items names,
          aggregateReports allResults = .ok pool ∧
          pyIterateE pool = .ok items ∧
          (∀ a, pyMemList a names = routedAnalyzer stageRouting leafId a) ∧
          view = ⟨lookupValD allResults "job_id" .null, lookupValD allResults "status" .null,
            items.filter (fun r => match r with
              | .dict d => pyMemList (lookupValD d "name" .null) names
              | _ => false), none⟩) ∧
      (routedExecuted stageRouting leafId = false →
        view = ⟨.null, .str "idle", [],
          some "Path not executed (condition not met or branch not taken)"⟩) := by
  rw [distributeUsingBackendRouting] at h
  cases hp : aggregateReports allResults with
  | error e =>
    rw [hp, exceptBind_err] at h
    exact Except.noConfusion h
  | ok pool =>
    rw [hp, exceptBind_ok] at h
    cases hpr : processRoutingRecords
        ((simFindLeafNodes snodes).map (fun l => (l, (⟨[], false⟩ : LeafInfo))))
        stageRouting with
    | error e =>
      rw [hpr, exceptBind_err] at h
      exact Except.noConfusion h
    | ok lm =>
      rw [hpr, exceptBind_ok] at h
      have hlook0 := initLeafMap_lookup (simFindLeafNodes snodes) leafId hleaf
      obtain ⟨info2, g1, g2, g3⟩ :=
        processRouting_inv stageRouting _ lm hpr leafId ⟨[], false⟩ hlook0
      obtain ⟨view, v1, v2, v3⟩ := buildLeafViews_lookup lm allResults pool out h leafId info2 g1
      refine ⟨view, v1, fun hex => ?_, fun hnex => ?_⟩
      · have hex2 : info2.executed = true := by
          rw [g2, hex]
          simp
        obtain ⟨filtered, hfilt, hview⟩ := v2 hex2
        rw [filterReportsByNames] at hfilt
        cases hit : pyIterateE pool with
        | error e =>
          rw [hit, exceptBind_err] at hfilt
          exact Except.noConfusion hfilt
        | ok items =>
          rw [hit, exceptBind_ok] at hfilt
          refine ⟨pool, items, info2.analyzers, rfl, hit, fun a => ?_, ?_⟩
          · rw [g3 a]
            simp [pyMemList]
          · rw [hview, filterReportsGo_filter items info2.analyzers filtered hfilt]
      · apply v3
        rw [g2, hnex]
        simp

/-- C7 (witness): the routing law at a concrete two-sink scenario — one
sink targeted by an executed record (its view filters the pool to `A`),
one targeted only by a non-executed record (idle view). -/
theorem c7_strategy_a_witness :
    (∃ view, lookupLeafView
        [("r1", (⟨.null, .null, [.dict [("name", .str "A"), ("report", .dict [])]], none⟩ :
            LeafView)),
         ("r2", ⟨.null, .str "idle", [],
            some "Path not executed (condition not met or branch not taken)"⟩)] "r1" =
          some view ∧
      (routedExecuted [⟨0, [.str "r1"], true, [.str "A"]⟩, ⟨1, [.str "r2"], false, [.str "B"]⟩]
          "r1" = true →
        ∃ pool items names,
          aggregateReports [("analyzer_reports",
            .list [.dict [("name", .str "A"), ("report", .dict [])],
                   .dict [("name", .str "B"), ("report", .dict [])]])] = .ok pool ∧
          pyIterateE pool = .ok items ∧
          (∀ a, pyMemList a names =
            routedAnalyzer [⟨0, [.str "r1"], true, [.str "A"]⟩,
              ⟨1, [.str "r2"], false, [.str "B"]⟩] "r1" a) ∧
          view = ⟨lookupValD [("analyzer_reports",
              .list [.dict [("name", .str "A"), ("report", .dict [])],
                     .dict [("name", .str "B"), ("report", .dict [])]])] "job_id" .null,
            lookupValD [("analyzer_reports",
              .list [.dict [("name", .str "A"), ("report", .dict [])],
                     .dict [("name", .str "B"), ("report", .dict [])]])] "status" .null,
            items.filter (fun r => match r with
              | .dict d => pyMemList (lookupValD d "name" .null) names
              | _ => false), none⟩) ∧
      (routedExecuted [⟨0, [.str "r1"], true, [.str "A"]⟩, ⟨1, [.str "r2"], false, [.str "B"]⟩]
          "r1" = false →
        view = ⟨.null, .str "idle", [],
          some "Path not executed (condition not met or branch not taken)"⟩)) ∧
    (∃ view, lookupLeafView
        [("r1", (⟨.null, .null, [.dict [("name", .str "A"), ("report", .dict [])]], none⟩ :
            LeafView)),
         ("r2", ⟨.null, .str "idle", [],
            some "Path not executed (condition not met or branch not taken)"⟩)] "r2" =
          some view ∧
      (routedExecuted [⟨0, [.str "r1"], true, [.str "A"]⟩, ⟨1, [.str "r2"], false, [.str "B"]⟩]
          "r2" = true →
        ∃ pool items names,
          aggregateReports [("analyzer_reports",
            .list [.dict [("name", .str "A"), ("report", .dict [])],
                   .dict [("name", .str "B"), ("report", .dict [])]])] = .ok pool ∧
          pyIterateE pool = .ok items ∧
          (∀ a, pyMemList a names =
            routedAnalyzer [⟨0, [.str "r1"], true, [.str "A"]⟩,
              ⟨1, [.str "r2"], false, [.str "B"]⟩] "r2" a) ∧
          view = ⟨lookupValD [("analyzer_reports",
              .list [.dict [("name", .str "A"), ("report", .dict [])],
                     .dict [("name", .str "B"), ("report", .dict [])]])] "job_id" .null,
            lookupValD [("analyzer_reports",
              .list [.dict [("name", .str "A"), ("report", .dict [])],
                     .dict [("name", .str "B"), ("report", .dict [])]])] "status" .null,
            items.filter (fun r => match r with
              | .dict d => pyMemList (lookupValD d "name" .null) names
              | _ => false), none⟩) ∧
      (routedExecuted [⟨0, [.str "r1"], true, [.str "A"]⟩, ⟨1, [.str "r2"], false, [.str "B"]⟩]
          "r2" = false →
        view = ⟨.null, .str "idle", [],
          some "Path not executed (condition not met or branch not taken)"⟩)) :=
  ⟨c7_strategy_a
     (simNodeMap [⟨"file", "file", []⟩, ⟨"a", "analyzer", [("analyzer", .str "A")]⟩,
       ⟨"r1", "result", []⟩, ⟨"r2", "result", []⟩])
     [("analyzer_reports", .list [.dict [("name", .str "A"), ("report", .dict [])],
       .dict [("name", .str "B"), ("report", .dict [])]])]
     [⟨0, [.str "r1"], true, [.str "A"]⟩, ⟨1, [.str "r2"], false, [.str "B"]⟩]
     [("r1", ⟨.null, .null, [.dict [("name", .str "A"), ("report", .dict [])]], none⟩),
      ("r2", ⟨.null, .str "idle", [],
        some "Path not executed (condition not met or branch not taken)"⟩)]
     (by decide) "r1" (by decide),
   c7_strategy_a
     (simNodeMap [⟨"file", "file", []⟩, ⟨"a", "analyzer", [("analyzer", .str "A")]⟩,
       ⟨"r1", "result", []⟩, ⟨"r2", "result", []⟩])
     [("analyzer_reports", .list [.dict [("name", .str "A"), ("report", .dict [])],
       .dict [("name", .str "B"), ("report", .dict [])]])]
     [⟨0, [.str "r1"], true, [.str "A"]⟩, ⟨1, [.str "r2"], false, [.str "B"]⟩]
     [("r1", ⟨.null, .null, [.dict [("name", .str "A"), ("report", .dict [])]], none⟩),
      ("r2", ⟨.null, .str "idle", [],
        some "Path not executed (condition not met or branch not taken)"⟩)]
     (by decide) "r2" (by decide)⟩

theorem osVisit_props : ∀ (fuel : Nat) (deps : List (Int × List Int))
    (smap : List (Int × PStage)),
    (∀ (sid : Int) (st : VisitSt),
      (osVisit deps smap fuel sid st).temp = st.temp ∧
      (∀ x, x ∈ st.visited → x ∈ (osVisit deps smap fuel sid st).visited) ∧
      (∀ y, y ∈ st.ordered → y ∈ (osVisit deps smap fuel sid st).ordered) ∧
      (osInv smap st → osInv smap (osVisit deps smap fuel sid st))) ∧
    (∀ (ds : List Int) (st : VisitSt),
      (osVisitList deps smap fuel ds st).temp = st.temp ∧
      (∀ x, x ∈ st.visited → x ∈ (osVisitList deps smap fuel ds st).visited) ∧
      (∀ y, y ∈ st.ordered → y ∈ (osVisitList deps smap fuel ds st).ordered) ∧
      (osInv smap st → osInv smap (osVisitList deps smap fuel ds st))) := by
  intro fuel
  induction fuel with
  | zero =>
    intro deps smap
    constructor
    · intro sid st
      exact ⟨rfl, fun x hx => hx, fun y hy => hy, fun h => h⟩
    · intro ds st
      exact ⟨rfl, fun x hx => hx, fun y hy => hy, fun h => h⟩
  | succ fuel ih =>
    intro deps smap
    constructor
    · intro sid st
      rw [osVisit]
      by_cases h1 : st.temp.contains sid = true
      · rw [if_pos h1]
        exact ⟨rfl, fun x hx => hx, fun y hy => hy, fun h => h⟩
      · rw [if_neg h1]
        by_cases h2 : st.visited.contains sid = true
        · rw [if_pos h2]
          exact ⟨rfl, fun x hx => hx, fun y hy => hy, fun h => h⟩
        · rw [if_neg h2]
          dsimp only
          obtain ⟨ht, hv, ho, hi⟩ := (ih deps smap).2 ((lookupIntKey deps sid).getD [])
            { st with temp := st.temp ++ [sid] }
          refine ⟨?_, ?_, ?_, ?_⟩
          · show ((osVisitList deps smap fuel _ _).temp).erase sid = st.temp
            rw [ht]
            show (st.temp ++ [sid]).erase sid = st.temp
            rw [List.erase_append_right _ (by
              intro hmem
              exact h1 (List.elem_eq_true_of_mem hmem))]
            simp
          · intro x hx
            show x ∈ (osVisitList deps smap fuel _ _).visited ++ [sid]
            exact List.mem_append_left _ (hv x hx)
          · intro y hy
            show y ∈ (osVisitList deps smap fuel _ _).ordered ++ _
            exact List.mem_append_left _ (ho y hy)
          · intro hInv
            have hInv2 : osInv smap (osVisitList deps smap fuel
                ((lookupIntKey deps sid).getD []) { st with temp := st.temp ++ [sid] }) :=
              hi (fun id hid s hs => hInv id hid s hs)
            intro id hid s hs
            show s ∈ (osVisitList deps smap fuel _ _).ordered ++ _
            rcases List.mem_append.mp hid with hid1 | hid2
            · exact List.mem_append_left _ (hInv2 id hid1 s hs)
            · have hideq : id = sid := by
                cases List.mem_singleton.mp hid2
                rfl
              subst hideq
              rw [hs]
              exact List.mem_append_right _ (List.mem_singleton.mpr rfl)
    · intro ds st
      cases ds with
      | nil =>
        rw [osVisitList]
        exact ⟨rfl, fun x hx => hx, fun y hy => hy, fun h => h⟩
      | cons d ds2 =>
        rw [osVisitList]
        obtain ⟨t1, v1, o1, i1⟩ := (ih deps smap).1 d st
        obtain ⟨t2, v2, o2, i2⟩ := (ih deps smap).2 ds2 (osVisit deps smap fuel d st)
        exact ⟨t2.trans t1, fun x hx => v2 x (v1 x hx), fun y hy => o2 y (o1 y hy),
          fun h => i2 (i1 h)⟩

theorem osVisit_self_visited (fuel : Nat) (deps : List (Int × List Int))
    (smap : List (Int × PStage)) (sid : Int) (st : VisitSt)
    (h1 : ¬st.temp.contains sid = true) (h2 : ¬st.visited.contains sid = true)
    (hf : 0 < fuel) : sid ∈ (osVisit deps smap fuel sid st).visited := by
  cases fuel with
  | zero => omega
  | succ fuel =>
    rw [osVisit, if_neg h1, if_neg h2]
    dsimp only
    exact List.mem_append_right _ (List.mem_singleton.mpr rfl)

theorem osTopLoop_props : ∀ (ks : List Int) (deps : List (Int × List Int))
    (smap : List (Int × PStage)) (fuel : Nat) (st : VisitSt),
    (osTopLoop deps smap fuel ks st).temp = st.temp ∧
    (∀ x, x ∈ st.visited → x ∈ (osTopLoop deps smap fuel ks st).visited) ∧
    (osInv smap st → osInv smap (osTopLoop deps smap fuel ks st)) := by
  intro ks
  induction ks with
  | nil =>
    intro deps smap fuel st
    exact ⟨rfl, fun x hx => hx, fun h => h⟩
  | cons k ks2 ih =>
    intro deps smap fuel st
    rw [osTopLoop]
    by_cases hk : st.visited.contains k = true
    · rw [if_pos hk]
      exact ih deps smap fuel st
    · rw [if_neg hk]
      obtain ⟨t1, v1, _, i1⟩ := (osVisit_props fuel deps smap).1 k st
      obtain ⟨t2, v2, i2⟩ := ih deps smap fuel (osVisit deps smap fuel k st)
      exact ⟨t2.trans t1, fun x hx => v2 x (v1 x hx), fun h => i2 (i1 h)⟩

theorem osTopLoop_covers : ∀ (ks : List Int) (deps : List (Int × List Int))
    (smap : List (Int × PStage)) (fuel : Nat) (st : VisitSt),
    st.temp = [] → 0 < fuel →
    ∀ k, k ∈ ks → k ∈ (osTopLoop deps smap fuel ks st).visited := by
  intro ks
  induction ks with
  | nil =>
    intro deps smap fuel st _ _ k hk
    exact absurd hk (List.not_mem_nil k)
  | cons k2 ks2 ih =>
    intro deps smap fuel st htemp hf k hk
    rw [osTopLoop]
    by_cases hv : st.visited.contains k2 = true
    · rw [if_pos hv]
      rcases List.mem_cons.mp hk with he | hm
      · subst he
        exact (osTopLoop_props ks2 deps smap fuel st).2.1 k
          (by
            have := hv
            exact List.mem_of_elem_eq_true this)
      · exact ih deps smap fuel st htemp hf k hm
    · rw [if_neg hv]
      have htemp2 : ¬st.temp.contains k2 = true := by
        rw [htemp]
        simp [List.contains]
      have hself := osVisit_self_visited fuel deps smap k2 st htemp2 hv hf
      have htempAfter : (osVisit deps smap fuel k2 st).temp = [] := by
        rw [((osVisit_props fuel deps smap).1 k2 st).1, htemp]
      rcases List.mem_cons.mp hk with he | hm
      · subst he
        exact (osTopLoop_props ks2 deps smap fuel _).2.1 k hself
      · exact ih deps smap fuel _ htempAfter hf k hm

theorem lookupIntKey_upsert_ne {α : Type} : ∀ (m : List (Int × α)) (k k2 : Int) (v : α),
    k ≠ k2 → lookupIntKey (upsertIntKey m k2 v) k = lookupIntKey m k := by
  intro m k k2 v hk
  induction m with
  | nil =>
    have hk2 : k2 ≠ k := Ne.symm hk
    simp [upsertIntKey, lookupIntKey, List.find?, hk2]
  | cons p rest ih =>
    obtain ⟨k3, v3⟩ := p
    rw [upsertIntKey]
    by_cases h3 : k3 = k2
    · rw [if_pos h3]
      subst h3
      have h3k : ¬k3 = k := fun he => hk (he.symm ▸ rfl)
      simp [lookupIntKey, List.find?, h3k]
    · rw [if_neg h3]
      by_cases h3k : k3 = k
      · simp [lookupIntKey, List.find?, h3k]
      · simpa [lookupIntKey, List.find?, h3k] using ih

theorem foldl_upsert_keeps_zero : ∀ (tail : List PStage) (m : List (Int × PStage)) (v : PStage),
    lookupIntKey m 0 = some v → (∀ st, st ∈ tail → st.stageId ≠ 0) →
    lookupIntKey (tail.foldl (fun m2 st => upsertIntKey m2 st.stageId st) m) 0 = some v := by
  intro tail
  induction tail with
  | nil => intro m v h _; exact h
  | cons st2 rest ih =>
    intro m v h hne
    rw [List.foldl_cons]
    refine ih (upsertIntKey m st2.stageId st2) v ?_ (fun st hst => hne st (List.mem_cons_of_mem _ hst))
    rw [lookupIntKey_upsert_ne m 0 st2.stageId st2
      (fun he => hne st2 (List.mem_cons_self _ _) he.symm)]
    exact h

theorem lookupIntKey_mem_keys {α : Type} (m : List (Int × α)) (k : Int) (v : α)
    (h : lookupIntKey m k = some v) : k ∈ m.map (fun p => p.1) := by
  rw [lookupIntKey] at h
  cases hf : m.find? (fun p => p.1 = k) with
  | none => rw [hf] at h; exact Option.noConfusion h
  | some p =>
    have hp := List.find?_some hf
    have hmem := List.mem_of_find?_eq_some hf
    have : p.1 = k := of_decide_eq_true hp
    rw [← this]
    exact List.mem_map_of_mem _ hmem

theorem orderStages_keeps_zero (stages : List PStage) (v : PStage)
    (hlk : lookupIntKey (mkStageMap stages) 0 = some v)
    (hne : stages.isEmpty = false) :
    v ∈ orderStagesByDependencies stages := by
  rw [orderStagesByDependencies, if_neg (by rw [hne]; exact Bool.noConfusion)]
  have hkey : (0 : Int) ∈ (mkStageMap stages).map (fun p => p.1) :=
    lookupIntKey_mem_keys _ 0 v hlk
  have hfuel : 0 < 2 * stages.length + 2 := by omega
  have hcov := osTopLoop_covers ((mkStageMap stages).map (fun p => p.1))
    (mkStageDeps stages) (mkStageMap stages) (2 * stages.length + 2) ⟨[], [], []⟩ rfl hfuel
    0 hkey
  have hinv0 : osInv (mkStageMap stages) (⟨[], [], []⟩ : VisitSt) := by
    intro id hid s hs
    exact absurd hid (List.not_mem_nil id)
  have hinv := (osTopLoop_props ((mkStageMap stages).map (fun p => p.1))
    (mkStageDeps stages) (mkStageMap stages) (2 * stages.length + 2) ⟨[], [], []⟩).2.2 hinv0
  exact hinv 0 hcov v hlk

theorem enumFrom_mem_bound {α : Type} : ∀ (l : List α) (n : Nat) (p : Nat × α),
    p ∈ List.enumFrom n l → n ≤ p.1 ∧ p.2 ∈ l := by
  intro l
  induction l with
  | nil =>
    intro n p hp
    exact absurd hp (List.not_mem_nil p)
  | cons a rest ih =>
    intro n p hp
    rw [show List.enumFrom n (a :: rest) = (n, a) :: List.enumFrom (n + 1) rest from rfl] at hp
    rcases List.mem_cons.mp hp with he | hm
    · subst he
      exact ⟨Nat.le_refl n, List.mem_cons_self a rest⟩
    · obtain ⟨h1, h2⟩ := ih (n + 1) p hm
      exact ⟨by omega, List.mem_cons_of_mem a h2⟩

theorem assignTempIds_cons (s0 : PStage) (rest : List PStage) (h : ¬s0.stageId = -1) :
    assignTempIds (s0 :: rest) =
      s0 :: (List.enumFrom 1 rest).map (fun p =>
        if p.2.stageId = -1 then { p.2 with stageId := 1000 + (p.1 : Int) } else p.2) := by
  rw [assignTempIds]
  rw [show (s0 :: rest).enum = (0, s0) :: List.enumFrom 1 rest from rfl]
  rw [List.map_cons]
  dsimp only
  rw [if_neg h]

theorem assignTempIds_tail_ids (rest : List PStage)
    (hall : ∀ st, st ∈ rest → st.stageId = -1) :
    ∀ x, x ∈ (List.enumFrom 1 rest).map (fun p =>
        if p.2.stageId = -1 then { p.2 with stageId := 1000 + (p.1 : Int) } else p.2) →
      x.stageId ≠ 0 := by
  intro x hx
  obtain ⟨p, hp, hfx⟩ := List.mem_map.mp hx
  obtain ⟨h1, h2⟩ := enumFrom_mem_bound rest 1 p hp
  rw [hall p.2 h2] at hfx
  rw [if_pos rfl] at hfx
  rw [← hfx]
  show (1000 + (p.1 : Int)) ≠ 0
  omega

theorem renumber_mem_dependsOn_aux : ∀ (l : List PStage) (n : Nat) (x : PStage), x ∈ l →
    ∃ y, y ∈ (List.enumFrom n l).map (fun p => { p.2 with stageId := (p.1 : Int) }) ∧
      y.dependsOn = x.dependsOn := by
  intro l
  induction l with
  | nil =>
    intro n x hx
    exact absurd hx (List.not_mem_nil x)
  | cons a rest ih =>
    intro n x hx
    rw [show List.enumFrom n (a :: rest) = (n, a) :: List.enumFrom (n + 1) rest from rfl,
      List.map_cons]
    rcases List.mem_cons.mp hx with he | hm
    · subst he
      exact ⟨_, List.mem_cons_self _ _, rfl⟩
    · obtain ⟨y, hy, hyd⟩ := ih (n + 1) x hm
      exact ⟨y, List.mem_cons_of_mem _ hy, hyd⟩

theorem renumber_mem_dependsOn (l : List PStage) (x : PStage) (hx : x ∈ l) :
    ∃ y, y ∈ renumberStages l ∧ y.dependsOn = x.dependsOn := by
  rw [renumberStages]
  exact renumber_mem_dependsOn_aux l 0 x hx

theorem exceptPure_eq {ε α : Type} (a : α) : (pure a : Except ε α) = Except.ok a := rfl

theorem mkBranchStage_id (nm : List (String × WNode)) (edges : List WEdge) (cn : WNode)
    (sa cfg : Val) (br : Bool) (stOpt : Option PStage) (as2 : List Val)
    (h : mkBranchStage nm edges cn sa cfg br = .ok (stOpt, as2)) :
    ∀ s, stOpt = some s → s.stageId = -1 := by
  rw [mkBranchStage] at h
  cases hd : pyDictE cfg with
  | error e =>
    rw [hd, exceptBind_err] at h
    exact Except.noConfusion h
  | ok cfgDict =>
    rw [hd, exceptBind_ok] at h
    dsimp only at h
    rcases hcb : collectBranch nm (edges.filter (fun e => e.source = cn.id)) br with ⟨ba, dr⟩
    rw [hcb] at h
    try dsimp only at h
    cases hf : findResultNodesForAnalyzersE ba nm edges with
    | error e =>
      rw [hf, exceptBind_err] at h
      exact Except.noConfusion h
    | ok ar =>
      rw [hf, exceptBind_ok] at h
      try dsimp only at h
      split at h <;> split at h <;>
        (try rw [exceptPure_eq] at h) <;>
        (injection h with h
         injection h with h1 h2
         intro s hs
         rw [← h1] at hs
         first
           | (injection hs with hs
              rw [← hs])
           | exact Option.noConfusion hs)

theorem processDownstreamConditional_ids (nm : List (String × WNode)) (edges : List WEdge)
    (cn : WNode) (sa : Val) (path : List String) (l : List PStage)
    (h : processDownstreamConditional nm edges cn sa path = .ok l) :
    ∀ s, s ∈ l → s.stageId = -1 := by
  rw [processDownstreamConditional] at h
  by_cases hp : path.contains cn.id = true
  · rw [if_pos hp, exceptPure_eq] at h
    injection h with h
    subst h
    intro s hs
    exact absurd hs (List.not_mem_nil s)
  · rw [if_neg hp] at h
    dsimp only at h
    cases hT : mkBranchStage nm edges cn sa (extractConditionConfig cn sa) true with
    | error e =>
      rw [hT, exceptBind_err] at h
      exact Except.noConfusion h
    | ok rT =>
      obtain ⟨st, aT⟩ := rT
      rw [hT, exceptBind_ok] at h
      try dsimp only at h
      cases hF : mkBranchStage nm edges cn sa (extractConditionConfig cn sa) false with
      | error e =>
        rw [hF, exceptBind_err] at h
        exact Except.noConfusion h
      | ok rF =>
        obtain ⟨sf, aF⟩ := rF
        rw [hF, exceptBind_ok] at h
        try dsimp only at h
        rw [exceptPure_eq] at h
        injection h with h
        subst h
        intro s hs
        rcases List.mem_append.mp hs with h1 | h2
        · cases st with
          | none => exact absurd h1 (List.not_mem_nil s)
          | some s0 =>
            have he : s = s0 := List.mem_singleton.mp h1
            subst he
            exact mkBranchStage_id nm edges cn sa (extractConditionConfig cn sa) true
              (some s) aT hT s rfl
        · cases sf with
          | none => exact absurd h2 (List.not_mem_nil s)
          | some s0 =>
            have he : s = s0 := List.mem_singleton.mp h2
            subst he
            exact mkBranchStage_id nm edges cn sa (extractConditionConfig cn sa) false
              (some s) aF hF s rfl

theorem processDownstreamList_ids : ∀ (dcs : List WNode) (nm : List (String × WNode))
    (edges : List WEdge) (analyzer : Val) (path : List String) (l : List PStage),
    processDownstreamList nm edges analyzer path dcs = .ok l →
    ∀ s, s ∈ l → s.stageId = -1 := by
  intro dcs
  induction dcs with
  | nil =>
    intro nm edges analyzer path l h s hs
    rw [processDownstreamList] at h
    injection h with h
    subst h
    exact absurd hs (List.not_mem_nil s)
  | cons dc rest ih =>
    intro nm edges analyzer path l h s hs
    rw [processDownstreamList] at h
    cases h1 : processDownstreamConditional nm edges dc analyzer path with
    | error e =>
      rw [h1, exceptBind_err] at h
      exact Except.noConfusion h
    | ok here =>
      rw [h1, exceptBind_ok] at h
      cases h2 : processDownstreamList nm edges analyzer path rest with
      | error e =>
        rw [h2, exceptBind_err] at h
        exact Except.noConfusion h
      | ok restS =>
        rw [h2, exceptBind_ok, exceptPure_eq] at h
        injection h with h
        subst h
        rcases List.mem_append.mp hs with hm | hm
        · exact processDownstreamConditional_ids nm edges dc analyzer path here h1 s hm
        · exact ih nm edges analyzer path restS h2 s hm

theorem processBranchDownstream_ids : ∀ (analyzers : List Val) (nm : List (String × WNode))
    (edges : List WEdge) (cnId : String) (l : List PStage),
    processBranchDownstream nm edges cnId analyzers = .ok l →
    ∀ s, s ∈ l → s.stageId = -1 := by
  intro analyzers
  induction analyzers with
  | nil =>
    intro nm edges cnId l h s hs
    rw [processBranchDownstream] at h
    injection h with h
    subst h
    exact absurd hs (List.not_mem_nil s)
  | cons analyzer rest ih =>
    intro nm edges cnId l h s hs
    rw [processBranchDownstream] at h
    cases hfa : findAnalyzerNodeByName nm analyzer with
    | none =>
      rw [hfa] at h
      try dsimp only at h
      rw [exceptPureBind] at h
      cases h2 : processBranchDownstream nm edges cnId rest with
      | error e =>
        rw [h2, exceptBind_err] at h
        exact Except.noConfusion h
      | ok restS =>
        rw [h2, exceptBind_ok, exceptPure_eq] at h
        injection h with h
        subst h
        rcases List.mem_append.mp hs with hm | hm
        · exact absurd hm (List.not_mem_nil s)
        · exact ih nm edges cnId restS h2 s hm
    | some anode =>
      rw [hfa] at h
      try dsimp only at h
      cases h1 : processDownstreamList nm edges analyzer [cnId]
          (downstreamConditionalsOf nm edges anode) with
      | error e =>
        rw [h1, exceptBind_err] at h
        exact Except.noConfusion h
      | ok here =>
        rw [h1, exceptBind_ok] at h
        cases h2 : processBranchDownstream nm edges cnId rest with
        | error e =>
          rw [h2, exceptBind_err] at h
          exact Except.noConfusion h
        | ok restS =>
          rw [h2, exceptBind_ok, exceptPure_eq] at h
          injection h with h
          subst h
          rcases List.mem_append.mp hs with hm | hm
          · exact processDownstreamList_ids (downstreamConditionalsOf nm edges anode)
              nm edges analyzer [cnId] here h1 s hm
          · exact ih nm edges cnId restS h2 s hm

theorem processConditionalNode_ids (nm : List (String × WNode)) (edges : List WEdge)
    (cn : WNode) (l : List PStage)
    (h : processConditionalNode nm edges cn = .ok l) :
    ∀ s, s ∈ l → s.stageId = -1 := by
  rw [processConditionalNode] at h
  cases hie : edges.filter (fun e => e.target = cn.id) with
  | nil =>
    rw [hie] at h
    dsimp only at h
    injection h with h
    subst h
    intro s hs
    exact absurd hs (List.not_mem_nil s)
  | cons ie restE =>
    rw [hie] at h
    dsimp only at h
    cases hsn : lookupNode nm ie.source with
    | none =>
      rw [hsn] at h
      dsimp only at h
      injection h with h
      subst h
      intro s hs
      exact absurd hs (List.not_mem_nil s)
    | some sourceNode =>
      rw [hsn] at h
      dsimp only at h
      by_cases hty : sourceNode.type ≠ .analyzer
      · rw [if_pos hty] at h
        injection h with h
        subst h
        intro s hs
        exact absurd hs (List.not_mem_nil s)
      · rw [if_neg hty] at h
        by_cases htr : pyTruthy (lookupValD sourceNode.data "analyzer" .null) = true
        · rw [htr] at h
          simp only [Bool.not_true, Bool.false_eq_true, if_false] at h
          cases hT : mkBranchStage nm edges cn (lookupValD sourceNode.data "analyzer" .null)
              (extractConditionConfig cn (lookupValD sourceNode.data "analyzer" .null)) true with
          | error e =>
            rw [hT, exceptBind_err] at h
            exact Except.noConfusion h
          | ok rT =>
            obtain ⟨st, aT⟩ := rT
            rw [hT, exceptBind_ok] at h
            try dsimp only at h
            have hdT : ∀ dT, (match st with
                | some _ => processBranchDownstream nm edges cn.id aT
                | none => pure []) = .ok dT → ∀ s, s ∈ dT → s.stageId = -1 := by
              intro dT hdt s hs
              cases st with
              | none =>
                rw [exceptPure_eq] at hdt
                injection hdt with hdt
                subst hdt
                exact absurd hs (List.not_mem_nil s)
              | some s0 =>
                exact processBranchDownstream_ids aT nm edges cn.id dT hdt s hs
            cases hD : (match st with
                | some _ => processBranchDownstream nm edges cn.id aT
                | none => (pure [] : Except PyErr (List PStage))) with
            | error e =>
              rw [hD, exceptBind_err] at h
              exact Except.noConfusion h
            | ok dT =>
              rw [hD, exceptBind_ok] at h
              cases hF : mkBranchStage nm edges cn (lookupValD sourceNode.data "analyzer" .null)
                  (extractConditionConfig cn (lookupValD sourceNode.data "analyzer" .null))
                  false with
              | error e =>
                rw [hF, exceptBind_err] at h
                exact Except.noConfusion h
              | ok rF =>
                obtain ⟨sf, aF⟩ := rF
                rw [hF, exceptBind_ok] at h
                try dsimp only at h
                have hdF : ∀ dF, (match sf with
                    | some _ => processBranchDownstream nm edges cn.id aF
                    | none => pure []) = .ok dF → ∀ s, s ∈ dF → s.stageId = -1 := by
                  intro dF hdf s hs
                  cases sf with
                  | none =>
                    rw [exceptPure_eq] at hdf
                    injection hdf with hdf
                    subst hdf
                    exact absurd hs (List.not_mem_nil s)
                  | some s0 =>
                    exact processBranchDownstream_ids aF nm edges cn.id dF hdf s hs
                cases hD2 : (match sf with
                    | some _ => processBranchDownstream nm edges cn.id aF
                    | none => (pure [] : Except PyErr (List PStage))) with
                | error e =>
                  rw [hD2, exceptBind_err] at h
                  exact Except.noConfusion h
                | ok dF =>
                  rw [hD2, exceptBind_ok, exceptPure_eq] at h
                  injection h with h
                  subst h
                  intro s hs
                  rcases List.mem_append.mp hs with hm | hm
                  · rcases List.mem_append.mp hm with hm2 | hm2
                    · rcases List.mem_append.mp hm2 with hm3 | hm3
                      · cases st with
                        | none => exact absurd hm3 (List.not_mem_nil s)
                        | some s0 =>
                          have he : s = s0 := List.mem_singleton.mp hm3
                          subst he
                          exact mkBranchStage_id nm edges cn _ _ true (some s) aT hT s rfl
                      · exact hdT dT hD s hm3
                    · cases sf with
                      | none => exact absurd hm2 (List.not_mem_nil s)
                      | some s0 =>
                        have he : s = s0 := List.mem_singleton.mp hm2
                        subst he
                        exact mkBranchStage_id nm edges cn _ _ false (some s) aF hF s rfl
                  · exact hdF dF hD2 s hm
        · have htr2 : pyTruthy (lookupValD sourceNode.data "analyzer" .null) = false := by
            cases hq : pyTruthy (lookupValD sourceNode.data "analyzer" .null)
            · rfl
            · exact absurd hq htr
          rw [htr2] at h
          simp only [Bool.not_false, if_true] at h
          injection h with h
          subst h
          intro s hs
          exact absurd hs (List.not_mem_nil s)

theorem buildConditionalStages_ids : ∀ (cns : List WNode) (nm : List (String × WNode))
    (edges : List WEdge) (l : List PStage),
    buildConditionalStages nm edges cns = .ok l →
    ∀ s, s ∈ l → s.stageId = -1 := by
  intro cns
  induction cns with
  | nil =>
    intro nm edges l h s hs
    rw [buildConditionalStages] at h
    injection h with h
    subst h
    exact absurd hs (List.not_mem_nil s)
  | cons cn rest ih =>
    intro nm edges l h s hs
    rw [buildConditionalStages] at h
    cases h1 : processConditionalNode nm edges cn with
    | error e =>
      rw [h1, exceptBind_err] at h
      exact Except.noConfusion h
    | ok here =>
      rw [h1, exceptBind_ok] at h
      cases h2 : buildConditionalStages nm edges rest with
      | error e =>
        rw [h2, exceptBind_err] at h
        exact Except.noConfusion h
      | ok restS =>
        rw [h2, exceptBind_ok, exceptPure_eq] at h
        injection h with h
        subst h
        rcases List.mem_append.mp hs with hm | hm
        · exact processConditionalNode_ids nm edges cn here h1 s hm
        · exact ih nm edges restS h2 s hm

/-! ### Claim C1: compilation of well-formed graphs -/

/-- C1 (counterexample): an acyclic graph with exactly one file node and
one analyzer node — but no edge connecting them — makes `parse` raise
`No analyzers connected to file node`, so the claim as stated (success for
every such graph) is false: reachability of the analyzers from the file
node is also required. -/
theorem c1_counterexample :
    isAcyclicGraph [] = true
    ∧ (([⟨"f", .file, [], none⟩, ⟨"a", .analyzer, [("analyzer", .str "A")], none⟩] :
        List WNode).filter (fun n => n.type = .file)).length = 1
    ∧ 1 ≤ (([⟨"f", .file, [], none⟩, ⟨"a", .analyzer, [("analyzer", .str "A")], none⟩] :
        List WNode).filter (fun n => n.type = .analyzer)).length
    ∧ parseWorkflow [⟨"f", .file, [], none⟩, ⟨"a", .analyzer, [("analyzer", .str "A")], none⟩]
        [] = .error (.valueError "No analyzers connected to file node") := by
  refine ⟨by decide, by decide, by decide, by decide⟩

/-- C1 (amended): `parse` succeeds and yields a stage with `depends_on =
null` under the conditions the code actually requires.  (1) Linear
workflows: a file node is found and the DFS from it reaches at least one
analyzer — the plan is the single stage `0` with null `depends_on`.
(2) Conditional workflows: a file node is found, the pre-conditional DFS
finds at least one analyzer, and the conditional-stage builder completes —
stage `0` (null `depends_on`, placeholder-free id) survives the
dependency ordering and renumbering, so the returned plan contains a stage
with null `depends_on`.  Acyclicity is not needed: the ordering pass
tolerates cycles. -/
theorem c1_amended :
    (∀ (nodes : List WNode) (edges : List WEdge) (fileNode : WNode),
      nodes.find? (fun n => n.type = .file) = some fileNode →
      (nodes.filter (fun n => n.type = .conditional)).isEmpty = true →
      getAllAnalyzersInWorkflow fileNode.id (mkNodeMap nodes) (mkEdgeMap edges)
        (parserDfsFuel nodes edges) ≠ [] →
      ∃ plan, parseWorkflow nodes edges = .ok plan ∧
        ∃ st, st ∈ plan.stages ∧ st.dependsOn = .null) ∧
    (∀ (nodes : List WNode) (edges : List WEdge) (fileNode : WNode)
      (condStages : List PStage),
      nodes.find? (fun n => n.type = .file) = some fileNode →
      (nodes.filter (fun n => n.type = .conditional)).isEmpty = false →
      getPreconditionalAnalyzers fileNode.id
        ((nodes.filter (fun n => n.type = .conditional)).map (fun n => n.id))
        (mkNodeMap nodes) (mkEdgeMap edges) (parserDfsFuel nodes edges) ≠ [] →
      buildConditionalStages (mkNodeMap nodes) edges
        (nodes.filter (fun n => n.type = .conditional)) = .ok condStages →
      ∃ plan, parseWorkflow nodes edges = .ok plan ∧
        ∃ st, st ∈ plan.stages ∧ st.dependsOn = .null) := by
  constructor
  · intro nodes edges fileNode hf hc ha
    rw [parseWorkflow]
    dsimp only
    rw [hf]
    dsimp only
    rw [hc, if_pos rfl]
    by_cases he : (getAllAnalyzersInWorkflow fileNode.id (mkNodeMap nodes) (mkEdgeMap edges)
        (parserDfsFuel nodes edges)).isEmpty = true
    · exact absurd (List.isEmpty_iff.mp he) ha
    · rw [if_neg he]
      exact ⟨_, rfl, _, List.mem_singleton.mpr rfl, rfl⟩
  · intro nodes edges fileNode condStages hf hc hpre hbuild
    rw [parseWorkflow]
    dsimp only
    rw [hf]
    dsimp only
    rw [hc]
    simp only [Bool.false_eq_true, if_false]
    have hpre2 : (getPreconditionalAnalyzers fileNode.id
        ((nodes.filter (fun n => n.type = .conditional)).map (fun n => n.id))
        (mkNodeMap nodes) (mkEdgeMap edges) (parserDfsFuel nodes edges)).isEmpty = false := by
      cases hq : (getPreconditionalAnalyzers fileNode.id
          ((nodes.filter (fun n => n.type = .conditional)).map (fun n => n.id))
          (mkNodeMap nodes) (mkEdgeMap edges) (parserDfsFuel nodes edges)).isEmpty
      · rfl
      · exact absurd (List.isEmpty_iff.mp hq) hpre
    rw [hpre2]
    simp only [Bool.not_false, if_true]
    rw [hbuild, exceptBind_ok]
    refine ⟨_, rfl, ?_⟩
    have hids : ∀ st, st ∈ condStages → st.stageId = -1 :=
      buildConditionalStages_ids (nodes.filter (fun n => n.type = .conditional))
        (mkNodeMap nodes) edges condStages hbuild
    rw [List.singleton_append]
    rw [assignTempIds_cons
      ⟨0, getPreconditionalAnalyzers fileNode.id
        ((nodes.filter (fun n => n.type = .conditional)).map (fun n => n.id))
        (mkNodeMap nodes) (mkEdgeMap edges) (parserDfsFuel nodes edges),
        .null, .null, allResultNodeIds (mkNodeMap nodes)⟩
      condStages (by show ¬(0 : Int) = -1; decide)]
    have htail := assignTempIds_tail_ids condStages hids
    have hmk : lookupIntKey (mkStageMap
        ((⟨0, getPreconditionalAnalyzers fileNode.id
          ((nodes.filter (fun n => n.type = .conditional)).map (fun n => n.id))
          (mkNodeMap nodes) (mkEdgeMap edges) (parserDfsFuel nodes edges),
          .null, .null, allResultNodeIds (mkNodeMap nodes)⟩ : PStage) ::
         (List.enumFrom 1 condStages).map (fun p =>
           if p.2.stageId = -1 then { p.2 with stageId := 1000 + (p.1 : Int) } else p.2))) 0 =
        some ⟨0, getPreconditionalAnalyzers fileNode.id
          ((nodes.filter (fun n => n.type = .conditional)).map (fun n => n.id))
          (mkNodeMap nodes) (mkEdgeMap edges) (parserDfsFuel nodes edges),
          .null, .null, allResultNodeIds (mkNodeMap nodes)⟩ := by
      rw [mkStageMap, List.foldl_cons]
      exact foldl_upsert_keeps_zero _ _ _ rfl htail
    have hord := orderStages_keeps_zero _ _ hmk rfl
    obtain ⟨y, hy, hyd⟩ := renumber_mem_dependsOn _ _ hord
    exact ⟨y, hy, by rw [hyd]⟩

/-- C1 (witness): the amended compilation guarantees at two concrete
graphs — a linear `file → analyzer` workflow, and a conditional workflow
`file → A → conditional → (true) B → result`. -/
theorem c1_amended_witness :
    (∃ plan, parseWorkflow
        [⟨"f", .file, [], none⟩, ⟨"a", .analyzer, [("analyzer", .str "A")], none⟩]
        [⟨"e1", "f", "a", none, none⟩] = .ok plan ∧
      ∃ st, st ∈ plan.stages ∧ st.dependsOn = .null) ∧
    (∃ plan, parseWorkflow
        [⟨"f", .file, [], none⟩,
         ⟨"a", .analyzer, [("analyzer", .str "A")], none⟩,
         ⟨"c", .conditional, [], some ⟨"verdict_malicious", "A", none, none⟩⟩,
         ⟨"b", .analyzer, [("analyzer", .str "B")], none⟩,
         ⟨"r", .result, [], none⟩]
        [⟨"e1", "f", "a", none, none⟩, ⟨"e2", "a", "c", none, none⟩,
         ⟨"e3", "c", "b", some "true-output", none⟩, ⟨"e4", "b", "r", none, none⟩] =
        .ok plan ∧
      ∃ st, st ∈ plan.stages ∧ st.dependsOn = .null) :=
  ⟨c1_amended.1
     [⟨"f", .file, [], none⟩, ⟨"a", .analyzer, [("analyzer", .str "A")], none⟩]
     [⟨"e1", "f", "a", none, none⟩] ⟨"f", .file, [], none⟩
     (by decide) (by decide) (by decide),
   c1_amended.2
     [⟨"f", .file, [], none⟩,
      ⟨"a", .analyzer, [("analyzer", .str "A")], none⟩,
      ⟨"c", .conditional, [], some ⟨"verdict_malicious", "A", none, none⟩⟩,
      ⟨"b", .analyzer, [("analyzer", .str "B")], none⟩,
      ⟨"r", .result, [], none⟩]
     [⟨"e1", "f", "a", none, none⟩, ⟨"e2", "a", "c", none, none⟩,
      ⟨"e3", "c", "b", some "true-output", none⟩, ⟨"e4", "b", "r", none, none⟩]
     ⟨"f", .file, [], none⟩
     [⟨-1, [.str "B"], .str "A",
       .dict [("type", .str "verdict_malicious"), ("source_analyzer", .str "A")], ["r"]⟩]
     (by decide) (by decide) (by decide) (by decide)⟩
